import Mathlib

/-!
# Freddi: disk evolution driver (`src/freddi.cpp`, `src/fred.cpp`)

A shallow embedding of the body of `main`: grid construction, the closure
`wunc`, the per-step radiative fields, the outer-boundary scans, the grid
truncation and the disk-mass accumulation.

Modelling conventions.

* `double` is modelled by exact arithmetic in a linear ordered field `α`
  (`ℚ` for evaluation, `ℝ` for statements about `pow`).  Rounding, overflow and
  NaN are not modelled.
* `pow` from `<cmath>` is passed as a function `pow : α → α → α`.  Theorems that
  depend on how it behaves assume `PowLaws pow`, the usual laws of the real power
  function on non-negative bases; `Real.rpow` satisfies them
  (`rpow_PowLaws`).
* C++ exceptions are modelled with `Except Error`.
* `std::vector<double>` is `List α`; `v.at(i)` is `vecAt v i`.
* Code that lives outside the two drivers (`OpacityRelated`,
  `nonlenear_diffusion_nonuniform_1_2`, `T_GR`, `Luminosity`, `I_lambda`) is passed
  as a parameter.
-/

namespace Freddi

/-- The exceptions the drivers can see. -/
inductive Error where
  /-- `std::out_of_range`, thrown by `std::vector::at`. -/
  | out_of_range
  /-- `po::invalid_option_value`. -/
  | invalid_option_value
  /-- `std::runtime_error`, thrown by the diffusion stepper. -/
  | runtime_error
  /-- `std::length_error`, thrown by `std::vector<double> v(n)` for a negative `int n`. -/
  | length_error
  /-- `po::error`, thrown by the `--Cirr` / `--boundcond=Tirr` check. -/
  | program_options_error
  deriving DecidableEq, Repr

section Defs

variable {α : Type} [LinearOrderedField α]

/-- `v.at(i)` for an `int i`: bounds-checked read. -/
def vecAt (v : List α) (i : Int) : Except Error α :=
  if i < 0 then Except.error Error.out_of_range
  else
    match v[i.toNat]? with
    | some x => Except.ok x
    | none => Except.error Error.out_of_range

/-- `v.resize(n)` for `0 ≤ n`: keep the first `n` entries, pad with zeros. -/
def resize (v : List α) (n : Int) : List α :=
  v.take n.toNat ++ List.replicate (n.toNat - v.length) 0

/-- The loop `for (int i = 0; i < n; ++i) v.at(i) = f(i);` over a vector of
length `n`: the values `f 0, …, f (n-1)` in order, or the first exception. -/
def tabulateE {β : Type} (f : Nat → Except Error β) : Nat → Except Error (List β)
  | 0 => Except.ok []
  | n + 1 =>
    match tabulateE f n with
    | Except.error e => Except.error e
    | Except.ok r =>
      match f n with
      | Except.error e => Except.error e
      | Except.ok x => Except.ok (r ++ [x])

/-- The laws of the real power function that the proofs use, on the domain where
`pow` of `<cmath>` returns a real number. -/
structure PowLaws (pow : α → α → α) : Prop where
  exp_zero : ∀ x, pow x 0 = 1
  exp_one : ∀ x, 0 ≤ x → pow x 1 = x
  exp_add : ∀ x a b, 0 < x → pow x (a + b) = pow x a * pow x b
  exp_mul : ∀ x a b, 0 ≤ x → pow (pow x a) b = pow x (a * b)
  nonneg : ∀ x y, 0 ≤ x → 0 ≤ pow x y
  pos : ∀ x y, 0 < x → 0 < pow x y
  zero_base : ∀ y, 0 < y → pow 0 y = 0
  exp_lt : ∀ x a b, 1 < x → a < b → pow x a < pow x b
  base_le : ∀ x y a, 0 ≤ x → x ≤ y → 0 ≤ a → pow x a ≤ pow y a

/-! ## Rounding of `double` arithmetic -/

/-- The properties of the rounding `fl` of an arithmetic result to a `double` that
the statements about the grid use: it is monotone and leaves `0` and `1` unchanged. -/
structure RoundLaws (fl : α → α) : Prop where
  mono : ∀ a b, a ≤ b → fl a ≤ fl b
  zero : fl 0 = 0
  one : fl 1 = 1

/-- Rounding of a rational to the nearest integer, ties to the even one. -/
def roundHalfEven (x : ℚ) : ℤ :=
  if x - ⌊x⌋ < 1 / 2 then ⌊x⌋
  else if 1 / 2 < x - ⌊x⌋ then ⌊x⌋ + 1
  else if ⌊x⌋ % 2 = 0 then ⌊x⌋ else ⌊x⌋ + 1

/-- The exponent `e` of the last mantissa bit of `x ≠ 0` in binary64:
`2^52 ≤ |x| / 2^e < 2^53`. -/
def binadeExponent (x : ℚ) : ℤ := Int.log 2 |x| - 52

/-- Rounding of a rational to binary64, round-to-nearest, ties-to-even, with a
53-bit mantissa.  The exponent is unbounded: overflow and subnormal numbers are not
modelled. -/
def roundDouble (x : ℚ) : ℚ :=
  if x = 0 then 0
  else (roundHalfEven (x / 2 ^ binadeExponent x) : ℚ) * 2 ^ binadeExponent x

/-- The function `pow` on the exponents that are integers, where it is exact for the
exponents `0` and `1`: `x ^ ⌊y⌋`.  A grid of two points calls `pow` with the
exponents `0` and `1` only. -/
def intPow (x y : ℚ) : ℚ := x ^ ⌊y⌋

/-! ## Grid construction (`freddi.cpp` 226–236, `fred.cpp` 177–187) -/

/-- The value stored in `h.at(i)` by the grid loop.  `fl` is the rounding of the
result of each arithmetic operation to a `double` (`fl = id` is exact arithmetic);
`pow` returns a `double`; `i` and `Nx - 1.` are exact.  In the `linear` branch
`(h_out - h_in) * i/(Nx-1.)` is `((h_out - h_in) * i) / (Nx - 1.)`.  For `Nx = 1` the
code divides `0.` by `0.`; that quotient (a NaN) is not modelled, and no statement
depends on the value of a one-point grid. -/
def gridValue (fl : α → α) (pow : α → α → α) (grid_scale : String) (h_in h_out : α)
    (Nx : Int) (i : Nat) : Except Error α :=
  if grid_scale = "log" then
    Except.ok (fl (h_in * pow (fl (h_out / h_in)) (fl ((i : α) / ((Nx : α) - 1)))))
  else if grid_scale = "linear" then
    Except.ok (fl (h_in + fl (fl (fl (h_out - h_in) * (i : α)) / ((Nx : α) - 1))))
  else
    Except.error Error.invalid_option_value

/-- The vectors `h` and `R` after the grid loop; `R.at(i) = h.at(i) * h.at(i) / GM`
with both results rounded by `fl`. -/
def buildGrid (fl : α → α) (pow : α → α → α) (grid_scale : String) (h_in h_out GM : α)
    (Nx : Int) : Except Error (List α × List α) :=
  if Nx < 0 then Except.error Error.length_error
  else
    match tabulateE (gridValue fl pow grid_scale h_in h_out Nx) Nx.toNat with
    | Except.error e => Except.error e
    | Except.ok h => Except.ok (h, h.map fun x => fl (fl (x * x) / GM))

/-! ## Parameters and collaborators -/

/-- The two drivers: `fred.cpp` and `freddi.cpp`. -/
inductive Driver where
  | fred
  | freddi
  deriving DecidableEq, Repr

/-- The members of `OpacityRelated` (declared in `opacity_related.hpp`) that the
drivers read. -/
structure OpacityRelated (α : Type) where
  m : α
  n : α
  D : α
  Height : α → α → α
  f_F : α → α

/-- The closure type passed to the diffusion stepper: `wunc(h, F, first, last)`. -/
abbrev Closure (α : Type) := List α → List α → Int → Int → Except Error (List α)

/-- Functions and constants that are declared outside the two drivers. -/
structure External (α : Type) where
  /-- `pow` of `<cmath>`. -/
  pow : α → α → α
  /-- `log10` of `<cmath>`. -/
  log10 : α → α
  /-- `M_PI`. -/
  M_PI : α
  STEFAN_BOLTZMANN_CONSTANT : α
  SPEED_OF_LIGHT : α
  SOLAR_MASS : α
  oprel : OpacityRelated α
  /-- The diffusion stepper `(tau, eps, left, right, wunc, h, F)`: the new `F`, or an
  exception. -/
  nonlenear_diffusion_nonuniform_1_2 :
    α → α → α → α → Closure α → List α → List α → Except Error (List α)
  T_GR : α → α → α → α → α → α
  Luminosity : List α → List α → α → α → Int → α
  I_lambda : List α → List α → α → α
  /-- What reading the uninitialised `double stepR` yields in iteration `i`. -/
  uninit_stepR : Nat → α
  /-- What reading `C_irr` yields when the fields loop never assigned it. -/
  uninit_C_irr : α

/-- The configuration variables of `main` that the time loop reads. -/
structure Params (α : Type) where
  driver : Driver
  alpha : α
  fc : α
  kerr : α
  Mx : α
  GM : α
  eta : α
  r_out : α
  T_min_hot_disk : α
  C_irr_input : α
  kMdot_out : α
  tau : α
  eps : α
  Time : α
  nu_min : α
  nu_max : α
  cosiOverD2 : α
  DAY : α
  solar_radius : α
  /-- The photometric bands `(lambda, irr0)` in the order the magnitudes are written. -/
  bands : List (α × α)
  bound_cond_type : String
  initial_cond_shape : String
  irr_factor_type : String
  output_fulldata : Bool

/-- The variables of `main` that change from one step to the next. -/
structure State (α : Type) where
  Nx : Int
  h : List α
  R : List α
  F : List α
  Mdot_in : α
  Mdot_in_prev : α
  Mdot_out : α
  Mdisk : α

/-! ## The closure `wunc` (`freddi.cpp` 208–219, `fred.cpp` 159–170) -/

/-- The value pushed onto `W` for one index. -/
def wuncValue (x : External α) (d : Driver) (Fi hi : α) : α :=
  match d with
  | Driver.freddi =>
    x.pow Fi (1 - x.oprel.m) * x.pow hi x.oprel.n / (1 - x.oprel.m) / x.oprel.D
  | Driver.fred =>
    x.pow (2 * x.M_PI * Fi) (1 - x.oprel.m) * x.pow hi x.oprel.n / (1 - x.oprel.m)
      / x.oprel.D / (2 * x.M_PI)

/-- The loop `for (int i = first; i <= last; ++i) W.push_back(…)`, entered at index
`i` with `k` iterations left. -/
def wuncLoop (x : External α) (d : Driver) (h F : List α) :
    Int → Nat → List α → Except Error (List α)
  | _, 0, W => Except.ok W
  | i, k + 1, W =>
    match vecAt F i with
    | Except.error e => Except.error e
    | Except.ok Fi =>
      match vecAt h i with
      | Except.error e => Except.error e
      | Except.ok hi => wuncLoop x d h F (i + 1) k (W ++ [wuncValue x d Fi hi])

/-- The lambda `wunc`. -/
def wunc (x : External α) (d : Driver) : Closure α := fun h F first last =>
  wuncLoop x d h F first (last - first + 1).toNat
    (List.replicate (if first > 0 then first else 0).toNat 0)

/-- The lambda `Sigma_hot_disk`. -/
def Sigma_hot_disk (x : External α) (d : Driver) (alpha Mx : α) (r : α) : α :=
  match d with
  | Driver.freddi =>
    39.9 * x.pow (alpha / 0.1) (-0.80) * x.pow (r / 1e10) 1.11
      * x.pow (Mx / x.SOLAR_MASS) (-0.37)
  | Driver.fred =>
    0.5 * 39.9 * x.pow (alpha / 0.1) (-0.80) * x.pow (r / 1e10) 1.11
      * x.pow (Mx / x.SOLAR_MASS) (-0.37)

/-! ## Radiative fields (`freddi.cpp` 324–343, `fred.cpp` 257–276) -/

/-- The values one iteration of the fields loop stores at index `i`. -/
structure Cell (α : Type) where
  Sigma : α
  Height : α
  Tph_vis : α
  Tph_X : α
  Qx : α
  C_irr : α
  Tirr : α
  Tph : α

/-- What the vectors hold at an index the fields loop does not visit:
`vector<double> V(Nx, 0.)`. -/
def zeroCell (x : External α) : Cell α :=
  { Sigma := 0, Height := 0, Tph_vis := 0, Tph_X := 0, Qx := 0,
    C_irr := x.uninit_C_irr, Tirr := 0, Tph := 0 }

/-- The irradiation factor and the flux `Qx` of one iteration. -/
def irradiation (p : Params α) (x : External α) (Mdot_in Height Ri : α) :
    Except Error (α × α) :=
  if p.irr_factor_type = "const" then
    Except.ok (p.C_irr_input,
      p.C_irr_input * p.eta * Mdot_in * x.SPEED_OF_LIGHT * x.SPEED_OF_LIGHT
        / (4 * x.M_PI * Ri * Ri))
  else if p.irr_factor_type = "square" then
    Except.ok (p.C_irr_input * (Height / Ri) * (Height / Ri),
      p.C_irr_input * (Height / Ri) * (Height / Ri) * p.eta * Mdot_in
        * x.SPEED_OF_LIGHT * x.SPEED_OF_LIGHT / (4 * x.M_PI * Ri * Ri))
  else Except.error Error.invalid_option_value

/-- The viscous photospheric temperature of one grid point. -/
def Tph_vis_value (p : Params α) (x : External α) (hi Fi : α) : α :=
  match p.driver with
  | Driver.freddi =>
    p.GM * x.pow hi (-1.75)
      * x.pow (3 / (8 * x.M_PI) * Fi / x.STEFAN_BOLTZMANN_CONSTANT) 0.25
  | Driver.fred =>
    p.GM * x.pow hi (-1.75) * x.pow (0.75 * Fi / x.STEFAN_BOLTZMANN_CONSTANT) 0.25

/-- The surface density of one grid point. -/
def Sigma_value (p : Params α) (x : External α) (Wi hi : α) : α :=
  match p.driver with
  | Driver.freddi => Wi * p.GM * p.GM / (4 * x.M_PI * x.pow hi 3)
  | Driver.fred => 0.5 * Wi * p.GM * p.GM / (2 * x.pow hi 3)

/-- One iteration of the fields loop, `1 ≤ i < Nx`. -/
def cellAt (p : Params α) (x : External α) (h R F W : List α) (Mdot_in : α) (i : Int) :
    Except Error (Cell α) :=
  match vecAt W i, vecAt h i, vecAt R i, vecAt F i with
  | Except.ok Wi, Except.ok hi, Except.ok Ri, Except.ok Fi =>
    let Height := x.oprel.Height Ri Fi
    let Tph_vis := Tph_vis_value p x hi Fi
    let Tph_X := p.fc * x.T_GR Ri (match p.driver with
      | Driver.freddi => p.kerr
      | Driver.fred => 0) p.Mx Mdot_in (R.headD 0)
    match irradiation p x Mdot_in Height Ri with
    | Except.error e => Except.error e
    | Except.ok (C_irr, Qx) =>
      Except.ok
        { Sigma := Sigma_value p x Wi hi, Height := Height, Tph_vis := Tph_vis,
          Tph_X := Tph_X, Qx := Qx, C_irr := C_irr,
          Tirr := x.pow (Qx / x.STEFAN_BOLTZMANN_CONSTANT) 0.25,
          Tph := x.pow (x.pow Tph_vis 4 + Qx / x.STEFAN_BOLTZMANN_CONSTANT) 0.25 }
  | _, _, _, _ => Except.error Error.out_of_range

/-- The vectors declared at the top of the loop body, after the fields loop: index
`0` keeps its initial `0.`, every index `1 ≤ i < Nx` holds what `cellAt` stores. -/
def radiativeFields (p : Params α) (x : External α) (h R F W : List α) (Mdot_in : α)
    (Nx : Int) : Except Error (List (Cell α)) :=
  tabulateE (fun i => if i = 0 then Except.ok (zeroCell x)
    else cellAt p x h R F W Mdot_in (i : Int)) Nx.toNat

/-! ## Outer-boundary scans (`freddi.cpp` 347–375, `fred.cpp` 280–308) -/

/-- The loop `do { ii--; } while ( V.at(ii) < bound(ii) );` entered with `ii = k`:
the index it stops at, or the exception of `V.at(-1)`. -/
def scanDown (V : List α) (bound : Nat → α) : Nat → Except Error Int
  | 0 => Except.error Error.out_of_range
  | k + 1 =>
    match vecAt V (k : Int) with
    | Except.error e => Except.error e
    | Except.ok v => if v < bound k then scanDown V bound k else Except.ok (k : Int)

/-- The edge index `ii` chosen by the boundary condition. -/
def edgeIndex (p : Params α) (x : External α) (R : List α) (cells : List (Cell α))
    (Nx : Int) (Mdot_in Mdot_in_prev : α) : Except Error Int :=
  if p.bound_cond_type = "MdotOut" then
    scanDown (cells.map Cell.Sigma)
      (fun ii => Sigma_hot_disk x p.driver p.alpha p.Mx (R.getD ii 0)) Nx.toNat
  else if p.bound_cond_type = "fourSigmaCrit" then
    scanDown (cells.map Cell.Sigma)
      (fun ii => 4 * Sigma_hot_disk x p.driver p.alpha p.Mx (R.getD ii 0)) Nx.toNat
  else if p.bound_cond_type = "Teff" then
    scanDown (cells.map Cell.Tph) (fun _ => p.T_min_hot_disk) Nx.toNat
  else if p.bound_cond_type = "Tirr" then
    if Mdot_in ≥ Mdot_in_prev ∧
        (p.initial_cond_shape = "power" ∨ p.initial_cond_shape = "sinusgauss") then
      scanDown (cells.map Cell.Tph) (fun _ => p.T_min_hot_disk) Nx.toNat
    else
      scanDown (cells.map Cell.Tirr) (fun _ => p.T_min_hot_disk) Nx.toNat
  else Except.error Error.invalid_option_value

/-- The update `if ( ii < Nx-1 ) { Nx = ii+1; h.resize(Nx); }`: the new `Nx` and `h`. -/
def truncate (ii Nx : Int) (h : List α) : Int × List α :=
  if ii < Nx - 1 then (ii + 1, resize h (ii + 1)) else (Nx, h)

/-! ## Disk mass (`freddi.cpp` 390–397) -/

/-- The value of `stepR` after the three `if` statements of iteration `i`; `u` is
what the declaration `double stepR;` left in the variable. -/
def stepR (R : List α) (Nx i : Int) (u : α) : Except Error α :=
  let s1 : Except Error α :=
    if i = 0 then
      match vecAt R (i + 1), vecAt R i with
      | Except.ok a, Except.ok b => Except.ok (a - b)
      | _, _ => Except.error Error.out_of_range
    else Except.ok u
  match s1 with
  | Except.error e => Except.error e
  | Except.ok v1 =>
    let s2 : Except Error α :=
      if i = Nx - 1 then
        match vecAt R i, vecAt R (i - 1) with
        | Except.ok a, Except.ok b => Except.ok (a - b)
        | _, _ => Except.error Error.out_of_range
      else Except.ok v1
    match s2 with
    | Except.error e => Except.error e
    | Except.ok v2 =>
      if i > 1 ∧ i < Nx - 1 then
        match vecAt R (i + 1), vecAt R (i - 1) with
        | Except.ok a, Except.ok b => Except.ok (a - b)
        | _, _ => Except.error Error.out_of_range
      else Except.ok v2

/-- The variable `Mdisk` after the first `k` iterations of the accumulation loop. -/
def MdiskLoop (x : External α) (R Sigma : List α) (Nx : Int) : Nat → Except Error α
  | 0 => Except.ok 0
  | k + 1 =>
    match MdiskLoop x R Sigma Nx k with
    | Except.error e => Except.error e
    | Except.ok acc =>
      match stepR R Nx (k : Int) (x.uninit_stepR k), vecAt Sigma (k : Int),
          vecAt R (k : Int) with
      | Except.ok sR, Except.ok S, Except.ok Rk =>
        Except.ok (acc + 0.5 * S * 2 * x.M_PI * Rk * sR)
      | Except.error e, _, _ => Except.error e
      | _, _, _ => Except.error Error.out_of_range

/-- The variable `Mdisk` after the accumulation loop. -/
def Mdisk (x : External α) (R Sigma : List α) (Nx : Int) : Except Error α :=
  MdiskLoop x R Sigma Nx Nx.toNat

/-! ## One pass of the time loop (`freddi.cpp` 308–435, `fred.cpp` 241–359) -/

/-- The line written to `output_sum` in one step and, with `--fulldata`, the rows
of the per-step file. -/
structure Record (α : Type) where
  t_days : α
  Mdot_in : α
  Lx : α
  H2R : α
  Rhot : α
  Tphout : α
  /-- Column `Mdisk`, written by `freddi.cpp` only. -/
  Mdisk : Option α
  C_irr : α
  Qirr2Qvisout : α
  /-- Column `Qirr2Qvisout_analyt`, written by `fred.cpp` only. -/
  Qirr2Qvisout_analyt : Option α
  mags : List α
  fulldata : Option (List (List α))

/-- What one completed pass of the loop body leaves behind. -/
structure StepOutput (α : Type) where
  state : State α
  W : List α
  cells : List (Cell α)
  ii : Int
  record : Record α

/-- The `try` block: the stepper call followed by `W = wunc(h, F, 1, Nx-1)`.
`none` stands for a caught `runtime_error`, which leaves the loop by `break`. -/
def tryBlock (p : Params α) (x : External α) (s : State α) :
    Except Error (Option (List α × List α)) :=
  match x.nonlenear_diffusion_nonuniform_1_2 p.tau p.eps 0
      (match p.driver with
        | Driver.freddi => s.Mdot_out
        | Driver.fred => s.Mdot_out / (2 * x.M_PI))
      (wunc x p.driver) s.h s.F with
  | Except.error Error.runtime_error => Except.ok none
  | Except.error e => Except.error e
  | Except.ok F =>
    match wunc x p.driver s.h F 1 (s.Nx - 1) with
    | Except.error Error.runtime_error => Except.ok none
    | Except.error e => Except.error e
    | Except.ok W => Except.ok (some (F, W))

/-- The assignment to `Mdot_in` after the `try` block. -/
def Mdot_in_value (p : Params α) (x : External α) (h F : List α) : Except Error α :=
  match vecAt F 1, vecAt F 0, vecAt h 1, vecAt h 0 with
  | Except.ok F1, Except.ok F0, Except.ok h1, Except.ok h0 =>
    match p.driver with
    | Driver.freddi => Except.ok ((F1 - F0) / (h1 - h0))
    | Driver.fred => Except.ok (2 * x.M_PI * (F1 - F0) / (h1 - h0))
  | _, _, _, _ => Except.error Error.out_of_range

/-- The magnitudes `mU … mJ`. -/
def magnitudes (p : Params α) (x : External α) (R Tph : List α) : List α :=
  p.bands.map fun b => -2.5 * x.log10 (x.I_lambda R Tph b.1 * p.cosiOverD2 / b.2)

/-- One row of the per-step file. -/
def fulldataRow (p : Params α) (h R F W : List α) (cells : List (Cell α)) (i : Int) :
    Except Error (List α) :=
  match vecAt h i, vecAt R i, vecAt F i, vecAt W i, vecAt cells i with
  | Except.ok hi, Except.ok Ri, Except.ok Fi, Except.ok Wi, Except.ok c =>
    match p.driver with
    | Driver.freddi => Except.ok [hi, Ri, Fi, c.Sigma, c.Tph, c.Tph_vis, c.Height]
    | Driver.fred => Except.ok [hi, Fi, c.Sigma, Wi, Ri, c.Tph_vis, c.Height, c.Tph]
  | _, _, _, _, _ => Except.error Error.out_of_range

/-- The rows `1 ≤ i < Nx` of the per-step file, when `--fulldata` is given. -/
def fulldataRows (p : Params α) (h R F W : List α) (cells : List (Cell α)) (Nx : Int) :
    Except Error (Option (List (List α))) :=
  if p.output_fulldata then
    match tabulateE (fun k => fulldataRow p h R F W cells ((k : Int) + 1))
        (Nx - 1).toNat with
    | Except.error e => Except.error e
    | Except.ok rows => Except.ok (some rows)
  else Except.ok none

/-- The summary line of one step. -/
def makeRecord (p : Params α) (x : External α) (t : α) (s : State α) (W : List α)
    (cells : List (Cell α)) : Except Error (Record α) :=
  match fulldataRows p s.h s.R s.F W cells s.Nx with
  | Except.error e => Except.error e
  | Except.ok rows =>
    match vecAt cells (s.Nx - 1), vecAt s.R (s.Nx - 1) with
    | Except.ok c, Except.ok Rout =>
      let C_irr := if cells.length ≤ 1 then x.uninit_C_irr else (cells.getLastD c).C_irr
      Except.ok
        { t_days := t / p.DAY
          Mdot_in := s.Mdot_in
          Lx := x.Luminosity s.R (cells.map Cell.Tph_X) p.nu_min p.nu_max 100
            / x.pow p.fc 4
          H2R := c.Height / Rout
          Rhot := match p.driver with
            | Driver.freddi => Rout / p.solar_radius
            | Driver.fred => Rout / p.r_out
          Tphout := c.Tph
          Mdisk := match p.driver with
            | Driver.freddi => some s.Mdisk
            | Driver.fred => none
          C_irr := C_irr
          Qirr2Qvisout := x.pow (c.Tirr / c.Tph_vis) 4
          Qirr2Qvisout_analyt := match p.driver with
            | Driver.freddi => none
            | Driver.fred =>
              some (4 / 3 * p.eta * C_irr * Rout
                / (2 * p.GM / x.SPEED_OF_LIGHT / x.SPEED_OF_LIGHT))
          mags := magnitudes p x s.R (cells.map Cell.Tph)
          fulldata := rows }
    | _, _ => Except.error Error.out_of_range

/-- One pass of the body of the time loop at time `t`.  `Except.ok none` is the
`break` after a caught `runtime_error`; `Except.error` is an exception that leaves
`main`. -/
def step (p : Params α) (x : External α) (t : α) (s : State α) :
    Except Error (Option (StepOutput α)) :=
  if s.Nx < 0 then Except.error Error.length_error
  else
    match tryBlock p x s with
    | Except.error e => Except.error e
    | Except.ok none => Except.ok none
    | Except.ok (some (F, W)) =>
      match Mdot_in_value p x s.h F with
      | Except.error e => Except.error e
      | Except.ok Mdot_in =>
        match radiativeFields p x s.h s.R F W Mdot_in s.Nx with
        | Except.error e => Except.error e
        | Except.ok cells =>
          match edgeIndex p x s.R cells s.Nx Mdot_in s.Mdot_in with
          | Except.error e => Except.error e
          | Except.ok ii =>
            let Mdot_out :=
              if p.bound_cond_type = "MdotOut" then -p.kMdot_out * Mdot_in else s.Mdot_out
            let Nxh := truncate ii s.Nx s.h
            let Md : Except Error α :=
              match p.driver with
              | Driver.freddi => Mdisk x s.R (cells.map Cell.Sigma) Nxh.1
              | Driver.fred => Except.ok s.Mdisk
            match Md with
            | Except.error e => Except.error e
            | Except.ok Mdisk =>
              let s1 : State α :=
                { Nx := Nxh.1, h := Nxh.2, R := s.R, F := F, Mdot_in := Mdot_in,
                  Mdot_in_prev := s.Mdot_in, Mdot_out := Mdot_out, Mdisk := Mdisk }
              match makeRecord p x t s1 W cells with
              | Except.error e => Except.error e
              | Except.ok r =>
                Except.ok (some { state := s1, W := W, cells := cells, ii := ii, record := r })

/-- `Next p x s s1`: the loop body, run in state `s` at some time `t`, completes
and leaves the state `s1` for the next pass. -/
def Next (p : Params α) (x : External α) (s s1 : State α) : Prop :=
  ∃ t o, step p x t s = Except.ok (some o) ∧ o.state = s1


/-! ## Set-up (`freddi.cpp` 189–296, `fred.cpp` 143–230) -/

/-- The functions of `<cmath>` that only the initial-condition code calls. -/
structure Libm (α : Type) where
  sin : α → α
  exp : α → α
  sqrt : α → α

/-- The variables of `main` that only the set-up reads. -/
structure Setup (α : Type) where
  p : Params α
  opacity_type : String
  grid_scale : String
  mu : α
  Nx : Int
  h_in : α
  h_out : α
  F0_gauss : α
  power_order : α
  /-- The option `--Mdot0` of `freddi.cpp`: the initial value of `Mdot_in`. -/
  Mdot0 : α

/-- The constant `sigma_for_F_gauss` of `main`. -/
def sigma_for_F_gauss : α := 5

/-- The constant `r_gauss_cut_to_r_out` of `main`. -/
def r_gauss_cut_to_r_out : α := 0.01

/-- The value of `Mdot_in` when the initial condition is built: the option `--Mdot0`
in `freddi.cpp`, the initialiser `0.` in `fred.cpp`. -/
def initialMdot_in (c : Setup α) : α :=
  match c.p.driver with
  | Driver.freddi => c.Mdot0
  | Driver.fred => 0

/-- The loop `for (int i = 0; i < Nx; ++i) F.at(i) = f(h.at(i));`. -/
def initialValues (h : List α) (Nx : Int) (f : α → α) : Except Error (List α) :=
  tabulateE (fun i =>
    match vecAt h (i : Int) with
    | Except.error e => Except.error e
    | Except.ok hi => Except.ok (f hi)) Nx.toNat

/-- The term `F0 * sin( (h - h_in) / (h_top - h_in) * M_PI / 2. )` of the sinusoidal
shapes. -/
def sinusValue (m : Libm α) (pi F0 h_in h_top hi : α) : α :=
  F0 * m.sin ((hi - h_in) / (h_top - h_in) * pi / 2)

/-- The term `F0_gauss * exp( - (h-h_out)*(h-h_out) / (2. * h_out*h_out/(sigma*sigma)) )`
of the `sinusgauss` shape. -/
def gaussValue (m : Libm α) (F0 h_out hi : α) : α :=
  F0 * m.exp (-(hi - h_out) * (hi - h_out)
    / (2 * h_out * h_out / (sigma_for_F_gauss * sigma_for_F_gauss)))

/-- The value `F.at(i)` of the `sinusgauss` shape. -/
def sinusgaussValue (m : Libm α) (pi F0 h_in h_out hi : α) : α :=
  let F_gauss_cut := gaussValue m F0 h_out (h_out / m.sqrt r_gauss_cut_to_r_out)
  let F_gauss := gaussValue m F0 h_out hi - F_gauss_cut
  (if F_gauss ≥ 0 then F_gauss else 0) + sinusValue m pi (1e-6 * F0) h_in h_out hi

/-- The value `F.at(i)` of the `power` / `powerF` shape. -/
def powerValue (x : External α) (F0 power_order h_in h_out hi : α) : α :=
  F0 * x.pow ((hi - h_in) / (h_out - h_in)) power_order

/-- The value `F.at(i)` of the `powerSigma` shape. -/
def powerSigmaValue (x : External α) (F0 power_order h_in h_out hi : α) : α :=
  F0 * x.pow (hi / h_out) ((3 - x.oprel.n) / (1 - x.oprel.m))
    * x.pow (x.pow ((hi - h_in) / (h_out - h_in)) power_order) (1 / (1 - x.oprel.m))

/-- The value `F.at(i)` of the `sinusparabola` shape. -/
def sinusparabolaValue (m : Libm α) (pi kMdot_out F0 h_in h_out hi : α) : α :=
  if hi < h_out * 0.9 then sinusValue m pi F0 h_in (h_out * 0.9) hi
  else
    F0 * (1 - kMdot_out / (h_out * 0.9 - h_in) / (h_out - h_out * 0.9) * pi / 4
      * (hi - h_out * 0.9) * (hi - h_out * 0.9))

/-- The value `F.at(i)` of the `quasistat` shape. -/
def quasistatValue (x : External α) (F0 h_in h_out hi : α) : α :=
  F0 * x.oprel.f_F (hi / h_out) * (1 - h_in / hi) / (1 - h_in / h_out)

/-- The initial-condition dispatch on `initial_cond_shape`: the vector `F` and the
variables `F0_gauss` and `Mdot_out` as the dispatch leaves them. -/
def initialCondition (c : Setup α) (x : External α) (m : Libm α) (h R : List α) :
    Except Error (List α × α × α) :=
  if c.p.initial_cond_shape = "sinusgauss" then
    match initialValues h c.Nx (sinusgaussValue m x.M_PI c.F0_gauss c.h_in c.h_out) with
    | Except.error e => Except.error e
    | Except.ok F => Except.ok (F, c.F0_gauss, 0)
  else if c.p.initial_cond_shape = "power"
      ∨ (c.p.driver = Driver.freddi ∧ c.p.initial_cond_shape = "powerF") then
    if c.p.driver = Driver.freddi ∧ initialMdot_in c ≠ 0 then
      Except.error Error.invalid_option_value
    else
      match initialValues h c.Nx
          (powerValue x c.F0_gauss c.power_order c.h_in c.h_out) with
      | Except.error e => Except.error e
      | Except.ok F => Except.ok (F, c.F0_gauss, 0)
  else if c.p.driver = Driver.freddi ∧ c.p.initial_cond_shape = "powerSigma" then
    if initialMdot_in c ≠ 0 then Except.error Error.invalid_option_value
    else
      match initialValues h c.Nx
          (powerSigmaValue x c.F0_gauss c.power_order c.h_in c.h_out) with
      | Except.error e => Except.error e
      | Except.ok F => Except.ok (F, c.F0_gauss, 0)
  else if c.p.initial_cond_shape = "sinus"
      ∨ (c.p.driver = Driver.freddi ∧ c.p.initial_cond_shape = "sinusF") then
    let F0 :=
      if c.p.driver = Driver.freddi ∧ initialMdot_in c > 0 then
        initialMdot_in c * (c.h_out - c.h_in) * 2 / x.M_PI
      else c.F0_gauss
    match initialValues h c.Nx (sinusValue m x.M_PI F0 c.h_in c.h_out) with
    | Except.error e => Except.error e
    | Except.ok F => Except.ok (F, F0, 0)
  else if c.p.initial_cond_shape = "sinusparabola" then
    match vecAt R (c.Nx - 1), vecAt h (c.Nx - 1) with
    | Except.ok Rlast, Except.ok hlast =>
      let F0 := 1.24e13
        * x.pow (Sigma_hot_disk x c.p.driver c.p.alpha c.p.Mx Rlast) (10 / 7)
        * x.pow hlast (22 / 7) * x.pow c.p.GM (-10 / 7) * x.pow c.p.alpha (8 / 7)
      match initialValues h c.Nx
          (sinusparabolaValue m x.M_PI c.p.kMdot_out F0 c.h_in c.h_out) with
      | Except.error e => Except.error e
      | Except.ok F =>
        Except.ok (F, F0,
          -c.p.kMdot_out * F0 / (c.h_out * 0.9 - c.h_in) * x.M_PI * x.M_PI)
    | _, _ => Except.error Error.out_of_range
  else if c.p.initial_cond_shape = "quasistat" then
    let F0 :=
      if c.p.driver = Driver.freddi ∧ initialMdot_in c > 0 then
        initialMdot_in c * (c.h_out - c.h_in) / c.h_out * c.h_in
          / x.oprel.f_F (c.h_in / c.h_out)
      else c.F0_gauss
    match initialValues h c.Nx (quasistatValue x F0 c.h_in c.h_out) with
    | Except.error e => Except.error e
    | Except.ok F => Except.ok (F, F0, 0)
  else Except.error Error.invalid_option_value

/-- Everything `main` does before the time loop: the `--Cirr` / `Tirr` check of
`freddi.cpp`, the construction of `OpacityRelated`, the grid and the initial
condition.  `newOpacityRelated` is the constructor of `OpacityRelated`; `none` stands
for the `invalid_argument` it throws, which `main` rethrows as
`invalid_option_value`.  The run is modelled in exact arithmetic, so the grid is built
with `fl = id`. -/
def setup (c : Setup α) (x : External α) (m : Libm α)
    (newOpacityRelated : String → α → α → α → Option (OpacityRelated α)) :
    Except Error (External α × State α) :=
  if c.p.driver = Driver.freddi ∧ c.p.C_irr_input ≤ 0 ∧ c.p.bound_cond_type = "Tirr" then
    Except.error Error.program_options_error
  else
    match newOpacityRelated c.opacity_type c.p.Mx c.p.alpha c.mu with
    | none => Except.error Error.invalid_option_value
    | some oprel =>
      match buildGrid id x.pow c.grid_scale c.h_in c.h_out c.p.GM c.Nx with
      | Except.error e => Except.error e
      | Except.ok (h, R) =>
        match initialCondition c { x with oprel := oprel } m h R with
        | Except.error e => Except.error e
        | Except.ok (F, _, Mdot_out) =>
          Except.ok ({ x with oprel := oprel },
            { Nx := c.Nx, h := h, R := R, F := F, Mdot_in := initialMdot_in c,
              Mdot_in_prev := 0, Mdot_out := Mdot_out, Mdisk := 0 })

/-! ## The time loop and `main` (`freddi.cpp` 308–439, `fred.cpp` 241–362) -/

/-- How a run ends. -/
inductive Exit where
  /-- The loop condition `t <= Time` failed: `main` returns `0`. -/
  | horizon
  /-- A `runtime_error` of the diffusion stepper was caught and the loop left by
  `break`: `main` returns `0`. -/
  | nonConvergence
  /-- An exception left `main`. -/
  | exception (e : Error)
  /-- The model ran out of fuel before the loop ended. -/
  | outOfFuel
  deriving DecidableEq, Repr

/-- What a run leaves behind: the lines written to `output_sum`, in order, the number
of calls of the diffusion stepper, and how the run ended. -/
structure RunResult (α : Type) where
  records : List (Record α)
  stepperCalls : Nat
  exit : Exit

/-- The number of stepper calls of one pass that ends in an exception: the call is the
first statement after the declarations of the field vectors, which throw for a
negative `Nx`. -/
def stepperCallsOnError (s : State α) : Nat :=
  if s.Nx < 0 then 0 else 1

/-- The loop `for( double t = 0.; t <= Time; t += tau )`, entered at time `t` in state
`s`, with at most `fuel` passes. -/
def timeLoop (p : Params α) (x : External α) : Nat → α → State α → RunResult α
  | 0, t, _ =>
    if t ≤ p.Time then { records := [], stepperCalls := 0, exit := Exit.outOfFuel }
    else { records := [], stepperCalls := 0, exit := Exit.horizon }
  | fuel + 1, t, s =>
    if t ≤ p.Time then
      match step p x t s with
      | Except.error e =>
        { records := [], stepperCalls := stepperCallsOnError s, exit := Exit.exception e }
      | Except.ok none =>
        { records := [], stepperCalls := 1, exit := Exit.nonConvergence }
      | Except.ok (some o) =>
        { records := o.record :: (timeLoop p x fuel (t + p.tau) o.state).records
          stepperCalls := (timeLoop p x fuel (t + p.tau) o.state).stepperCalls + 1
          exit := (timeLoop p x fuel (t + p.tau) o.state).exit }
    else { records := [], stepperCalls := 0, exit := Exit.horizon }

/-- The program: set-up, then the time loop from `t = 0`. -/
def main (c : Setup α) (x : External α) (m : Libm α)
    (newOpacityRelated : String → α → α → α → Option (OpacityRelated α)) (fuel : Nat) :
    RunResult α :=
  match setup c x m newOpacityRelated with
  | Except.error e => { records := [], stepperCalls := 0, exit := Exit.exception e }
  | Except.ok (x1, s0) => timeLoop c.p x1 fuel 0 s0

/-- A collaborator bundle that fixes `pow`, `M_PI` and the closure coefficients
`m`, `n`, `D`; every other collaborator is trivial. -/
def closureExternal (pow : α → α → α) (pi m n D : α) : External α :=
  { pow := pow
    log10 := fun a => a
    M_PI := pi
    STEFAN_BOLTZMANN_CONSTANT := 1
    SPEED_OF_LIGHT := 1
    SOLAR_MASS := 1
    oprel := { m := m, n := n, D := D, Height := fun r _ => r, f_F := fun a => a }
    nonlenear_diffusion_nonuniform_1_2 := fun _ _ _ _ _ _ F => Except.ok F
    T_GR := fun _ _ _ _ _ => 1
    Luminosity := fun _ _ _ _ _ => 1
    I_lambda := fun _ _ _ => 1
    uninit_stepR := fun _ => 0
    uninit_C_irr := 0 }


/-! ## Concrete inputs used to evaluate the model -/

/-- A collaborator bundle over `ℚ` used to evaluate the model: `pow` returns its
base, the diffusion stepper returns `F` unchanged. -/
def exampleExternal : External ℚ :=
  { pow := fun a _ => a
    log10 := fun a => a
    M_PI := 3
    STEFAN_BOLTZMANN_CONSTANT := 1
    SPEED_OF_LIGHT := 1
    SOLAR_MASS := 1
    oprel := { m := 0, n := 1, D := 1, Height := fun r _ => r, f_F := fun a => a }
    nonlenear_diffusion_nonuniform_1_2 := fun _ _ _ _ _ _ F => Except.ok F
    T_GR := fun _ _ _ _ _ => 1
    Luminosity := fun _ _ _ _ _ => 1
    I_lambda := fun _ _ _ => 1
    uninit_stepR := fun _ => 100
    uninit_C_irr := 77 }


/-- A parameter set used to evaluate the model, given the driver, the boundary
condition, the initial-condition shape, the irradiation factor and the temperature
threshold. -/
def exampleParams (d : Driver) (bound_cond_type initial_cond_shape : String)
    (C_irr_input T_min_hot_disk : α) : Params α :=
  { driver := d
    alpha := 1
    fc := 1
    kerr := 0
    Mx := 1
    GM := 1
    eta := 1
    r_out := 1
    T_min_hot_disk := T_min_hot_disk
    C_irr_input := C_irr_input
    kMdot_out := 2
    tau := 1
    eps := 1
    Time := 3
    nu_min := 1
    nu_max := 2
    cosiOverD2 := 1
    DAY := 1
    solar_radius := 1
    bands := [(1, 1)]
    bound_cond_type := bound_cond_type
    initial_cond_shape := initial_cond_shape
    irr_factor_type := "const"
    output_fulldata := false }

/-- A cell with the given `Sigma`, `Tirr` and `Tph`; the other fields are `0`. -/
def exampleCell (Sigma Tirr Tph : α) : Cell α :=
  { Sigma := Sigma, Height := 0, Tph_vis := 0, Tph_X := 0, Qx := 0, C_irr := 0,
    Tirr := Tirr, Tph := Tph }

/-- A state with four grid points used to evaluate the model. -/
def exampleState : State α :=
  { Nx := 4, h := [1, 2, 3, 4], R := [1, 4, 9, 16], F := [0, 100, 50, 1],
    Mdot_in := 0, Mdot_in_prev := 0, Mdot_out := 0, Mdisk := 0 }

/-- The parameters of `freddi.cpp` with the `Teff` boundary condition, threshold
`0`, the `const` irradiation model with `C_irr_input = 0`, and the given `GM`. -/
def smallParams (GM : α) : Params α :=
  { exampleParams Driver.freddi "Teff" "power" 0 0 with GM := GM }

/-- A state with two grid points, `h = [1, 2]` and `R[i] = h[i]^2 / GM`. -/
def smallState (GM : α) : State α :=
  { Nx := 2, h := [1, 2], R := [1 / GM, 4 / GM], F := [0, 1],
    Mdot_in := 0, Mdot_in_prev := 0, Mdot_out := 0, Mdisk := 0 }

/-- The interval `dR_i` of the disk-mass rule as the specification words it:
one-sided differences at both ends, `R[i+1] - R[i-1]` at every interior index. -/
def dR_spec (R : List α) (Nx i : Nat) : α :=
  if i = 0 then R.getD 1 0 - R.getD 0 0
  else if i = Nx - 1 then R.getD (Nx - 1) 0 - R.getD (Nx - 2) 0
  else R.getD (i + 1) 0 - R.getD (i - 1) 0

/-- The disk mass as the specification words it: the sum over `i = 0..Nx-1` of
`0.5 * Sigma[i] * 2*pi*R[i] * dR_i`. -/
def Mdisk_spec (x : External α) (R Sigma : List α) (Nx : Nat) : α :=
  ((List.range Nx).map fun i =>
    0.5 * Sigma.getD i 0 * 2 * x.M_PI * R.getD i 0 * dR_spec R Nx i).sum

/-- A collaborator bundle with the given `M_PI` and with `u` as the content of an
uninitialised `stepR`; every other collaborator is trivial. -/
def garbageExternal (pi u : α) : External α :=
  { closureExternal (fun a _ => a) pi 0 1 1 with uninit_stepR := fun _ => u }

/-- A state with three grid points, `h = [1/2, 1, 2]`, `R[i] = h[i]^2` (`GM = 1`)
and the torque `F = [0, 8*pi/3, 0]`. -/
def trimState (pi : α) : State α :=
  { Nx := 3, h := [1 / 2, 1, 2], R := [1 / 4, 1, 4], F := [0, 8 * pi / 3, 0],
    Mdot_in := 0, Mdot_in_prev := 0, Mdot_out := 0, Mdisk := 0 }


/-- An `OpacityRelated` constructor used to evaluate the model: it accepts the names
`Kramers` and `OPAL` of the `--opacity` help text and returns `m = 0`, `n = 1`,
`D = 1`. -/
def exampleOpacity (name : String) (_Mx _alpha _mu : α) : Option (OpacityRelated α) :=
  if name = "Kramers" ∨ name = "OPAL" then
    some { m := 0, n := 1, D := 1, Height := fun r _ => r, f_F := fun a => a }
  else none

/-- A set-up used to evaluate the model: `h_in = 1`, `h_out = 2`, `F0_gauss = 1`,
`powerorder = 6`, opacity `Kramers`, with the given parameters, grid scale, grid size
and `--Mdot0`. -/
def exampleSetup (p : Params α) (grid_scale : String) (Nx : Int) (Mdot0 : α) : Setup α :=
  { p := p
    opacity_type := "Kramers"
    grid_scale := grid_scale
    mu := 1
    Nx := Nx
    h_in := 1
    h_out := 2
    F0_gauss := 1
    power_order := 6
    Mdot0 := Mdot0 }


/-- The first `k` passes of the time loop entered at time `t` in state `s`, when each
of them runs to its end: the lines they write, and the time and the state at the
start of pass `k`.  `none` when the loop is left before pass `k`. -/
def passes (p : Params α) (x : External α) : Nat → α → State α →
    Option (List (Record α) × α × State α)
  | 0, t, s => some ([], t, s)
  | k + 1, t, s =>
    if t ≤ p.Time then
      match step p x t s with
      | Except.ok (some o) =>
        match passes p x k (t + p.tau) o.state with
        | some (rs, tk, sk) => some (o.record :: rs, tk, sk)
        | none => none
      | _ => none
    else none

/-- The collaborators of `closureExternal` with a diffusion stepper that returns `F`
unchanged on a grid of at least three points and throws `runtime_error` on a shorter
grid. -/
def stallingExternal (pow : α → α → α) (pi : α) : External α :=
  { closureExternal pow pi 0 1 1 with
    nonlenear_diffusion_nonuniform_1_2 := fun _ _ _ _ _ h F =>
      if h.length < 3 then Except.error Error.runtime_error else Except.ok F }


/-- The parameters of a small run of `freddi.cpp`: `exampleParams` with
`--initialcond=sinus`, `--Cirr=0`, and the given boundary condition, irradiation
factor type and temperature threshold. -/
def runParams (bound_cond_type irr_factor_type : String) (T_min_hot_disk : α) : Params α :=
  { exampleParams Driver.freddi bound_cond_type "sinus" 0 T_min_hot_disk with
    irr_factor_type := irr_factor_type }

/-- The set-up of the small run: the linear grid of two points on `h_in = 1`,
`h_out = 2`, with `F0 = 1` and no `--Mdot0`. -/
def runSetup (bound_cond_type irr_factor_type : String) (T_min_hot_disk : α) : Setup α :=
  exampleSetup (runParams bound_cond_type irr_factor_type T_min_hot_disk) "linear" 2 0


/-- The cells the fields loop computes in the example pass (`exampleParams` with
`C_irr_input = 0`, `exampleExternal`, `exampleState`). -/
def exampleStepCells : List (Cell ℚ) :=
  [zeroCell exampleExternal,
    { Sigma := 25/3, Height := 4, Tph_vis := 25, Tph_X := 1, Qx := 0, C_irr := 0,
      Tirr := 0, Tph := 25 },
    { Sigma := 25/6, Height := 9, Tph_vis := 75/4, Tph_X := 1, Qx := 0, C_irr := 0,
      Tirr := 0, Tph := 75/4 },
    { Sigma := 1/12, Height := 16, Tph_vis := 1/2, Tph_X := 1, Qx := 0, C_irr := 0,
      Tirr := 0, Tph := 1/2 }]

end Defs

section Theorems

variable {α : Type} [LinearOrderedField α]

theorem tabulateE_ok {β : Type} (f : Nat → Except Error β) (g : Nat → β) (n : Nat)
    (hf : ∀ i, i < n → f i = Except.ok (g i)) :
    tabulateE f n = Except.ok ((List.range n).map g) := by
  induction n with
  | zero => rfl
  | succ n ih =>
    have h1 := ih (fun i hi => hf i (Nat.lt_succ_of_lt hi))
    simp [tabulateE, h1, hf n (Nat.lt_succ_self n), List.range_succ]

/-- The real power function satisfies `PowLaws`. -/
theorem rpow_PowLaws : PowLaws Real.rpow := by
  constructor
  · intro x; exact Real.rpow_zero x
  · intro x _; exact Real.rpow_one x
  · intro x a b hx; exact Real.rpow_add hx a b
  · intro x a b hx; exact (Real.rpow_mul hx a b).symm
  · intro x y hx; exact Real.rpow_nonneg hx y
  · intro x y hx; exact Real.rpow_pos_of_pos hx y
  · intro y hy; exact Real.zero_rpow (ne_of_gt hy)
  · intro x a b hx hab; exact (Real.rpow_lt_rpow_left_iff hx).2 hab
  · intro x y a hx hxy ha; exact Real.rpow_le_rpow hx hxy ha

/-! ## Rounding to binary64 -/

theorem roundHalfEven_near (x : ℚ) :
    |(roundHalfEven x : ℚ) - x| ≤ 1 / 2 := by
  have h1 := Int.floor_le x
  have h2 := Int.lt_floor_add_one x
  unfold roundHalfEven
  split_ifs with ha hb hc
  · rw [abs_le]; constructor <;> linarith
  · rw [abs_le]; push_cast; constructor <;> linarith
  · rw [abs_le]; push_cast at *; constructor <;> linarith
  · rw [abs_le]; push_cast at *; constructor <;> linarith

theorem roundHalfEven_intCast (n : ℤ) : roundHalfEven (n : ℚ) = n := by
  unfold roundHalfEven
  simp

theorem roundHalfEven_mono {x y : ℚ} (h : x ≤ y) : roundHalfEven x ≤ roundHalfEven y := by
  have hx1 := Int.floor_le x
  have hx2 := Int.lt_floor_add_one x
  have hy1 := Int.floor_le y
  have hy2 := Int.lt_floor_add_one y
  have hf : ⌊x⌋ ≤ ⌊y⌋ := Int.floor_mono h
  rcases lt_or_eq_of_le hf with hlt | heq
  · -- different floors: round x ≤ ⌊x⌋+1 ≤ ⌊y⌋ ≤ round y
    have a : roundHalfEven x ≤ ⌊x⌋ + 1 := by
      unfold roundHalfEven; split_ifs <;> omega
    have b : ⌊y⌋ ≤ roundHalfEven y := by
      unfold roundHalfEven; split_ifs <;> omega
    omega
  · unfold roundHalfEven
    rw [← heq]
    have hxy : x - ⌊x⌋ ≤ y - ⌊x⌋ := by linarith
    split_ifs <;> first | omega | (exfalso; linarith)

theorem roundHalfEven_neg (x : ℚ) : roundHalfEven (-x) = - roundHalfEven x := by
  by_cases hx : (⌊x⌋ : ℚ) = x
  · rw [← hx, ← Int.cast_neg, roundHalfEven_intCast, roundHalfEven_intCast]
  · have h1 := Int.floor_le x
    have h2 := Int.lt_floor_add_one x
    have hlt : (⌊x⌋ : ℚ) < x := lt_of_le_of_ne h1 hx
    have hfl : ⌊-x⌋ = -⌊x⌋ - 1 := by
      rw [Int.floor_eq_iff]
      push_cast
      constructor <;> linarith
    unfold roundHalfEven
    rw [hfl]
    push_cast
    split_ifs <;> first | omega | (exfalso; linarith)


theorem binade_spec (x : ℚ) (hx : x ≠ 0) :
    (2 : ℚ) ^ 52 ≤ |x| / 2 ^ binadeExponent x ∧ |x| / 2 ^ binadeExponent x < 2 ^ 53 := by
  have hpos : 0 < |x| := abs_pos.2 hx
  have h1 := Int.zpow_log_le_self (b := 2) (by norm_num) hpos
  have h2 := Int.lt_zpow_succ_log_self (b := 2) (by norm_num) |x|
  have he : (0 : ℚ) < 2 ^ binadeExponent x := zpow_pos (by norm_num) _
  have hsplit : ((2 : ℕ) : ℚ) ^ Int.log 2 |x| = 2 ^ binadeExponent x * 2 ^ 52 := by
    unfold binadeExponent
    rw [show ((2 : ℕ) : ℚ) = 2 by norm_num, ← zpow_natCast (2 : ℚ) 52,
      ← zpow_add₀ (by norm_num : (2 : ℚ) ≠ 0)]
    congr 1
    omega
  have hsplit2 : ((2 : ℕ) : ℚ) ^ (Int.log 2 |x| + 1) = 2 ^ binadeExponent x * 2 ^ 53 := by
    unfold binadeExponent
    rw [show ((2 : ℕ) : ℚ) = 2 by norm_num, ← zpow_natCast (2 : ℚ) 53,
      ← zpow_add₀ (by norm_num : (2 : ℚ) ≠ 0)]
    congr 1
    omega
  rw [hsplit] at h1
  rw [hsplit2] at h2
  constructor
  · rw [le_div_iff₀ he]; linarith
  · rw [div_lt_iff₀ he]; linarith

theorem binade_unique (x : ℚ) (e : ℤ) (h1 : (2 : ℚ) ^ 52 ≤ |x| / 2 ^ e)
    (h2 : |x| / 2 ^ e < 2 ^ 53) : binadeExponent x = e := by
  have he : (0 : ℚ) < 2 ^ e := zpow_pos (by norm_num) _
  have hpos : 0 < |x| := by
    have : (0 : ℚ) < 2 ^ 52 := by norm_num
    have h3 := lt_of_lt_of_le this h1
    by_contra hcon
    have : |x| = 0 := le_antisymm (not_lt.1 hcon) (abs_nonneg x)
    rw [this, zero_div] at h3
    exact lt_irrefl _ h3
  have ha : (2 : ℚ) ^ (e + 52) ≤ |x| := by
    rw [zpow_add₀ (by norm_num : (2 : ℚ) ≠ 0), zpow_ofNat]
    rw [le_div_iff₀ he] at h1
    linarith
  have hb : |x| < (2 : ℚ) ^ (e + 53) := by
    rw [zpow_add₀ (by norm_num : (2 : ℚ) ≠ 0), zpow_ofNat]
    rw [div_lt_iff₀ he] at h2
    linarith
  have h3 : e + 52 ≤ Int.log 2 |x| := by
    rw [← Int.zpow_le_iff_le_log (by norm_num) hpos]
    simpa using ha
  have h4 : Int.log 2 |x| < e + 53 := by
    rw [← Int.lt_zpow_iff_log_lt (by norm_num) hpos]
    simpa using hb
  unfold binadeExponent
  omega

theorem roundDouble_eq (x : ℚ) (e m : ℤ) (h1 : (2 : ℚ) ^ 52 ≤ |x| / 2 ^ e)
    (h2 : |x| / 2 ^ e < 2 ^ 53) (hm : roundHalfEven (x / 2 ^ e) = m) :
    roundDouble x = (m : ℚ) * 2 ^ e := by
  have hx : x ≠ 0 := by
    rintro rfl
    simp at h1
    norm_num at h1
  unfold roundDouble
  rw [if_neg hx, binade_unique x e h1 h2, hm]


theorem binadeExponent_neg (x : ℚ) : binadeExponent (-x) = binadeExponent x := by
  unfold binadeExponent
  rw [abs_neg]

theorem roundDouble_zero : roundDouble 0 = 0 := by
  simp [roundDouble]

theorem roundDouble_neg (x : ℚ) : roundDouble (-x) = - roundDouble x := by
  by_cases hx : x = 0
  · subst hx
    simp [roundDouble_zero]
  · have hx2 : -x ≠ 0 := neg_ne_zero.2 hx
    unfold roundDouble
    rw [if_neg hx, if_neg hx2, binadeExponent_neg, neg_div, roundHalfEven_neg]
    push_cast
    ring

theorem roundDouble_pos_bounds (x : ℚ) (hx : 0 < x) :
    (2 : ℚ) ^ 52 * 2 ^ binadeExponent x ≤ roundDouble x ∧
    roundDouble x ≤ 2 ^ 53 * 2 ^ binadeExponent x := by
  obtain ⟨h1, h2⟩ := binade_spec x (ne_of_gt hx)
  rw [abs_of_pos hx] at h1 h2
  have he : (0 : ℚ) < 2 ^ binadeExponent x := zpow_pos (by norm_num) _
  have ha : roundHalfEven (((2 ^ 52 : ℤ) : ℚ)) ≤ roundHalfEven (x / 2 ^ binadeExponent x) :=
    roundHalfEven_mono (by push_cast; exact h1)
  have hb : roundHalfEven (x / 2 ^ binadeExponent x) ≤ roundHalfEven (((2 ^ 53 : ℤ) : ℚ)) :=
    roundHalfEven_mono (by push_cast; exact le_of_lt h2)
  rw [roundHalfEven_intCast] at ha hb
  have ha2 : ((2 : ℚ) ^ 52) ≤ (roundHalfEven (x / 2 ^ binadeExponent x) : ℚ) := by
    exact_mod_cast ha
  have hb2 : (roundHalfEven (x / 2 ^ binadeExponent x) : ℚ) ≤ (2 : ℚ) ^ 53 := by
    exact_mod_cast hb
  unfold roundDouble
  rw [if_neg (ne_of_gt hx)]
  exact ⟨mul_le_mul_of_nonneg_right ha2 (le_of_lt he),
    mul_le_mul_of_nonneg_right hb2 (le_of_lt he)⟩

theorem roundDouble_mono_pos (x y : ℚ) (hx : 0 < x) (hxy : x ≤ y) :
    roundDouble x ≤ roundDouble y := by
  have hy : 0 < y := lt_of_lt_of_le hx hxy
  have hlog : binadeExponent x ≤ binadeExponent y := by
    unfold binadeExponent
    have habs : |x| ≤ |y| := by rw [abs_of_pos hx, abs_of_pos hy]; exact hxy
    have := Int.log_mono_right (b := 2) (abs_pos.2 (ne_of_gt hx)) habs
    omega
  rcases lt_or_eq_of_le hlog with hlt | heq
  · have h1 := (roundDouble_pos_bounds x hx).2
    have h2 := (roundDouble_pos_bounds y hy).1
    have h3 : (2 : ℚ) ^ 53 * 2 ^ binadeExponent x ≤ 2 ^ 52 * 2 ^ binadeExponent y := by
      have h4 : (2 : ℚ) ^ (binadeExponent x + 1) ≤ 2 ^ binadeExponent y :=
        zpow_le_zpow_right₀ (by norm_num) (by omega)
      rw [zpow_add₀ (by norm_num : (2 : ℚ) ≠ 0), zpow_one] at h4
      have h5 : (0 : ℚ) < 2 ^ binadeExponent x := zpow_pos (by norm_num) _
      nlinarith
    linarith
  · unfold roundDouble
    rw [if_neg (ne_of_gt hx), if_neg (ne_of_gt hy), heq]
    have he : (0 : ℚ) < 2 ^ binadeExponent y := zpow_pos (by norm_num) _
    apply mul_le_mul_of_nonneg_right _ (le_of_lt he)
    exact_mod_cast roundHalfEven_mono (div_le_div_of_nonneg_right hxy (le_of_lt he))

theorem roundDouble_nonneg (x : ℚ) (hx : 0 ≤ x) : 0 ≤ roundDouble x := by
  rcases lt_or_eq_of_le hx with h | h
  · have := (roundDouble_pos_bounds x h).1
    have he : (0 : ℚ) < 2 ^ binadeExponent x := zpow_pos (by norm_num) _
    have : (0 : ℚ) < 2 ^ 52 * 2 ^ binadeExponent x := by positivity
    linarith
  · rw [← h, roundDouble_zero]

theorem roundDouble_mono (x y : ℚ) (hxy : x ≤ y) : roundDouble x ≤ roundDouble y := by
  rcases lt_trichotomy x 0 with hx | hx | hx
  · rcases lt_or_le y 0 with hy | hy
    · have := roundDouble_mono_pos (-y) (-x) (by linarith) (by linarith)
      rw [roundDouble_neg, roundDouble_neg] at this
      linarith
    · have h1 := roundDouble_nonneg (-x) (by linarith)
      rw [roundDouble_neg] at h1
      have h2 := roundDouble_nonneg y hy
      linarith
  · subst hx
    rw [roundDouble_zero]
    exact roundDouble_nonneg y hxy
  · exact roundDouble_mono_pos x y hx hxy

theorem roundDouble_error (x : ℚ) : |roundDouble x - x| ≤ 1 / 2 ^ 53 * |x| := by
  by_cases hx : x = 0
  · subst hx
    simp [roundDouble_zero]
  · obtain ⟨h1, _⟩ := binade_spec x hx
    have he : (0 : ℚ) < 2 ^ binadeExponent x := zpow_pos (by norm_num) _
    have hn := roundHalfEven_near (x / 2 ^ binadeExponent x)
    have hfl : roundDouble x - x
        = ((roundHalfEven (x / 2 ^ binadeExponent x) : ℚ) - x / 2 ^ binadeExponent x)
          * 2 ^ binadeExponent x := by
      unfold roundDouble
      rw [if_neg hx]
      field_simp
    rw [hfl, abs_mul, abs_of_pos he]
    rw [le_div_iff₀ he] at h1
    have h3 : |(roundHalfEven (x / 2 ^ binadeExponent x) : ℚ) - x / 2 ^ binadeExponent x|
        * 2 ^ binadeExponent x ≤ 1 / 2 * 2 ^ binadeExponent x :=
      mul_le_mul_of_nonneg_right hn (le_of_lt he)
    have h4 : (1 : ℚ) / 2 * 2 ^ binadeExponent x ≤ 1 / 2 ^ 53 * |x| := by
      have : (1 : ℚ) / 2 ^ 53 * (2 ^ 52 * 2 ^ binadeExponent x) ≤ 1 / 2 ^ 53 * |x| :=
        mul_le_mul_of_nonneg_left h1 (by positivity)
      have e : (1 : ℚ) / 2 ^ 53 * (2 ^ 52 * 2 ^ binadeExponent x)
          = 1 / 2 * 2 ^ binadeExponent x := by
        rw [← mul_assoc]
        norm_num
      linarith
    linarith

/-- A value `m * 2^e` with a mantissa `2^52 ≤ |m| < 2^53` is left unchanged. -/
theorem roundDouble_representable (m e : ℤ) (h1 : 2 ^ 52 ≤ |m|) (h2 : |m| < 2 ^ 53) :
    roundDouble ((m : ℚ) * 2 ^ e) = (m : ℚ) * 2 ^ e := by
  have he : (0 : ℚ) < 2 ^ e := zpow_pos (by norm_num) _
  have hs : (m : ℚ) * 2 ^ e / 2 ^ e = m := by field_simp
  apply roundDouble_eq _ e m
  · rw [abs_mul, abs_of_pos he, mul_div_assoc, div_self (ne_of_gt he), mul_one]
    exact_mod_cast h1
  · rw [abs_mul, abs_of_pos he, mul_div_assoc, div_self (ne_of_gt he), mul_one]
    exact_mod_cast h2
  · rw [hs, roundHalfEven_intCast]

theorem roundDouble_one : roundDouble 1 = 1 := by
  have h := roundDouble_representable (2 ^ 52) (-52) (by norm_num) (by norm_num)
  have e : (((2 ^ 52 : ℤ) : ℚ)) * 2 ^ (-52 : ℤ) = 1 := by norm_num
  rw [e] at h
  exact h


theorem roundHalfEven_down (x : ℚ) (f : ℤ) (h1 : (f : ℚ) ≤ x) (h2 : x < f + 1 / 2) :
    roundHalfEven x = f := by
  have hf : ⌊x⌋ = f := by
    rw [Int.floor_eq_iff]
    constructor <;> linarith
  unfold roundHalfEven
  rw [hf, if_pos (by linarith)]

theorem roundHalfEven_up (x : ℚ) (f : ℤ) (h1 : (f : ℚ) + 1 / 2 < x) (h2 : x < f + 1) :
    roundHalfEven x = f + 1 := by
  have hf : ⌊x⌋ = f := by
    rw [Int.floor_eq_iff]
    constructor <;> linarith
  unfold roundHalfEven
  rw [hf, if_neg (by linarith), if_pos (by linarith)]

theorem roundHalfEven_tie (x : ℚ) (f : ℤ) (h : x = f + 1 / 2) :
    roundHalfEven x = if f % 2 = 0 then f else f + 1 := by
  have hf : ⌊x⌋ = f := by
    rw [Int.floor_eq_iff]
    constructor <;> linarith
  unfold roundHalfEven
  rw [hf, if_neg (by linarith), if_neg (by linarith)]

theorem roundDouble_eq_pos (x : ℚ) (e m : ℤ) (h1 : (2 : ℚ) ^ 52 * 2 ^ e ≤ x)
    (h2 : x < 2 ^ 53 * 2 ^ e) (hm : roundHalfEven (x / 2 ^ e) = m) :
    roundDouble x = (m : ℚ) * 2 ^ e := by
  have he : (0 : ℚ) < 2 ^ e := zpow_pos (by norm_num) _
  have hx : 0 < x := lt_of_lt_of_le (by positivity) h1
  apply roundDouble_eq x e m _ _ hm
  · rw [abs_of_pos hx, le_div_iff₀ he]; exact h1
  · rw [abs_of_pos hx, div_lt_iff₀ he]; exact h2

/-- Rounding to binary64 satisfies `RoundLaws`. -/
theorem roundDouble_RoundLaws : RoundLaws roundDouble :=
  ⟨roundDouble_mono, roundDouble_zero, roundDouble_one⟩

/-- Exact arithmetic satisfies `RoundLaws`. -/
theorem id_RoundLaws : RoundLaws (id : α → α) :=
  ⟨fun _ _ h => h, rfl, rfl⟩

theorem intPow_zero (x : ℚ) : intPow x 0 = 1 := by
  simp [intPow]

theorem intPow_one (x : ℚ) : intPow x 1 = x := by
  simp [intPow]

theorem intPow_mono (x a b : ℚ) (hx : 1 ≤ x) (hab : a ≤ b) : intPow x a ≤ intPow x b :=
  zpow_le_zpow_right₀ hx (Int.floor_mono hab)

/-! ## Grid construction -/

theorem gridValue_log (fl : α → α) (pow : α → α → α) (h_in h_out : α) (Nx : Int) (i : Nat) :
    gridValue fl pow "log" h_in h_out Nx i
      = Except.ok (fl (h_in * pow (fl (h_out / h_in)) (fl ((i : α) / ((Nx : α) - 1))))) := by
  simp [gridValue]

theorem gridValue_linear (fl : α → α) (pow : α → α → α) (h_in h_out : α) (Nx : Int)
    (i : Nat) :
    gridValue fl pow "linear" h_in h_out Nx i
      = Except.ok (fl (h_in + fl (fl (fl (h_out - h_in) * (i : α)) / ((Nx : α) - 1)))) := by
  simp [gridValue]

/-- The grid as a closed form: both vectors are maps over `0, …, N-1`. -/
theorem buildGrid_eq (fl : α → α) (pow : α → α → α) (grid_scale : String)
    (h_in h_out GM : α) (N : Nat) (g : Nat → α)
    (hg : ∀ i, i < N → gridValue fl pow grid_scale h_in h_out (N : Int) i = Except.ok (g i)) :
    buildGrid fl pow grid_scale h_in h_out GM (N : Int)
      = Except.ok ((List.range N).map g,
          (List.range N).map fun i => fl (fl (g i * g i) / GM)) := by
  have h1 := tabulateE_ok _ g N hg
  simp [buildGrid, h1, Function.comp_def]

theorem sorted_map_range (g : Nat → α) (N : Nat)
    (hg : ∀ i j, i < j → j < N → g i < g j) :
    List.Sorted (fun a b => a < b) ((List.range N).map g) := by
  unfold List.Sorted
  rw [List.pairwise_map]
  refine List.Pairwise.imp_of_mem ?_ (List.pairwise_lt_range N)
  intro i j _ hj hij
  exact hg i j hij (List.mem_range.1 hj)

theorem sorted_le_map_range (g : Nat → α) (N : Nat)
    (hg : ∀ i j, i < j → j < N → g i ≤ g j) :
    List.Sorted (fun a b => a ≤ b) ((List.range N).map g) := by
  unfold List.Sorted
  rw [List.pairwise_map]
  refine List.Pairwise.imp_of_mem ?_ (List.pairwise_lt_range N)
  intro i j _ hj hij
  exact hg i j hij (List.mem_range.1 hj)

theorem roundDouble_down (x : ℚ) (e f : ℤ) (h1 : (2 : ℚ) ^ 52 * 2 ^ e ≤ x)
    (h2 : x < 2 ^ 53 * 2 ^ e) (h3 : (f : ℚ) ≤ x / 2 ^ e) (h4 : x / 2 ^ e < f + 1 / 2) :
    roundDouble x = (f : ℚ) * 2 ^ e :=
  roundDouble_eq_pos x e f h1 h2 (roundHalfEven_down _ _ h3 h4)

theorem roundDouble_up (x : ℚ) (e f : ℤ) (h1 : (2 : ℚ) ^ 52 * 2 ^ e ≤ x)
    (h2 : x < 2 ^ 53 * 2 ^ e) (h3 : (f : ℚ) + 1 / 2 < x / 2 ^ e) (h4 : x / 2 ^ e < f + 1) :
    roundDouble x = ((f : ℚ) + 1) * 2 ^ e := by
  rw [roundDouble_eq_pos x e (f + 1) h1 h2 (roundHalfEven_up _ _ h3 h4)]
  push_cast
  rfl

theorem roundDouble_tie_even (x : ℚ) (e f : ℤ) (h1 : (2 : ℚ) ^ 52 * 2 ^ e ≤ x)
    (h2 : x < 2 ^ 53 * 2 ^ e) (h3 : x / 2 ^ e = f + 1 / 2) (h4 : f % 2 = 0) :
    roundDouble x = (f : ℚ) * 2 ^ e := by
  rw [roundDouble_eq_pos x e f h1 h2 (by rw [roundHalfEven_tie _ _ h3, if_pos h4])]

theorem roundDouble_tie_odd (x : ℚ) (e f : ℤ) (h1 : (2 : ℚ) ^ 52 * 2 ^ e ≤ x)
    (h2 : x < 2 ^ 53 * 2 ^ e) (h3 : x / 2 ^ e = f + 1 / 2) (h4 : f % 2 = 1) :
    roundDouble x = ((f : ℚ) + 1) * 2 ^ e := by
  rw [roundDouble_eq_pos x e (f + 1) h1 h2
    (by rw [roundHalfEven_tie _ _ h3, if_neg (by omega)])]
  push_cast
  rfl

/-- The points of the `linear` grid, each the rounded closed form. -/
theorem buildGrid_linear_values (fl : α → α) (pow : α → α → α) (h_in h_out GM : α)
    (N : Nat) :
    ∃ h R, buildGrid fl pow "linear" h_in h_out GM (N : Int) = Except.ok (h, R) ∧
      h.length = N ∧
      ∀ i : Nat, i < N → h[i]? = some
        (fl (h_in + fl (fl (fl (h_out - h_in) * (i : α)) / ((N : α) - 1)))) := by
  refine ⟨_, _, buildGrid_eq fl pow "linear" h_in h_out GM N _
    (fun i _ => gridValue_linear fl pow h_in h_out N i), by simp, ?_⟩
  intro i hi
  rw [List.getElem?_map, List.getElem?_range hi]
  simp only [Option.map_some', Int.cast_natCast]

/-- The points of the `log` grid, each the rounded closed form. -/
theorem buildGrid_log_values (fl : α → α) (pow : α → α → α) (h_in h_out GM : α)
    (N : Nat) :
    ∃ h R, buildGrid fl pow "log" h_in h_out GM (N : Int) = Except.ok (h, R) ∧
      h.length = N ∧
      ∀ i : Nat, i < N → h[i]? = some
        (fl (h_in * pow (fl (h_out / h_in)) (fl ((i : α) / ((N : α) - 1))))) := by
  refine ⟨_, _, buildGrid_eq fl pow "log" h_in h_out GM N _
    (fun i _ => gridValue_log fl pow h_in h_out N i), by simp, ?_⟩
  intro i hi
  rw [List.getElem?_map, List.getElem?_range hi]
  simp only [Option.map_some', Int.cast_natCast]

theorem logValue_lt (pow : α → α → α) (hp : PowLaws pow) (N : Nat) (hN : 2 ≤ N)
    (h_in h_out : α) (h0 : 0 < h_in) (h1 : h_in < h_out) (i j : Nat) (hij : i < j) :
    h_in * pow (h_out / h_in) ((i : α) / (((N : Int) : α) - 1))
      < h_in * pow (h_out / h_in) ((j : α) / (((N : Int) : α) - 1)) := by
  have hq : 1 < h_out / h_in := (one_lt_div h0).2 h1
  have hN1 : (0 : α) < ((N : Int) : α) - 1 := by
    have : (2 : α) ≤ (N : α) := by exact_mod_cast hN
    simp only [Int.cast_natCast]; linarith
  have hexp : (i : α) / (((N : Int) : α) - 1) < (j : α) / (((N : Int) : α) - 1) :=
    div_lt_div_of_pos_right (by exact_mod_cast hij) hN1
  exact mul_lt_mul_of_pos_left (hp.exp_lt _ _ _ hq hexp) h0

theorem linearValue_lt (N : Nat) (hN : 2 ≤ N)
    (h_in h_out : α) (h1 : h_in < h_out) (i j : Nat) (hij : i < j) :
    h_in + (h_out - h_in) * (i : α) / (((N : Int) : α) - 1)
      < h_in + (h_out - h_in) * (j : α) / (((N : Int) : α) - 1) := by
  have hN1 : (0 : α) < ((N : Int) : α) - 1 := by
    have : (2 : α) ≤ (N : α) := by exact_mod_cast hN
    simp only [Int.cast_natCast]; linarith
  have hd : 0 < h_out - h_in := sub_pos.2 h1
  have hij' : (i : α) < (j : α) := by exact_mod_cast hij
  have : (h_out - h_in) * (i : α) < (h_out - h_in) * (j : α) :=
    mul_lt_mul_of_pos_left hij' hd
  have := div_lt_div_of_pos_right this hN1
  linarith

theorem last_exponent (N : Nat) (hN : 2 ≤ N) :
    (((N - 1 : Nat) : α)) / (((N : Int) : α) - 1) = 1 := by
  have h2 : (2 : α) ≤ (N : α) := by exact_mod_cast hN
  have hne : ((N : α) - 1) ≠ 0 := by
    have : (0 : α) < (N : α) - 1 := by linarith
    exact ne_of_gt this
  have hc : ((N - 1 : Nat) : α) = (N : α) - 1 := by
    rw [Nat.cast_sub (by omega)]; simp
  simp only [Int.cast_natCast, hc]
  exact div_self hne

/-- In exact arithmetic (`fl = id`, `pow` with the laws of the real power function):
for `N ≥ 2`, `0 < h_in < h_out` and scale mode `log` or `linear`, the grid loop
returns vectors `h`, `R` of length `N` with `h` strictly increasing, `h[0] = h_in`,
`h[N-1] = h_out` and `R[i] = h[i]^2 / GM` for every `i`. -/
theorem exact_grid_increasing (pow : α → α → α) (hp : PowLaws pow)
    (N : Nat) (hN : 2 ≤ N) (h_in h_out GM : α) (h0 : 0 < h_in) (h1 : h_in < h_out)
    (grid_scale : String) (hs : grid_scale = "log" ∨ grid_scale = "linear") :
    ∃ h R, buildGrid id pow grid_scale h_in h_out GM (N : Int) = Except.ok (h, R) ∧
      h.length = N ∧ R.length = N ∧
      List.Sorted (fun a b => a < b) h ∧
      h[0]? = some h_in ∧ h[N - 1]? = some h_out ∧
      ∀ i, i < N → ∃ hi, h[i]? = some hi ∧ R[i]? = some (hi ^ 2 / GM) := by
  have hne : h_in ≠ 0 := ne_of_gt h0
  rcases hs with rfl | rfl
  · refine ⟨_, _, buildGrid_eq id pow "log" h_in h_out GM N _
      (fun i _ => gridValue_log id pow h_in h_out N i), by simp, by simp, ?_, ?_, ?_, ?_⟩
    · exact sorted_map_range _ N
        (fun i j hij _ => logValue_lt pow hp N hN h_in h_out h0 h1 i j hij)
    · rw [List.getElem?_map, List.getElem?_range (by omega)]
      simp [hp.exp_zero]
    · rw [List.getElem?_map, List.getElem?_range (by omega)]
      simp only [Option.map_some', id_eq]
      rw [last_exponent N hN, hp.exp_one _ (le_of_lt (div_pos (lt_trans h0 h1) h0))]
      rw [mul_div_cancel₀ _ hne]
    · intro i hi
      refine ⟨_, by rw [List.getElem?_map, List.getElem?_range hi]; rfl, ?_⟩
      rw [List.getElem?_map, List.getElem?_range hi]
      simp [sq]
  · refine ⟨_, _, buildGrid_eq id pow "linear" h_in h_out GM N _
      (fun i _ => gridValue_linear id pow h_in h_out N i), by simp, by simp, ?_, ?_, ?_, ?_⟩
    · exact sorted_map_range _ N
        (fun i j hij _ => linearValue_lt N hN h_in h_out h1 i j hij)
    · rw [List.getElem?_map, List.getElem?_range (by omega)]
      simp
    · rw [List.getElem?_map, List.getElem?_range (by omega)]
      simp only [Option.map_some', id_eq]
      rw [mul_div_assoc, last_exponent N hN]
      simp
    · intro i hi
      refine ⟨_, by rw [List.getElem?_map, List.getElem?_range hi]; rfl, ?_⟩
      rw [List.getElem?_map, List.getElem?_range hi]
      simp [sq]

theorem logValue_le (fl : α → α) (hfl : RoundLaws fl) (pow : α → α → α)
    (hpm : ∀ x a b, 1 ≤ x → a ≤ b → pow x a ≤ pow x b)
    (N : Nat) (hN : 2 ≤ N) (h_in h_out : α) (h0 : 0 < h_in) (h1 : h_in < h_out)
    (i j : Nat) (hij : i < j) :
    fl (h_in * pow (fl (h_out / h_in)) (fl ((i : α) / (((N : Int) : α) - 1))))
      ≤ fl (h_in * pow (fl (h_out / h_in)) (fl ((j : α) / (((N : Int) : α) - 1)))) := by
  have hq : 1 ≤ h_out / h_in := le_of_lt ((one_lt_div h0).2 h1)
  have hB : 1 ≤ fl (h_out / h_in) := by
    have := hfl.mono _ _ hq
    rwa [hfl.one] at this
  have hN1 : (0 : α) < ((N : Int) : α) - 1 := by
    have : (2 : α) ≤ (N : α) := by exact_mod_cast hN
    simp only [Int.cast_natCast]; linarith
  have hexp : (i : α) / (((N : Int) : α) - 1) ≤ (j : α) / (((N : Int) : α) - 1) :=
    div_le_div_of_nonneg_right (by exact_mod_cast le_of_lt hij) (le_of_lt hN1)
  exact hfl.mono _ _ (mul_le_mul_of_nonneg_left
    (hpm _ _ _ hB (hfl.mono _ _ hexp)) (le_of_lt h0))

theorem linearValue_le (fl : α → α) (hfl : RoundLaws fl)
    (N : Nat) (hN : 2 ≤ N) (h_in h_out : α) (h1 : h_in < h_out)
    (i j : Nat) (hij : i < j) :
    fl (h_in + fl (fl (fl (h_out - h_in) * (i : α)) / (((N : Int) : α) - 1)))
      ≤ fl (h_in + fl (fl (fl (h_out - h_in) * (j : α)) / (((N : Int) : α) - 1))) := by
  have hD : 0 ≤ fl (h_out - h_in) := by
    have := hfl.mono _ _ (le_of_lt (sub_pos.2 h1))
    rwa [hfl.zero] at this
  have hN1 : (0 : α) < ((N : Int) : α) - 1 := by
    have : (2 : α) ≤ (N : α) := by exact_mod_cast hN
    simp only [Int.cast_natCast]; linarith
  have hij2 : (i : α) ≤ (j : α) := by exact_mod_cast le_of_lt hij
  have hp : fl (h_out - h_in) * (i : α) ≤ fl (h_out - h_in) * (j : α) :=
    mul_le_mul_of_nonneg_left hij2 hD
  have hq := hfl.mono _ _ (div_le_div_of_nonneg_right (hfl.mono _ _ hp) (le_of_lt hN1))
  exact hfl.mono _ _ (by linarith)

/-- C1 (as the code has it). `fl` is the rounding of each arithmetic result to a
`double`: monotone, with `fl 0 = 0` and `fl 1 = 1`.  For `N ≥ 2` and doubles
`0 < h_in < h_out` the grid loop returns `h`, `R` of length `N` with `h[0] = h_in`,
`h` non-decreasing and `R[i]` the rounded `h[i] * h[i] / GM`; the last point is the
rounded `h_in * (h_out / h_in)` in `log` mode (for a `pow` with `pow x 0 = 1`,
`pow x 1 = x` that is monotone in the exponent for a base `≥ 1`) and the rounded
`h_in + ((h_out - h_in) * (N-1)) / (N-1)` in `linear` mode.  In exact arithmetic
(`fl` the identity, `pow` with the laws of the real power function) `h` is strictly
increasing, `h[N-1] = h_out` and `R[i] = h[i]^2 / GM`. -/
theorem grid_nondecreasing_from_h_in (fl : α → α) (hfl : RoundLaws fl) (pow : α → α → α)
    (N : Nat) (hN : 2 ≤ N) (h_in h_out GM : α) (h0 : 0 < h_in) (h1 : h_in < h_out)
    (hin : fl h_in = h_in) :
    ((∀ x, pow x 0 = 1) → (∀ x, pow x 1 = x) →
      (∀ x a b, 1 ≤ x → a ≤ b → pow x a ≤ pow x b) →
      ∃ h R, buildGrid fl pow "log" h_in h_out GM (N : Int) = Except.ok (h, R) ∧
        h.length = N ∧ R.length = N ∧
        List.Sorted (fun a b => a ≤ b) h ∧
        h[0]? = some h_in ∧ h[N - 1]? = some (fl (h_in * fl (h_out / h_in))) ∧
        ∀ i, i < N → ∃ hi, h[i]? = some hi ∧ R[i]? = some (fl (fl (hi * hi) / GM))) ∧
    (∃ h R, buildGrid fl pow "linear" h_in h_out GM (N : Int) = Except.ok (h, R) ∧
      h.length = N ∧ R.length = N ∧
      List.Sorted (fun a b => a ≤ b) h ∧
      h[0]? = some h_in ∧
      h[N - 1]? = some (fl (h_in
        + fl (fl (fl (h_out - h_in) * ((N : α) - 1)) / ((N : α) - 1)))) ∧
      ∀ i, i < N → ∃ hi, h[i]? = some hi ∧ R[i]? = some (fl (fl (hi * hi) / GM))) ∧
    ((∀ a, fl a = a) → PowLaws pow →
      ∀ grid_scale, grid_scale = "log" ∨ grid_scale = "linear" →
      ∃ h R, buildGrid fl pow grid_scale h_in h_out GM (N : Int) = Except.ok (h, R) ∧
        h.length = N ∧ R.length = N ∧
        List.Sorted (fun a b => a < b) h ∧
        h[0]? = some h_in ∧ h[N - 1]? = some h_out ∧
        ∀ i, i < N → ∃ hi, h[i]? = some hi ∧ R[i]? = some (hi ^ 2 / GM)) := by
  have hc : ((N - 1 : Nat) : α) = (N : α) - 1 := by
    rw [Nat.cast_sub (by omega)]; simp
  have h2 : (2 : α) ≤ (N : α) := by exact_mod_cast hN
  have hne : ((N : α) - 1) ≠ 0 := ne_of_gt (by linarith)
  refine ⟨?_, ?_, ?_⟩
  · intro hp0 hp1 hpm
    refine ⟨_, _, buildGrid_eq fl pow "log" h_in h_out GM N _
      (fun i _ => gridValue_log fl pow h_in h_out N i), by simp, by simp, ?_, ?_, ?_, ?_⟩
    · exact sorted_le_map_range _ N
        (fun i j hij _ => logValue_le fl hfl pow hpm N hN h_in h_out h0 h1 i j hij)
    · rw [List.getElem?_map, List.getElem?_range (by omega)]
      simp [hfl.zero, hp0, hin]
    · rw [List.getElem?_map, List.getElem?_range (by omega)]
      simp only [Option.map_some', Int.cast_natCast, hc, div_self hne, hfl.one, hp1]
    · intro i hi
      refine ⟨_, by rw [List.getElem?_map, List.getElem?_range hi]; rfl, ?_⟩
      rw [List.getElem?_map, List.getElem?_range hi]
      rfl
  · refine ⟨_, _, buildGrid_eq fl pow "linear" h_in h_out GM N _
      (fun i _ => gridValue_linear fl pow h_in h_out N i), by simp, by simp, ?_, ?_, ?_, ?_⟩
    · exact sorted_le_map_range _ N
        (fun i j hij _ => linearValue_le fl hfl N hN h_in h_out h1 i j hij)
    · rw [List.getElem?_map, List.getElem?_range (by omega)]
      simp [hfl.zero, hin]
    · rw [List.getElem?_map, List.getElem?_range (by omega)]
      simp only [Option.map_some', Int.cast_natCast, hc]
    · intro i hi
      refine ⟨_, by rw [List.getElem?_map, List.getElem?_range hi]; rfl, ?_⟩
      rw [List.getElem?_map, List.getElem?_range hi]
      rfl
  · intro hid hp grid_scale hs
    obtain rfl : fl = id := funext hid
    exact exact_grid_increasing pow hp N hN h_in h_out GM h0 h1 grid_scale hs

/-- C1, witness: the `linear` grid `1 → 2` with `N = 3` and the `log` grid `7 → 29`
with `N = 2` in binary64, and the `log` grid `1 → 4` with `N = 3` in exact real
arithmetic. -/
theorem grid_nondecreasing_from_h_in_witness :
    (∃ h R, buildGrid roundDouble intPow "linear" 1 2 1 ((3 : Nat) : Int) = Except.ok (h, R) ∧
      h.length = 3 ∧ R.length = 3 ∧
      List.Sorted (fun a b => a ≤ b) h ∧
      h[0]? = some 1 ∧
      h[3 - 1]? = some (roundDouble (1
        + roundDouble (roundDouble (roundDouble (2 - 1) * (((3 : Nat) : ℚ) - 1))
            / (((3 : Nat) : ℚ) - 1)))) ∧
      ∀ i, i < 3 → ∃ hi, h[i]? = some hi ∧
        R[i]? = some (roundDouble (roundDouble (hi * hi) / 1))) ∧
    (∃ h R, buildGrid roundDouble intPow "log" 7 29 1 ((2 : Nat) : Int) = Except.ok (h, R) ∧
      h.length = 2 ∧ R.length = 2 ∧
      List.Sorted (fun a b => a ≤ b) h ∧
      h[0]? = some 7 ∧ h[2 - 1]? = some (roundDouble (7 * roundDouble (29 / 7))) ∧
      ∀ i, i < 2 → ∃ hi, h[i]? = some hi ∧
        R[i]? = some (roundDouble (roundDouble (hi * hi) / 1))) ∧
    (∃ h R, buildGrid id Real.rpow "log" (1 : ℝ) 4 1 ((3 : Nat) : Int) = Except.ok (h, R) ∧
      h.length = 3 ∧ R.length = 3 ∧
      List.Sorted (fun a b => a < b) h ∧
      h[0]? = some 1 ∧ h[3 - 1]? = some 4 ∧
      ∀ i, i < 3 → ∃ hi, h[i]? = some hi ∧ R[i]? = some (hi ^ 2 / 1)) := by
  have h7 : roundDouble 7 = 7 := by
    rw [roundDouble_down 7 (-50) 7881299347898368 (by norm_num) (by norm_num) (by norm_num)
      (by norm_num)]
    norm_num
  exact ⟨(grid_nondecreasing_from_h_in roundDouble roundDouble_RoundLaws intPow 3
      (by norm_num) 1 2 1 (by norm_num) (by norm_num) roundDouble_one).2.1,
    (grid_nondecreasing_from_h_in roundDouble roundDouble_RoundLaws intPow 2
      (by norm_num) 7 29 1 (by norm_num) (by norm_num) h7).1
      intPow_zero intPow_one intPow_mono,
    (grid_nondecreasing_from_h_in id id_RoundLaws Real.rpow 3
      (by norm_num) (1 : ℝ) 4 1 (by norm_num) (by norm_num) rfl).2.2
      (fun _ => rfl) rpow_PowLaws "log" (Or.inl rfl)⟩

/-- C1, counterexample, in binary64 (`roundDouble`).  The `linear` grid from the
double nearest `0.001` to the double nearest `0.01` with `N = 3` ends at
`1441151880758559 / 2^57 = 0.010000000000000002`, not at `h_out`; the `linear` grid
from `1` to the next double `1 + 2^-52` with `N = 3` has `h[0] = h[1] = 1`, so it is
not strictly increasing; the `log` grid from `7` to `29` with `N = 2` ends at
`8162774324609025 / 2^48 = 29.000000000000004`. -/
theorem grid_misses_h_out_in_doubles :
    (roundDouble (1152921504606847 / 2 ^ 60) = 1152921504606847 / 2 ^ 60 ∧
      roundDouble (5764607523034235 / 2 ^ 59) = 5764607523034235 / 2 ^ 59 ∧
      ∃ h R, buildGrid roundDouble intPow "linear" (1152921504606847 / 2 ^ 60)
          (5764607523034235 / 2 ^ 59) 1 ((3 : Nat) : Int) = Except.ok (h, R) ∧
        h[2]? = some (1441151880758559 / 2 ^ 57) ∧
        (1441151880758559 / 2 ^ 57 : ℚ) ≠ 5764607523034235 / 2 ^ 59) ∧
    (roundDouble (4503599627370497 / 2 ^ 52) = 4503599627370497 / 2 ^ 52 ∧
      ∃ h R, buildGrid roundDouble intPow "linear" 1 (4503599627370497 / 2 ^ 52) 1
          ((3 : Nat) : Int) = Except.ok (h, R) ∧
        h[0]? = some 1 ∧ h[1]? = some 1) ∧
    (∃ h R, buildGrid roundDouble intPow "log" 7 29 1 ((2 : Nat) : Int) = Except.ok (h, R) ∧
      h[1]? = some (8162774324609025 / 2 ^ 48) ∧
      (8162774324609025 / 2 ^ 48 : ℚ) ≠ 29) := by
  refine ⟨⟨?_, ?_, ?_⟩, ⟨?_, ?_⟩, ?_⟩
  · rw [roundDouble_down ((1152921504606847 / 2 ^ 60)) (-62) 4611686018427388
      (by norm_num) (by norm_num) (by norm_num) (by norm_num)]
    norm_num
  · rw [roundDouble_down ((5764607523034235 / 2 ^ 59)) (-59) 5764607523034235
      (by norm_num) (by norm_num) (by norm_num) (by norm_num)]
    norm_num
  · have r1 : roundDouble ((5764607523034235 / 2 ^ 59) - (1152921504606847 / 2 ^ 60))
        = 1297036692682703 / 2 ^ 57 := by
      rw [roundDouble_tie_odd ((5764607523034235 / 2 ^ 59) - (1152921504606847 / 2 ^ 60))
        (-59) 5188146770730811 (by norm_num) (by norm_num) (by norm_num) (by decide)]
      norm_num
    have r2 : roundDouble ((1297036692682703 / 2 ^ 57) * 2) = 1297036692682703 / 2 ^ 56 := by
      rw [roundDouble_down ((1297036692682703 / 2 ^ 57) * 2) (-58) 5188146770730812
        (by norm_num) (by norm_num) (by norm_num) (by norm_num)]
      norm_num
    have r3 : roundDouble ((1297036692682703 / 2 ^ 56) / (3 - 1))
        = 1297036692682703 / 2 ^ 57 := by
      rw [roundDouble_down ((1297036692682703 / 2 ^ 56) / (3 - 1)) (-59) 5188146770730812
        (by norm_num) (by norm_num) (by norm_num) (by norm_num)]
      norm_num
    have r4 : roundDouble ((1152921504606847 / 2 ^ 60) + (1297036692682703 / 2 ^ 57))
        = 1441151880758559 / 2 ^ 57 := by
      rw [roundDouble_tie_odd ((1152921504606847 / 2 ^ 60) + (1297036692682703 / 2 ^ 57))
        (-59) 5764607523034235 (by norm_num) (by norm_num) (by norm_num) (by decide)]
      norm_num
    obtain ⟨h, R, hb, _, hv⟩ := buildGrid_linear_values roundDouble intPow
      (1152921504606847 / 2 ^ 60) (5764607523034235 / 2 ^ 59) 1 3
    refine ⟨h, R, hb, ?_, by norm_num⟩
    rw [hv 2 (by norm_num)]
    simp only [Nat.cast_ofNat]
    rw [r1, r2, r3, r4]
  · rw [roundDouble_down ((4503599627370497 / 2 ^ 52)) (-52) 4503599627370497
      (by norm_num) (by norm_num) (by norm_num) (by norm_num)]
    norm_num
  · have r1 : roundDouble ((4503599627370497 / 2 ^ 52) - 1) = 1 / 2 ^ 52 := by
      rw [roundDouble_down ((4503599627370497 / 2 ^ 52) - 1) (-104) 4503599627370496
        (by norm_num) (by norm_num) (by norm_num) (by norm_num)]
      norm_num
    have r2 : roundDouble ((1 / 2 ^ 52) * 1) = 1 / 2 ^ 52 := by
      rw [roundDouble_down ((1 / 2 ^ 52) * 1) (-104) 4503599627370496
        (by norm_num) (by norm_num) (by norm_num) (by norm_num)]
      norm_num
    have r3 : roundDouble ((1 / 2 ^ 52) / (3 - 1)) = 1 / 2 ^ 53 := by
      rw [roundDouble_down ((1 / 2 ^ 52) / (3 - 1)) (-105) 4503599627370496
        (by norm_num) (by norm_num) (by norm_num) (by norm_num)]
      norm_num
    have r4 : roundDouble (1 + (1 / 2 ^ 53)) = 1 := by
      rw [roundDouble_tie_even (1 + (1 / 2 ^ 53)) (-52) 4503599627370496
        (by norm_num) (by norm_num) (by norm_num) (by decide)]
      norm_num
    obtain ⟨h, R, hb, _, hv⟩ := buildGrid_linear_values roundDouble intPow
      1 (4503599627370497 / 2 ^ 52) 1 3
    refine ⟨h, R, hb, ?_, ?_⟩
    · rw [hv 0 (by norm_num)]
      simp only [Nat.cast_zero, mul_zero, roundDouble_zero, zero_div, add_zero,
        roundDouble_one]
    · rw [hv 1 (by norm_num)]
      simp only [Nat.cast_ofNat, Nat.cast_one]
      rw [r1, r2, r3, r4]
  · have r1 : roundDouble (29 / 7) = 4664442471205157 / 2 ^ 50 := by
      rw [roundDouble_up (29 / 7) (-50) 4664442471205156
        (by norm_num) (by norm_num) (by norm_num) (by norm_num)]
      norm_num
    have r2 : roundDouble (7 * (4664442471205157 / 2 ^ 50)) = 8162774324609025 / 2 ^ 48 := by
      rw [roundDouble_up (7 * (4664442471205157 / 2 ^ 50)) (-48) 8162774324609024
        (by norm_num) (by norm_num) (by norm_num) (by norm_num)]
      norm_num
    obtain ⟨h, R, hb, _, hv⟩ := buildGrid_log_values roundDouble intPow 7 29 1 2
    refine ⟨h, R, hb, ?_, by norm_num⟩
    rw [hv 1 (by norm_num)]
    have e1 : (((1 : Nat) : ℚ)) / (((2 : Nat) : ℚ) - 1) = 1 := by norm_num
    rw [e1, roundDouble_one, intPow_one, r1, r2]

/-- In exact arithmetic (`fl = id`, `pow` with the laws of the real power function):
for `N ≥ 2` and `0 < h_in < h_out`, the `log` grid has the same ratio `h[i] / h[i-1]`
for every `1 ≤ i ≤ N-1`, namely `pow (h_out/h_in) (1/(N-1))`, and the `linear` grid
has the same difference `h[i] - h[i-1]`, namely `(h_out-h_in)/(N-1)`. -/
theorem exact_grid_spacing (pow : α → α → α) (hp : PowLaws pow)
    (N : Nat) (hN : 2 ≤ N) (h_in h_out GM : α) (h0 : 0 < h_in) (h1 : h_in < h_out) :
    (∃ h R, buildGrid id pow "log" h_in h_out GM (N : Int) = Except.ok (h, R) ∧
      h.length = N ∧
      ∀ i, 1 ≤ i → i < N → ∃ a b, h[i - 1]? = some a ∧ h[i]? = some b ∧
        b / a = pow (h_out / h_in) (1 / ((N : α) - 1))) ∧
    (∃ h R, buildGrid id pow "linear" h_in h_out GM (N : Int) = Except.ok (h, R) ∧
      h.length = N ∧
      ∀ i, 1 ≤ i → i < N → ∃ a b, h[i - 1]? = some a ∧ h[i]? = some b ∧
        b - a = (h_out - h_in) / ((N : α) - 1)) := by
  have hq : 0 < h_out / h_in := div_pos (lt_trans h0 h1) h0
  have h2 : (2 : α) ≤ (N : α) := by exact_mod_cast hN
  have hN1 : ((N : α) - 1) ≠ 0 := ne_of_gt (by linarith)
  constructor
  · refine ⟨_, _, buildGrid_eq id pow "log" h_in h_out GM N _
      (fun i _ => gridValue_log id pow h_in h_out N i), by simp, ?_⟩
    intro i hi1 hiN
    refine ⟨_, _, by rw [List.getElem?_map, List.getElem?_range (by omega)]; rfl,
      by rw [List.getElem?_map, List.getElem?_range hiN]; rfl, ?_⟩
    have hc : ((i - 1 : Nat) : α) = (i : α) - 1 := by
      rw [Nat.cast_sub hi1]; simp
    have hsplit : (i : α) / (((N : Int) : α) - 1)
        = ((i - 1 : Nat) : α) / (((N : Int) : α) - 1) + 1 / ((N : α) - 1) := by
      simp only [Int.cast_natCast, hc]
      field_simp
    show h_in * pow (h_out / h_in) ((i : α) / (((N : Int) : α) - 1))
      / (h_in * pow (h_out / h_in) (((i - 1 : Nat) : α) / (((N : Int) : α) - 1)))
      = pow (h_out / h_in) (1 / ((N : α) - 1))
    rw [hsplit, hp.exp_add _ _ _ hq]
    have ha : h_in * pow (h_out / h_in) (((i - 1 : Nat) : α) / (((N : Int) : α) - 1)) ≠ 0 :=
      ne_of_gt (mul_pos h0 (hp.pos _ _ hq))
    rw [← mul_assoc]
    exact mul_div_cancel_left₀ _ ha
  · refine ⟨_, _, buildGrid_eq id pow "linear" h_in h_out GM N _
      (fun i _ => gridValue_linear id pow h_in h_out N i), by simp, ?_⟩
    intro i hi1 hiN
    refine ⟨_, _, by rw [List.getElem?_map, List.getElem?_range (by omega)]; rfl,
      by rw [List.getElem?_map, List.getElem?_range hiN]; rfl, ?_⟩
    have hc : ((i - 1 : Nat) : α) = (i : α) - 1 := by
      rw [Nat.cast_sub hi1]; simp
    show h_in + (h_out - h_in) * (i : α) / (((N : Int) : α) - 1)
      - (h_in + (h_out - h_in) * ((i - 1 : Nat) : α) / (((N : Int) : α) - 1))
      = (h_out - h_in) / ((N : α) - 1)
    simp only [Int.cast_natCast, hc]
    field_simp
    ring

theorem fl_two_sided (fl : α → α) (u : α) (hu : ∀ a, |fl a - a| ≤ u * |a|) (a : α)
    (ha : 0 ≤ a) : (1 - u) * a ≤ fl a ∧ fl a ≤ (1 + u) * a := by
  have h := hu a
  rw [abs_of_nonneg ha, abs_le] at h
  constructor <;> linarith [h.1, h.2]

theorem fl_chain (fl : α → α) (u : α) (hu0 : 0 ≤ u) (hu1 : u ≤ 1)
    (hu : ∀ a, |fl a - a| ≤ u * |a|) (k : Nat) (X Y : α) (hX : 0 ≤ X)
    (hlo : (1 - u) ^ k * X ≤ Y) (hhi : Y ≤ (1 + u) ^ k * X) :
    (1 - u) ^ (k + 1) * X ≤ fl Y ∧ fl Y ≤ (1 + u) ^ (k + 1) * X := by
  have h1u : 0 ≤ 1 - u := by linarith
  have hY : 0 ≤ Y := le_trans (mul_nonneg (pow_nonneg h1u k) hX) hlo
  obtain ⟨ha, hb⟩ := fl_two_sided fl u hu Y hY
  constructor
  · calc (1 - u) ^ (k + 1) * X = (1 - u) * ((1 - u) ^ k * X) := by ring
      _ ≤ (1 - u) * Y := mul_le_mul_of_nonneg_left hlo h1u
      _ ≤ fl Y := ha
  · calc fl Y ≤ (1 + u) * Y := hb
      _ ≤ (1 + u) * ((1 + u) ^ k * X) := mul_le_mul_of_nonneg_left hhi (by linarith)
      _ = (1 + u) ^ (k + 1) * X := by ring

/-- A point of the rounded `linear` grid lies within the factors `(1 ± u)^4` of the
exact one. -/
theorem linearValue_near (fl : α → α) (u : α) (hu0 : 0 ≤ u) (hu1 : u ≤ 1)
    (hu : ∀ a, |fl a - a| ≤ u * |a|) (N : Nat) (hN : 2 ≤ N) (h_in h_out : α)
    (h0 : 0 < h_in) (h1 : h_in < h_out) (i : Nat) :
    (1 - u) ^ 4 * (h_in + (h_out - h_in) * (i : α) / ((N : α) - 1))
      ≤ fl (h_in + fl (fl (fl (h_out - h_in) * (i : α)) / ((N : α) - 1))) ∧
    fl (h_in + fl (fl (fl (h_out - h_in) * (i : α)) / ((N : α) - 1)))
      ≤ (1 + u) ^ 4 * (h_in + (h_out - h_in) * (i : α) / ((N : α) - 1)) := by
  have h1u : 0 ≤ 1 - u := by linarith
  have hd : 0 ≤ h_out - h_in := le_of_lt (sub_pos.2 h1)
  have hi : (0 : α) ≤ (i : α) := Nat.cast_nonneg i
  have hM : (0 : α) < (N : α) - 1 := by
    have : (2 : α) ≤ (N : α) := by exact_mod_cast hN
    linarith
  -- fl (h_out - h_in)
  obtain ⟨a1, b1⟩ := fl_chain fl u hu0 hu1 hu 0 (h_out - h_in) (h_out - h_in) hd
    (by simp) (by simp)
  -- fl (fl (h_out - h_in) * i)
  obtain ⟨a2, b2⟩ := fl_chain fl u hu0 hu1 hu 1 ((h_out - h_in) * (i : α))
    (fl (h_out - h_in) * (i : α)) (mul_nonneg hd hi)
    (by rw [← mul_assoc]; exact mul_le_mul_of_nonneg_right a1 hi)
    (by rw [← mul_assoc]; exact mul_le_mul_of_nonneg_right b1 hi)
  -- fl (… / (N - 1))
  obtain ⟨a3, b3⟩ := fl_chain fl u hu0 hu1 hu 2 ((h_out - h_in) * (i : α) / ((N : α) - 1))
    (fl (fl (h_out - h_in) * (i : α)) / ((N : α) - 1))
    (div_nonneg (mul_nonneg hd hi) (le_of_lt hM))
    (by rw [← mul_div_assoc]; exact div_le_div_of_nonneg_right a2 (le_of_lt hM))
    (by rw [← mul_div_assoc]; exact div_le_div_of_nonneg_right b2 (le_of_lt hM))
  have hQ : 0 ≤ (h_out - h_in) * (i : α) / ((N : α) - 1) :=
    div_nonneg (mul_nonneg hd hi) (le_of_lt hM)
  have hlo3 : (1 - u) ^ 3 ≤ 1 := pow_le_one₀ h1u (by linarith)
  have hhi3 : 1 ≤ (1 + u) ^ 3 := one_le_pow₀ (by linarith)
  have hx : 0 ≤ h_in + (h_out - h_in) * (i : α) / ((N : α) - 1) := by linarith
  exact fl_chain fl u hu0 hu1 hu 3 (h_in + (h_out - h_in) * (i : α) / ((N : α) - 1))
    (h_in + fl (fl (fl (h_out - h_in) * (i : α)) / ((N : α) - 1))) hx
    (by
      have : (1 - u) ^ 3 * h_in ≤ h_in := by
        have := mul_le_mul_of_nonneg_right hlo3 (le_of_lt h0)
        linarith
      rw [mul_add]
      linarith)
    (by
      have : h_in ≤ (1 + u) ^ 3 * h_in := by
        have := mul_le_mul_of_nonneg_right hhi3 (le_of_lt h0)
        linarith
      rw [mul_add]
      linarith)

theorem spacing_bound (A B x1 x2 a b D H : α) (hA : 1 ≤ A) (hB : B ≤ 1)
    (hx12 : x1 ≤ x2) (hx2 : x2 ≤ H) (hstep : x2 - x1 = D)
    (la : B * x1 ≤ a) (ua : a ≤ A * x1) (lb : B * x2 ≤ b) (ub : b ≤ A * x2) :
    |(b - a) - D| ≤ (A - B) * H := by
  have p1 : 0 ≤ (A - 1) * (H - x2) := mul_nonneg (sub_nonneg.2 hA) (sub_nonneg.2 hx2)
  have p2 : 0 ≤ (1 - B) * (H - x1) :=
    mul_nonneg (sub_nonneg.2 hB) (sub_nonneg.2 (le_trans hx12 hx2))
  have p3 : 0 ≤ (A - 1) * (H - x1) :=
    mul_nonneg (sub_nonneg.2 hA) (sub_nonneg.2 (le_trans hx12 hx2))
  have p4 : 0 ≤ (1 - B) * (H - x2) := mul_nonneg (sub_nonneg.2 hB) (sub_nonneg.2 hx2)
  rw [abs_le]
  constructor <;> nlinarith

/-- C2 (as the code has it). `fl` is the rounding of each arithmetic result to a
`double`, with relative error at most `u` (`0 ≤ u ≤ 1`; `u = 2^-53` for binary64).
For `N ≥ 2` and `0 < h_in < h_out`: every point of the `linear` grid is the rounded
closed form and lies within the factors `(1 ± u)^4` of the exact point
`h_in + (h_out-h_in)*i/(N-1)`, and every difference `h[i] - h[i-1]` differs from
`(h_out-h_in)/(N-1)` by at most `((1+u)^4 - (1-u)^4) * h_out`; every point of the
`log` grid is the rounded `h_in * pow(h_out/h_in, i/(N-1))` as computed.  In exact
arithmetic (`fl` the identity, `pow` with the laws of the real power function) the
ratios `h[i] / h[i-1]` of the `log` grid all equal `pow (h_out/h_in) (1/(N-1))` and the
differences of the `linear` grid all equal `(h_out-h_in)/(N-1)`. -/
theorem grid_spacing_up_to_rounding (fl : α → α) (u : α) (hu0 : 0 ≤ u) (hu1 : u ≤ 1)
    (hu : ∀ a, |fl a - a| ≤ u * |a|) (pow : α → α → α)
    (N : Nat) (hN : 2 ≤ N) (h_in h_out GM : α) (h0 : 0 < h_in) (h1 : h_in < h_out) :
    (∃ h R, buildGrid fl pow "linear" h_in h_out GM (N : Int) = Except.ok (h, R) ∧
      h.length = N ∧
      (∀ i : Nat, i < N → ∃ b, h[i]? = some b ∧
        b = fl (h_in + fl (fl (fl (h_out - h_in) * (i : α)) / ((N : α) - 1))) ∧
        (1 - u) ^ 4 * (h_in + (h_out - h_in) * (i : α) / ((N : α) - 1)) ≤ b ∧
        b ≤ (1 + u) ^ 4 * (h_in + (h_out - h_in) * (i : α) / ((N : α) - 1))) ∧
      ∀ i : Nat, 1 ≤ i → i < N → ∃ a b, h[i - 1]? = some a ∧ h[i]? = some b ∧
        |(b - a) - (h_out - h_in) / ((N : α) - 1)|
          ≤ ((1 + u) ^ 4 - (1 - u) ^ 4) * h_out) ∧
    (∃ h R, buildGrid fl pow "log" h_in h_out GM (N : Int) = Except.ok (h, R) ∧
      h.length = N ∧
      ∀ i : Nat, i < N → h[i]? = some
        (fl (h_in * pow (fl (h_out / h_in)) (fl ((i : α) / ((N : α) - 1)))))) ∧
    ((∀ a, fl a = a) → PowLaws pow →
      (∃ h R, buildGrid fl pow "log" h_in h_out GM (N : Int) = Except.ok (h, R) ∧
        h.length = N ∧
        ∀ i, 1 ≤ i → i < N → ∃ a b, h[i - 1]? = some a ∧ h[i]? = some b ∧
          b / a = pow (h_out / h_in) (1 / ((N : α) - 1))) ∧
      (∃ h R, buildGrid fl pow "linear" h_in h_out GM (N : Int) = Except.ok (h, R) ∧
        h.length = N ∧
        ∀ i, 1 ≤ i → i < N → ∃ a b, h[i - 1]? = some a ∧ h[i]? = some b ∧
          b - a = (h_out - h_in) / ((N : α) - 1))) := by
  have h1u : 0 ≤ 1 - u := by linarith
  have hd : 0 < h_out - h_in := sub_pos.2 h1
  have hM : (0 : α) < (N : α) - 1 := by
    have : (2 : α) ≤ (N : α) := by exact_mod_cast hN
    linarith
  refine ⟨?_, buildGrid_log_values fl pow h_in h_out GM N, ?_⟩
  · obtain ⟨h, R, hb, hlen, hv⟩ := buildGrid_linear_values fl pow h_in h_out GM N
    refine ⟨h, R, hb, hlen, ?_, ?_⟩
    · intro i hi
      obtain ⟨lo, hi2⟩ := linearValue_near fl u hu0 hu1 hu N hN h_in h_out h0 h1 i
      exact ⟨_, hv i hi, rfl, lo, hi2⟩
    · intro i hi1 hiN
      obtain ⟨lo1, hi1b⟩ := linearValue_near fl u hu0 hu1 hu N hN h_in h_out h0 h1 (i - 1)
      obtain ⟨lo2, hi2b⟩ := linearValue_near fl u hu0 hu1 hu N hN h_in h_out h0 h1 i
      refine ⟨_, _, hv (i - 1) (by omega), hv i hiN, ?_⟩
      have hc : ((i - 1 : Nat) : α) = (i : α) - 1 := by
        rw [Nat.cast_sub hi1]; simp
      -- the exact points
      have hiM : (i : α) ≤ (N : α) - 1 := by
        have : (i : α) + 1 ≤ (N : α) := by exact_mod_cast hiN
        linarith
      have hi0 : (1 : α) ≤ (i : α) := by exact_mod_cast hi1
      have hx2 : h_in + (h_out - h_in) * (i : α) / ((N : α) - 1) ≤ h_out := by
        have : (h_out - h_in) * (i : α) / ((N : α) - 1) ≤ h_out - h_in := by
          rw [div_le_iff₀ hM]
          exact mul_le_mul_of_nonneg_left hiM (le_of_lt hd)
        linarith
      have hstep : h_in + (h_out - h_in) * (i : α) / ((N : α) - 1)
          - (h_in + (h_out - h_in) * ((i - 1 : Nat) : α) / ((N : α) - 1))
          = (h_out - h_in) / ((N : α) - 1) := by
        rw [hc]
        field_simp
        ring
      have hx12 : h_in + (h_out - h_in) * ((i - 1 : Nat) : α) / ((N : α) - 1)
          ≤ h_in + (h_out - h_in) * (i : α) / ((N : α) - 1) := by
        have : 0 ≤ (h_out - h_in) / ((N : α) - 1) := div_nonneg (le_of_lt hd) (le_of_lt hM)
        linarith
      have hA : 1 ≤ (1 + u) ^ 4 := one_le_pow₀ (by linarith)
      have hB : (1 - u) ^ 4 ≤ 1 := pow_le_one₀ h1u (by linarith)
      exact spacing_bound _ _ _ _ _ _ _ h_out hA hB hx12 hx2 hstep lo1 hi1b lo2 hi2b
  · intro hid hp
    obtain rfl : fl = id := funext hid
    exact exact_grid_spacing pow hp N hN h_in h_out GM h0 h1

/-- C2, witness: the `linear` grid `1 → 2` with `N = 4` and the `log` grid `1 → 2`
with `N = 2` in binary64 (`u = 2^-53`), and the grids `1 → 4` with `N = 3` in exact
real arithmetic. -/
theorem grid_spacing_up_to_rounding_witness :
    (∃ h R, buildGrid roundDouble intPow "linear" 1 2 1 ((4 : Nat) : Int) = Except.ok (h, R) ∧
      h.length = 4 ∧
      (∀ i : Nat, i < 4 → ∃ b, h[i]? = some b ∧
        b = roundDouble (1 + roundDouble (roundDouble (roundDouble (2 - 1) * (i : ℚ))
          / (((4 : Nat) : ℚ) - 1))) ∧
        (1 - 1 / 2 ^ 53) ^ 4 * (1 + (2 - 1) * (i : ℚ) / (((4 : Nat) : ℚ) - 1)) ≤ b ∧
        b ≤ (1 + 1 / 2 ^ 53) ^ 4 * (1 + (2 - 1) * (i : ℚ) / (((4 : Nat) : ℚ) - 1))) ∧
      ∀ i : Nat, 1 ≤ i → i < 4 → ∃ a b, h[i - 1]? = some a ∧ h[i]? = some b ∧
        |(b - a) - (2 - 1) / (((4 : Nat) : ℚ) - 1)|
          ≤ ((1 + 1 / 2 ^ 53) ^ 4 - (1 - 1 / 2 ^ 53) ^ 4) * 2) ∧
    (∃ h R, buildGrid roundDouble intPow "log" 1 2 1 ((2 : Nat) : Int) = Except.ok (h, R) ∧
      h.length = 2 ∧
      ∀ i : Nat, i < 2 → h[i]? = some
        (roundDouble (1 * intPow (roundDouble (2 / 1))
          (roundDouble ((i : ℚ) / (((2 : Nat) : ℚ) - 1)))))) ∧
    ((∃ h R, buildGrid id Real.rpow "log" (1 : ℝ) 4 1 ((3 : Nat) : Int) = Except.ok (h, R) ∧
      h.length = 3 ∧
      ∀ i, 1 ≤ i → i < 3 → ∃ a b, h[i - 1]? = some a ∧ h[i]? = some b ∧
        b / a = Real.rpow ((4 : ℝ) / 1) (1 / (((3 : Nat) : ℝ) - 1))) ∧
    (∃ h R, buildGrid id Real.rpow "linear" (1 : ℝ) 4 1 ((3 : Nat) : Int)
        = Except.ok (h, R) ∧
      h.length = 3 ∧
      ∀ i, 1 ≤ i → i < 3 → ∃ a b, h[i - 1]? = some a ∧ h[i]? = some b ∧
        b - a = ((4 : ℝ) - 1) / (((3 : Nat) : ℝ) - 1))) :=
  ⟨(grid_spacing_up_to_rounding roundDouble (1 / 2 ^ 53) (by norm_num) (by norm_num)
      roundDouble_error intPow 4 (by norm_num) 1 2 1 (by norm_num) (by norm_num)).1,
   (grid_spacing_up_to_rounding roundDouble (1 / 2 ^ 53) (by norm_num) (by norm_num)
      roundDouble_error intPow 2 (by norm_num) 1 2 1 (by norm_num) (by norm_num)).2.1,
   (grid_spacing_up_to_rounding id 0 (le_refl 0) (by norm_num) (by intro a; simp)
      Real.rpow 3 (by norm_num) (1 : ℝ) 4 1 (by norm_num) (by norm_num)).2.2
      (fun _ => rfl) rpow_PowLaws⟩

/-- C2, counterexample, in binary64 (`roundDouble`).  The `linear` grid from `1` to
`2` with `N = 4` is `[1, 6004799503160661 / 2^52, 3752999689475413 / 2^51, 2]`, that
is `[1, 1.3333333333333333, 1.6666666666666665, 2]`: the first two differences are
`1501199875790165 / 2^52` and the third is `1501199875790166 / 2^52`. -/
theorem linear_spacing_varies_in_doubles :
    ∃ h R, buildGrid roundDouble intPow "linear" 1 2 1 ((4 : Nat) : Int) = Except.ok (h, R) ∧
      h[0]? = some 1 ∧ h[1]? = some (6004799503160661 / 2 ^ 52) ∧
      h[2]? = some (3752999689475413 / 2 ^ 51) ∧ h[3]? = some 2 ∧
      (6004799503160661 / 2 ^ 52 : ℚ) - 1 = 1501199875790165 / 2 ^ 52 ∧
      (3752999689475413 / 2 ^ 51 : ℚ) - 6004799503160661 / 2 ^ 52
        = 1501199875790165 / 2 ^ 52 ∧
      (2 : ℚ) - 3752999689475413 / 2 ^ 51 = 1501199875790166 / 2 ^ 52 := by
  have d1 : roundDouble (2 - 1) = 1 := by
    rw [roundDouble_down (2 - 1) (-52) 4503599627370496
      (by norm_num) (by norm_num) (by norm_num) (by norm_num)]
    norm_num
  have p1 : roundDouble (1 * 1) = 1 := by
    rw [roundDouble_down (1 * 1) (-52) 4503599627370496
      (by norm_num) (by norm_num) (by norm_num) (by norm_num)]
    norm_num
  have q1 : roundDouble (1 / (4 - 1)) = 6004799503160661 / 2 ^ 54 := by
    rw [roundDouble_down (1 / (4 - 1)) (-54) 6004799503160661
      (by norm_num) (by norm_num) (by norm_num) (by norm_num)]
    norm_num
  have s1 : roundDouble (1 + (6004799503160661 / 2 ^ 54)) = 6004799503160661 / 2 ^ 52 := by
    rw [roundDouble_down (1 + (6004799503160661 / 2 ^ 54)) (-52) 6004799503160661
      (by norm_num) (by norm_num) (by norm_num) (by norm_num)]
    norm_num
  have p2 : roundDouble (1 * 2) = 2 := by
    rw [roundDouble_down (1 * 2) (-51) 4503599627370496
      (by norm_num) (by norm_num) (by norm_num) (by norm_num)]
    norm_num
  have q2 : roundDouble (2 / (4 - 1)) = 6004799503160661 / 2 ^ 53 := by
    rw [roundDouble_down (2 / (4 - 1)) (-53) 6004799503160661
      (by norm_num) (by norm_num) (by norm_num) (by norm_num)]
    norm_num
  have s2 : roundDouble (1 + (6004799503160661 / 2 ^ 53)) = 3752999689475413 / 2 ^ 51 := by
    rw [roundDouble_tie_even (1 + (6004799503160661 / 2 ^ 53)) (-52) 7505999378950826
      (by norm_num) (by norm_num) (by norm_num) (by decide)]
    norm_num
  have p3 : roundDouble (1 * 3) = 3 := by
    rw [roundDouble_down (1 * 3) (-51) 6755399441055744
      (by norm_num) (by norm_num) (by norm_num) (by norm_num)]
    norm_num
  have q3 : roundDouble (3 / (4 - 1)) = 1 := by
    rw [roundDouble_down (3 / (4 - 1)) (-52) 4503599627370496
      (by norm_num) (by norm_num) (by norm_num) (by norm_num)]
    norm_num
  have s3 : roundDouble (1 + 1) = 2 := by
    rw [roundDouble_down (1 + 1) (-51) 4503599627370496
      (by norm_num) (by norm_num) (by norm_num) (by norm_num)]
    norm_num
  obtain ⟨h, R, hb, _, hv⟩ := buildGrid_linear_values roundDouble intPow 1 2 1 4
  refine ⟨h, R, hb, ?_, ?_, ?_, ?_, by norm_num, by norm_num, by norm_num⟩
  · rw [hv 0 (by norm_num)]
    simp only [Nat.cast_zero, mul_zero, roundDouble_zero, zero_div, add_zero,
      roundDouble_one]
  · rw [hv 1 (by norm_num)]
    simp only [Nat.cast_ofNat, Nat.cast_one]
    rw [d1, p1, q1, s1]
  · rw [hv 2 (by norm_num)]
    simp only [Nat.cast_ofNat]
    rw [d1, p2, q2, s2]
  · rw [hv 3 (by norm_num)]
    simp only [Nat.cast_ofNat]
    rw [d1, p3, q3, s3]

/-! ## Bounds-checked access -/

theorem vecAt_ok_iff {β : Type} (v : List β) (i : Int) (a : β) :
    vecAt v i = Except.ok a ↔ 0 ≤ i ∧ v[i.toNat]? = some a := by
  unfold vecAt
  by_cases hi : i < 0
  · simp [hi]
  · simp only [hi, if_false]
    cases hv : v[i.toNat]? with
    | none => simp
    | some b =>
      simp only [Except.ok.injEq, Option.some.injEq]
      constructor
      · intro h; exact ⟨by omega, h⟩
      · intro h; exact h.2

theorem vecAt_natCast {β : Type} (v : List β) (i : Nat) (a : β) (h : v[i]? = some a) :
    vecAt v (i : Int) = Except.ok a :=
  (vecAt_ok_iff v i a).2 ⟨by omega, by simpa using h⟩

theorem vecAt_error {β : Type} (v : List β) (i : Int) (e : Error)
    (h : vecAt v i = Except.error e) : e = Error.out_of_range := by
  unfold vecAt at h
  by_cases hi : i < 0
  · simp [hi] at h; exact h.symm
  · simp only [hi, if_false] at h
    cases hv : v[i.toNat]? with
    | none => rw [hv] at h; simp at h; exact h.symm
    | some b => rw [hv] at h; simp at h

theorem vecAt_outside {β : Type} (v : List β) (i : Int)
    (h : i < 0 ∨ (v.length : Int) ≤ i) : vecAt v i = Except.error Error.out_of_range := by
  unfold vecAt
  by_cases hi : i < 0
  · simp [hi]
  · have hlen : v.length ≤ i.toNat := by omega
    simp [hi, List.getElem?_eq_none hlen]

/-! ## The closure `wunc` -/

theorem wuncLoop_inside (x : External α) (d : Driver) (h F : List α) (k : Nat) :
    ∀ (i : Nat) (W : List α), i + k ≤ h.length → i + k ≤ F.length →
      wuncLoop x d h F (i : Int) k W
        = Except.ok (W ++ (List.range' i k).map
            (fun j => wuncValue x d (F.getD j 0) (h.getD j 0))) := by
  induction k with
  | zero => intro i W _ _; simp [wuncLoop]
  | succ k ih =>
    intro i W hh hF
    have h1 : vecAt F (i : Int) = Except.ok (F.getD i 0) :=
      vecAt_natCast F i _ (by
        rw [List.getD_eq_getElem?_getD, List.getElem?_eq_getElem (by omega)]; rfl)
    have h2 : vecAt h (i : Int) = Except.ok (h.getD i 0) :=
      vecAt_natCast h i _ (by
        rw [List.getD_eq_getElem?_getD, List.getElem?_eq_getElem (by omega)]; rfl)
    have h3 := ih (i + 1) (W ++ [wuncValue x d (F.getD i 0) (h.getD i 0)])
      (by omega) (by omega)
    have hc : ((i + 1 : Nat) : Int) = (i : Int) + 1 := by push_cast; rfl
    rw [hc] at h3
    simp only [wuncLoop, h1, h2, h3, List.range'_succ, List.map_cons, List.append_assoc,
      List.singleton_append]

theorem wuncLoop_outside (x : External α) (d : Driver) (h F : List α) (N : Nat)
    (hh : h.length = N) (hF : F.length = N) (k : Nat) :
    ∀ (i : Int) (W : List α), 0 < k → (i < 0 ∨ (N : Int) < i + k) →
      wuncLoop x d h F i k W = Except.error Error.out_of_range := by
  induction k with
  | zero => intro i W hk; omega
  | succ k ih =>
    intro i W _ hout
    by_cases hi : i < 0 ∨ (N : Int) ≤ i
    · have h1 : vecAt F i = Except.error Error.out_of_range :=
        vecAt_outside F i (by rw [hF]; exact hi)
      simp only [wuncLoop, h1]
    · have hi0 : 0 ≤ i := by omega
      have hiN : i.toNat < N := by omega
      have h1 : vecAt F i = Except.ok (F.getD i.toNat 0) :=
        (vecAt_ok_iff F i _).2 ⟨hi0, by
          rw [List.getD_eq_getElem?_getD, List.getElem?_eq_getElem (by omega)]; rfl⟩
      have h2 : vecAt h i = Except.ok (h.getD i.toNat 0) :=
        (vecAt_ok_iff h i _).2 ⟨hi0, by
          rw [List.getD_eq_getElem?_getD, List.getElem?_eq_getElem (by omega)]; rfl⟩
      have h3 := ih (i + 1) (W ++ [wuncValue x d (F.getD i.toNat 0) (h.getD i.toNat 0)])
        (by omega) (by omega)
      simp only [wuncLoop, h1, h2, h3]

theorem wunc_inside (x : External α) (d : Driver) (h F : List α) (first last : Nat)
    (hfl : first ≤ last) (hh : last < h.length) (hF : last < F.length) :
    wunc x d h F (first : Int) (last : Int)
      = Except.ok (List.replicate first 0 ++ (List.range' first (last - first + 1)).map
          (fun j => wuncValue x d (F.getD j 0) (h.getD j 0))) := by
  have hk : ((last : Int) - (first : Int) + 1).toNat = last - first + 1 := by omega
  have hz : (if (first : Int) > 0 then (first : Int) else 0).toNat = first := by
    split <;> omega
  unfold wunc
  rw [hk, hz]
  exact wuncLoop_inside x d h F _ first _ (by omega) (by omega)

/-- C3. For a grid `h` and profile `F` of length `N` and `0 ≤ first ≤ last ≤ N-1`,
`wunc(h, F, first, last)` returns a vector of length `last+1` whose entries below
`first` are `0` and whose entry at every `first ≤ i ≤ last` is
`F[i]^(1-m) * h[i]^n / ((1-m) * D)`; if some index of `[first, last]` lies outside
`[0, N-1]` the call throws `out_of_range`. -/
theorem wunc_values_and_bounds (x : External α) (h F : List α) (N : Nat)
    (hh : h.length = N) (hF : F.length = N) :
    (∀ first last : Nat, first ≤ last → last < N →
      ∃ W, wunc x Driver.freddi h F (first : Int) (last : Int) = Except.ok W ∧
        W.length = last + 1 ∧
        (∀ i, i < first → W[i]? = some 0) ∧
        ∀ i Fi hi, first ≤ i → i ≤ last → F[i]? = some Fi → h[i]? = some hi →
          W[i]? = some (x.pow Fi (1 - x.oprel.m) * x.pow hi x.oprel.n
            / ((1 - x.oprel.m) * x.oprel.D))) ∧
    (∀ first last : Int,
      (∃ i, first ≤ i ∧ i ≤ last ∧ (i < 0 ∨ (N : Int) ≤ i)) →
      wunc x Driver.freddi h F first last = Except.error Error.out_of_range) := by
  constructor
  · intro first last hfl hlast
    refine ⟨_, wunc_inside x Driver.freddi h F first last hfl (by omega) (by omega),
      ?_, ?_, ?_⟩
    · simp; omega
    · intro i hi
      rw [List.getElem?_append_left (by simpa using hi)]
      simp [List.getElem?_replicate, hi]
    · intro i Fi hi hfi hil hFi hhi
      rw [List.getElem?_append_right (by simpa using hfi)]
      simp only [List.length_replicate, List.getElem?_map]
      rw [List.getElem?_range' _ _ (by omega)]
      have hidx : first + 1 * (i - first) = i := by omega
      simp only [Option.map_some', hidx, wuncValue, List.getD_eq_getElem?_getD, hFi, hhi,
        Option.getD_some, div_div]
  · rintro first last ⟨i, hfi, hil, hout⟩
    unfold wunc
    refine wuncLoop_outside x Driver.freddi h F N hh hF _ first _ (by omega) ?_
    omega

/-- Witness of the C3 statement: `h = [1, 2]`, `F = [3, 4]`. -/
theorem wunc_values_and_bounds_witness :
    (∀ first last : Nat, first ≤ last → last < 2 →
      ∃ W, wunc exampleExternal Driver.freddi [1, 2] [3, 4] (first : Int) (last : Int)
          = Except.ok W ∧
        W.length = last + 1 ∧
        (∀ i, i < first → W[i]? = some 0) ∧
        ∀ i Fi hi, first ≤ i → i ≤ last → ([3, 4] : List ℚ)[i]? = some Fi →
          ([1, 2] : List ℚ)[i]? = some hi →
          W[i]? = some (exampleExternal.pow Fi (1 - exampleExternal.oprel.m)
            * exampleExternal.pow hi exampleExternal.oprel.n
            / ((1 - exampleExternal.oprel.m) * exampleExternal.oprel.D))) ∧
    (∀ first last : Int,
      (∃ i, first ≤ i ∧ i ≤ last ∧ (i < 0 ∨ ((2 : Nat) : Int) ≤ i)) →
      wunc exampleExternal Driver.freddi [1, 2] [3, 4] first last
        = Except.error Error.out_of_range) :=
  wunc_values_and_bounds exampleExternal [1, 2] [3, 4] 2 rfl rfl

theorem wuncLoop_ok (x : External α) (d : Driver) (h F : List α) (k : Nat) :
    ∀ (i : Int) (W0 W : List α), wuncLoop x d h F i k W0 = Except.ok W →
      ∃ L, W = W0 ++ L ∧ L.length = k ∧
        ∀ j, j < k → ∃ Fi hi, vecAt F (i + j) = Except.ok Fi ∧
          vecAt h (i + j) = Except.ok hi ∧ L[j]? = some (wuncValue x d Fi hi) := by
  induction k with
  | zero =>
    intro i W0 W hW
    simp only [wuncLoop, Except.ok.injEq] at hW
    exact ⟨[], by simp [hW], rfl, fun j hj => absurd hj (Nat.not_lt_zero j)⟩
  | succ k ih =>
    intro i W0 W hW
    cases h1 : vecAt F i with
    | error e => simp [wuncLoop, h1] at hW
    | ok Fi =>
      cases h2 : vecAt h i with
      | error e => simp [wuncLoop, h1, h2] at hW
      | ok hi =>
        simp only [wuncLoop, h1, h2] at hW
        obtain ⟨L, hL, hlen, hall⟩ := ih (i + 1) _ W hW
        refine ⟨wuncValue x d Fi hi :: L, by simp [hL], by simp [hlen], ?_⟩
        intro j hj
        cases j with
        | zero => exact ⟨Fi, hi, by simpa using h1, by simpa using h2, by simp⟩
        | succ j =>
          obtain ⟨Fj, hj', e1, e2, e3⟩ := hall j (by omega)
          refine ⟨Fj, hj', ?_, ?_, by simpa using e3⟩
          · rw [← e1]; congr 1; push_cast; ring
          · rw [← e2]; congr 1; push_cast; ring

theorem wuncValue_nonneg (x : External α) (hp : PowLaws x.pow) (d : Driver)
    (hpi : 0 < x.M_PI) (hm : x.oprel.m < 1) (hD : 0 < x.oprel.D) (Fi hi : α)
    (hF : 0 ≤ Fi) (hh : 0 < hi) : 0 ≤ wuncValue x d Fi hi := by
  have h1m : 0 < 1 - x.oprel.m := sub_pos.2 hm
  cases d with
  | freddi =>
    exact div_nonneg (div_nonneg (mul_nonneg (hp.nonneg _ _ hF)
      (hp.nonneg _ _ (le_of_lt hh))) (le_of_lt h1m)) (le_of_lt hD)
  | fred =>
    have h2pi : 0 < 2 * x.M_PI := by linarith
    exact div_nonneg (div_nonneg (div_nonneg (mul_nonneg
      (hp.nonneg _ _ (mul_nonneg (le_of_lt h2pi) hF))
      (hp.nonneg _ _ (le_of_lt hh))) (le_of_lt h1m)) (le_of_lt hD)) (le_of_lt h2pi)

/-- C4 (as the code has it). With `PowLaws`, `M_PI > 0`, `m < 1` and a positive
normalisation `D > 0`, every value `wunc` returns is well defined (the divisors
`1 - m` and `D` are not zero) and: entries below `first` are `0`, and the entry at
every grid point `i ≥ first` with `F[i] ≥ 0` and `h[i] > 0` is non-negative. -/
theorem wunc_nonneg_of_pos_D (x : External α) (hp : PowLaws x.pow) (d : Driver)
    (hpi : 0 < x.M_PI) (hm : x.oprel.m < 1) (hD : 0 < x.oprel.D)
    (h F : List α) (first last : Int) (W : List α)
    (hW : wunc x d h F first last = Except.ok W) :
    1 - x.oprel.m ≠ 0 ∧ x.oprel.D ≠ 0 ∧
    ∀ (i : Nat) (Wi : α), W[i]? = some Wi →
      ((i : Int) < first → Wi = 0) ∧
      (∀ Fi hi, first ≤ (i : Int) → F[i]? = some Fi → h[i]? = some hi →
        0 ≤ Fi → 0 < hi → 0 ≤ Wi) := by
  refine ⟨ne_of_gt (sub_pos.2 hm), ne_of_gt hD, ?_⟩
  obtain ⟨L, hL, hlen, hall⟩ := wuncLoop_ok x d h F _ first _ W hW
  intro i Wi hWi
  set z := (if first > 0 then first else 0).toNat with hz
  constructor
  · intro hi
    have hiz : i < z := by rw [hz]; split <;> omega
    rw [hL, List.getElem?_append_left (by simpa using hiz)] at hWi
    simp [List.getElem?_replicate, hiz] at hWi
    exact hWi.symm
  · intro Fi hi hfi hFi hhi hF0 hh0
    have hiz : z ≤ i := by rw [hz]; split <;> omega
    rw [hL, List.getElem?_append_right (by simpa using hiz)] at hWi
    simp only [List.length_replicate] at hWi
    have hj : i - z < (last - first + 1).toNat := by
      have := List.getElem?_eq_some.1 hWi
      obtain ⟨hlt, _⟩ := this
      rw [hlen] at hlt; exact hlt
    obtain ⟨Fj, hj', e1, e2, e3⟩ := hall (i - z) hj
    have hfirst : 0 ≤ first := by
      obtain ⟨F0, _, e0, _, _⟩ := hall 0 (by omega)
      have := ((vecAt_ok_iff F _ _).1 e0).1
      simpa using this
    have hzfirst : (z : Int) = first := by rw [hz]; split <;> omega
    have hidx : first + ((i - z : Nat) : Int) = (i : Int) := by omega
    rw [hidx] at e1 e2
    have e1' := ((vecAt_ok_iff F _ _).1 e1).2
    have e2' := ((vecAt_ok_iff h _ _).1 e2).2
    simp only [Int.toNat_ofNat] at e1' e2'
    rw [hFi] at e1'; rw [hhi] at e2'
    cases e1'; cases e2'
    rw [e3] at hWi
    cases hWi
    exact wuncValue_nonneg x hp d hpi hm hD _ _ hF0 hh0

/-- Witness of the C4 statement: `m = 0`, `n = 1`, `D = 1`, `h = [1, 2]`,
`F = [0, 1]`, `wunc(h, F, 1, 1) = [0, 2]` over the reals. -/
theorem wunc_nonneg_of_pos_D_witness :
    1 - (closureExternal Real.rpow Real.pi 0 1 1).oprel.m ≠ 0 ∧
    (closureExternal Real.rpow Real.pi 0 1 1).oprel.D ≠ 0 ∧
    ∀ (i : Nat) (Wi : ℝ), ([0, 2] : List ℝ)[i]? = some Wi →
      ((i : Int) < 1 → Wi = 0) ∧
      (∀ Fi hi, (1 : Int) ≤ (i : Int) → ([0, 1] : List ℝ)[i]? = some Fi →
        ([1, 2] : List ℝ)[i]? = some hi → 0 ≤ Fi → 0 < hi → 0 ≤ Wi) :=
  wunc_nonneg_of_pos_D (closureExternal Real.rpow Real.pi 0 1 1) rpow_PowLaws Driver.freddi
    Real.pi_pos (by norm_num [closureExternal])
    (by norm_num [closureExternal]) [1, 2] [0, 1] 1 1 [0, 2]
    (by
      have h := wunc_inside (closureExternal Real.rpow Real.pi 0 1 1) Driver.freddi
        ([1, 2] : List ℝ) [0, 1] 1 1 (le_refl 1) (by simp) (by simp)
      rw [show ((1 : Nat) : Int) = 1 from rfl] at h
      rw [h]
      simp [wuncValue, closureExternal])

/-- C4, counterexample. The coefficient set `m = 0 < 1`, `n = 0`, `D = -1` and the
grid point `h = 1`, `F = 1 ≥ 0` give the closure value `-1 < 0`. -/
theorem wunc_negative_for_negative_D :
    (closureExternal Real.rpow Real.pi 0 0 (-1)).oprel.m < 1 ∧
    wunc (closureExternal Real.rpow Real.pi 0 0 (-1)) Driver.freddi ([1] : List ℝ) [1] 0 0
      = Except.ok [-1] := by
  refine ⟨by norm_num [closureExternal], ?_⟩
  have h := wunc_inside (closureExternal Real.rpow Real.pi 0 0 (-1)) Driver.freddi
    ([1] : List ℝ) [1] 0 0 (le_refl 0) (by simp) (by simp)
  rw [show ((0 : Nat) : Int) = 0 from rfl] at h
  rw [h]
  simp [wuncValue, closureExternal]

/-! ## Outer-boundary scans -/

theorem scanDown_ok (V : List α) (bound : Nat → α) (k : Nat) :
    ∀ ii : Int, scanDown V bound k = Except.ok ii →
      0 ≤ ii ∧ ii.toNat < k ∧
      (∃ v, V[ii.toNat]? = some v ∧ bound ii.toNat ≤ v) ∧
      ∀ j, ii.toNat < j → j < k → ∃ w, V[j]? = some w ∧ w < bound j := by
  induction k with
  | zero => intro ii h; simp [scanDown] at h
  | succ k ih =>
    intro ii h
    cases hv : vecAt V (k : Int) with
    | error e => simp [scanDown, hv] at h
    | ok v =>
      have hVk : V[k]? = some v := by simpa using ((vecAt_ok_iff V _ _).1 hv).2
      simp only [scanDown, hv] at h
      by_cases hlt : v < bound k
      · simp only [hlt, if_true] at h
        obtain ⟨h0, h1, h2, h3⟩ := ih ii h
        refine ⟨h0, by omega, h2, ?_⟩
        intro j hj hjk
        by_cases hjk' : j < k
        · exact h3 j hj hjk'
        · have : j = k := by omega
          subst this
          exact ⟨v, hVk, hlt⟩
      · simp only [hlt, if_false, Except.ok.injEq] at h
        subst h
        refine ⟨by omega, by simp, ⟨v, by simpa using hVk, by simpa using not_lt.1 hlt⟩, ?_⟩
        intro j hj hjk
        simp at hj
        omega

/-- The scan stops at an index whenever some scanned entry is not below its bound. -/
theorem scanDown_total (V : List α) (bound : Nat → α) (k : Nat) (hk : k ≤ V.length)
    (m : Nat) (hm : m < k) (v : α) (hv : V[m]? = some v) (hge : bound m ≤ v) :
    ∃ ii : Int, scanDown V bound k = Except.ok ii := by
  induction k with
  | zero => omega
  | succ k ih =>
    have hk' : k < V.length := by omega
    have hVk : vecAt V (k : Int) = Except.ok V[k] :=
      vecAt_natCast V k _ (List.getElem?_eq_getElem hk')
    simp only [scanDown, hVk]
    by_cases hlt : V[k] < bound k
    · simp only [hlt, if_true]
      have hmk : m < k := by
        by_contra hcon
        have : m = k := by omega
        subst this
        rw [List.getElem?_eq_getElem hk'] at hv
        cases hv
        exact absurd hlt (not_lt.2 hge)
      exact ih (by omega) hmk
    · simp only [hlt, if_false]
      exact ⟨_, rfl⟩

theorem edgeIndex_Teff (p : Params α) (x : External α) (R : List α)
    (cells : List (Cell α)) (Nx : Int) (Mdot_in Mdot_in_prev : α)
    (hb : p.bound_cond_type = "Teff") :
    edgeIndex p x R cells Nx Mdot_in Mdot_in_prev
      = scanDown (cells.map Cell.Tph) (fun _ => p.T_min_hot_disk) Nx.toNat := by
  simp [edgeIndex, hb]

/-- C5. Under the `Teff` boundary condition, for a photospheric-temperature vector
`Tph` of length `Nx` and any threshold, the edge index `ii` the scan returns lies in
`0..Nx-1`, has `Tph[ii] ≥ threshold`, and is the first such index from the outside
in: either `ii = Nx-1` or `Tph[ii+1] < threshold`, and every `ii < j ≤ Nx-1` has
`Tph[j] < threshold`. -/
theorem teff_edge_is_outermost_hot (p : Params α) (x : External α) (R : List α)
    (cells : List (Cell α)) (Nx : Int) (Mdot_in Mdot_in_prev : α) (ii : Int)
    (hb : p.bound_cond_type = "Teff")
    (h : edgeIndex p x R cells Nx Mdot_in Mdot_in_prev = Except.ok ii) :
    0 ≤ ii ∧ ii ≤ Nx - 1 ∧
    (∃ v, (cells.map Cell.Tph)[ii.toNat]? = some v ∧ p.T_min_hot_disk ≤ v) ∧
    (ii = Nx - 1 ∨
      ∃ w, (cells.map Cell.Tph)[ii.toNat + 1]? = some w ∧ w < p.T_min_hot_disk) ∧
    ∀ j : Nat, ii < (j : Int) → (j : Int) ≤ Nx - 1 →
      ∃ w, (cells.map Cell.Tph)[j]? = some w ∧ w < p.T_min_hot_disk := by
  rw [edgeIndex_Teff p x R cells Nx Mdot_in Mdot_in_prev hb] at h
  obtain ⟨h0, h1, h2, h3⟩ := scanDown_ok _ _ _ ii h
  refine ⟨h0, by omega, h2, ?_, ?_⟩
  · by_cases hlast : ii = Nx - 1
    · exact Or.inl hlast
    · exact Or.inr (h3 (ii.toNat + 1) (by omega) (by omega))
  · intro j hj hjN
    exact h3 j (by omega) (by omega)

/-- Witness of the C5 statement: `Tph = [0, 5, 1]` with threshold `2` gives the edge
index `1`. -/
theorem teff_edge_is_outermost_hot_witness :
    (0 : Int) ≤ 1 ∧ (1 : Int) ≤ 3 - 1 ∧
    (∃ v, ([exampleCell (0 : ℚ) 0 0, exampleCell 0 0 5, exampleCell 0 0 1].map Cell.Tph)[
        (1 : Int).toNat]? = some v ∧
      (exampleParams Driver.freddi "Teff" "power" 0 2).T_min_hot_disk ≤ v) ∧
    ((1 : Int) = 3 - 1 ∨
      ∃ w, ([exampleCell (0 : ℚ) 0 0, exampleCell 0 0 5, exampleCell 0 0 1].map Cell.Tph)[
          (1 : Int).toNat + 1]? = some w ∧
        w < (exampleParams Driver.freddi "Teff" "power" 0 2).T_min_hot_disk) ∧
    ∀ j : Nat, (1 : Int) < (j : Int) → (j : Int) ≤ 3 - 1 →
      ∃ w, ([exampleCell (0 : ℚ) 0 0, exampleCell 0 0 5, exampleCell 0 0 1].map Cell.Tph)[j]?
          = some w ∧
        w < (exampleParams Driver.freddi "Teff" "power" 0 2).T_min_hot_disk :=
  teff_edge_is_outermost_hot (exampleParams Driver.freddi "Teff" "power" 0 2) exampleExternal
    [1, 2, 3] [exampleCell (0 : ℚ) 0 0, exampleCell 0 0 5, exampleCell 0 0 1] 3 0 0 1 rfl
    (by rw [edgeIndex_Teff _ _ _ _ _ _ _ rfl]; rfl)

/-! ## One pass of the time loop -/

theorem tryBlock_inv (p : Params α) (x : External α) (s : State α) (F W : List α)
    (h : tryBlock p x s = Except.ok (some (F, W))) :
    x.nonlenear_diffusion_nonuniform_1_2 p.tau p.eps 0
        (match p.driver with
          | Driver.freddi => s.Mdot_out
          | Driver.fred => s.Mdot_out / (2 * x.M_PI))
        (wunc x p.driver) s.h s.F = Except.ok F ∧
    wunc x p.driver s.h F 1 (s.Nx - 1) = Except.ok W := by
  unfold tryBlock at h
  split at h
  · simp at h
  · simp at h
  · rename_i F' hF'
    split at h
    · simp at h
    · simp at h
    · rename_i W' hW'
      simp only [Except.ok.injEq, Option.some.injEq, Prod.mk.injEq] at h
      obtain ⟨rfl, rfl⟩ := h
      exact ⟨hF', hW'⟩

/-- What a completed pass of the loop body computed, piece by piece. -/
theorem step_inv (p : Params α) (x : External α) (t : α) (s : State α) (o : StepOutput α)
    (h : step p x t s = Except.ok (some o)) :
    0 ≤ s.Nx ∧
    tryBlock p x s = Except.ok (some (o.state.F, o.W)) ∧
    Mdot_in_value p x s.h o.state.F = Except.ok o.state.Mdot_in ∧
    radiativeFields p x s.h s.R o.state.F o.W o.state.Mdot_in s.Nx = Except.ok o.cells ∧
    edgeIndex p x s.R o.cells s.Nx o.state.Mdot_in s.Mdot_in = Except.ok o.ii ∧
    o.state.Nx = (truncate o.ii s.Nx s.h).1 ∧
    o.state.h = (truncate o.ii s.Nx s.h).2 ∧
    o.state.R = s.R ∧
    o.state.Mdot_in_prev = s.Mdot_in ∧
    o.state.Mdot_out
      = (if p.bound_cond_type = "MdotOut" then -p.kMdot_out * o.state.Mdot_in
         else s.Mdot_out) ∧
    (p.driver = Driver.freddi →
      Mdisk x s.R (o.cells.map Cell.Sigma) o.state.Nx = Except.ok o.state.Mdisk) ∧
    makeRecord p x t o.state o.W o.cells = Except.ok o.record := by
  unfold step at h
  split at h
  · simp at h
  · rename_i hNx
    split at h
    · simp at h
    · simp at h
    · rename_i F W hT
      split at h
      · simp at h
      · rename_i M hM
        split at h
        · simp at h
        · rename_i cells hC
          split at h
          · simp at h
          · rename_i ii hii
            simp only at h
            split at h
            · simp at h
            · rename_i Md hMd
              split at h
              · simp at h
              · rename_i r hr
                simp only [Except.ok.injEq, Option.some.injEq] at h
                subst h
                refine ⟨by omega, hT, hM, hC, hii, rfl, rfl, rfl, rfl, rfl, ?_, hr⟩
                intro hd
                simp only [hd] at hMd
                exact hMd

/-- A pass of the loop body completes when each of its pieces does. -/
theorem step_intro (p : Params α) (x : External α) (t : α) (s : State α)
    (F W : List α) (M : α) (cells : List (Cell α)) (ii : Int) (Md : α) (r : Record α)
    (hNx : 0 ≤ s.Nx)
    (hT : tryBlock p x s = Except.ok (some (F, W)))
    (hM : Mdot_in_value p x s.h F = Except.ok M)
    (hC : radiativeFields p x s.h s.R F W M s.Nx = Except.ok cells)
    (hii : edgeIndex p x s.R cells s.Nx M s.Mdot_in = Except.ok ii)
    (hMd : (match p.driver with
      | Driver.freddi => Mdisk x s.R (cells.map Cell.Sigma) (truncate ii s.Nx s.h).1
      | Driver.fred => Except.ok s.Mdisk) = Except.ok Md)
    (hr : makeRecord p x t
      { Nx := (truncate ii s.Nx s.h).1, h := (truncate ii s.Nx s.h).2, R := s.R, F := F,
        Mdot_in := M, Mdot_in_prev := s.Mdot_in,
        Mdot_out := if p.bound_cond_type = "MdotOut" then -p.kMdot_out * M else s.Mdot_out,
        Mdisk := Md } W cells = Except.ok r) :
    step p x t s = Except.ok (some
      { state :=
          { Nx := (truncate ii s.Nx s.h).1, h := (truncate ii s.Nx s.h).2, R := s.R,
            F := F, Mdot_in := M, Mdot_in_prev := s.Mdot_in,
            Mdot_out :=
              if p.bound_cond_type = "MdotOut" then -p.kMdot_out * M else s.Mdot_out,
            Mdisk := Md }
        W := W, cells := cells, ii := ii, record := r }) := by
  unfold step
  simp only [not_lt.2 hNx, if_false, hT, hM, hC, hii, hMd, hr]

theorem toNat_two : (2 : Int).toNat = 2 := rfl

theorem toNat_three : (3 : Int).toNat = 3 := rfl

theorem toNat_four : (4 : Int).toNat = 4 := rfl

/-- Without `--fulldata`, the summary line is written when the cell and the radius
at the last active index can be read. -/
theorem makeRecord_total (p : Params α) (x : External α) (t : α) (s : State α)
    (W : List α) (cells : List (Cell α)) (hfd : p.output_fulldata = false)
    (c : Cell α) (hc : vecAt cells (s.Nx - 1) = Except.ok c)
    (Rout : α) (hR : vecAt s.R (s.Nx - 1) = Except.ok Rout) :
    ∃ r, makeRecord p x t s W cells = Except.ok r := by
  simp [makeRecord, fulldataRows, hfd, hc, hR]

theorem length_resize (v : List α) (n : Int) : (resize v n).length = n.toNat := by
  simp [resize]; omega

theorem edgeIndex_range (p : Params α) (x : External α) (R : List α)
    (cells : List (Cell α)) (Nx : Int) (Mdot_in Mdot_in_prev : α) (ii : Int)
    (h : edgeIndex p x R cells Nx Mdot_in Mdot_in_prev = Except.ok ii) :
    0 ≤ ii ∧ ii < Nx := by
  unfold edgeIndex at h
  split at h
  · have := scanDown_ok _ _ _ ii h; omega
  · split at h
    · have := scanDown_ok _ _ _ ii h; omega
    · split at h
      · have := scanDown_ok _ _ _ ii h; omega
      · split at h
        · split at h
          · have := scanDown_ok _ _ _ ii h; omega
          · have := scanDown_ok _ _ _ ii h; omega
        · simp at h

/-- A successful `wunc(h, F, first, last)` over a non-empty range read `h.at(last)`. -/
theorem wunc_ok_length (x : External α) (d : Driver) (h F : List α) (first last : Int)
    (W : List α) (hW : wunc x d h F first last = Except.ok W) (hfl : first ≤ last) :
    0 ≤ first ∧ last < (h.length : Int) ∧ last < (F.length : Int) := by
  obtain ⟨L, _, _, hall⟩ := wuncLoop_ok x d h F _ first _ W hW
  obtain ⟨_, _, e1, _, _⟩ := hall 0 (by omega)
  obtain ⟨Fi, hi, e2, e3, _⟩ := hall ((last - first + 1).toNat - 1) (by omega)
  have h0 := ((vecAt_ok_iff F _ _).1 e1).1
  have hlast : first + (((last - first + 1).toNat - 1 : Nat) : Int) = last := by omega
  rw [hlast] at e2 e3
  have h2 := List.getElem?_eq_some.1 ((vecAt_ok_iff F _ _).1 e2).2
  have h3 := List.getElem?_eq_some.1 ((vecAt_ok_iff h _ _).1 e3).2
  obtain ⟨h2, _⟩ := h2
  obtain ⟨h3, _⟩ := h3
  refine ⟨by simpa using h0, by omega, by omega⟩

/-- The part of the example pass that does not depend on the boundary condition:
the `try` block, `Mdot_in` and the fields loop. -/
theorem exampleStep_fields (b shape : String) (thr : ℚ) :
    tryBlock (exampleParams Driver.freddi b shape (0 : ℚ) thr) exampleExternal exampleState
      = Except.ok (some ([0, 100, 50, 1], [0, 200, 150, 4])) ∧
    Mdot_in_value (exampleParams Driver.freddi b shape (0 : ℚ) thr) exampleExternal
      (exampleState (α := ℚ)).h [0, 100, 50, 1] = Except.ok 100 ∧
    radiativeFields (exampleParams Driver.freddi b shape (0 : ℚ) thr) exampleExternal
      (exampleState (α := ℚ)).h (exampleState (α := ℚ)).R [0, 100, 50, 1]
      [0, 200, 150, 4] 100 (exampleState (α := ℚ)).Nx = Except.ok exampleStepCells := by
  refine ⟨?_, ?_, ?_⟩
  · norm_num [tryBlock, exampleParams, exampleExternal, exampleState, wunc, wuncLoop,
      wuncValue, vecAt, toNat_two, toNat_three, toNat_four]
  · norm_num [Mdot_in_value, vecAt, exampleParams, exampleState]
  · norm_num [radiativeFields, tabulateE, cellAt, vecAt, exampleParams, exampleExternal,
      exampleState, irradiation, Tph_vis_value, Sigma_value, toNat_two, toNat_three,
      toNat_four, exampleStepCells]

/-- The example pass completes once the boundary scan returns an index `ii ≥ 1` and
the disk-mass loop returns a value. -/
theorem exampleStep_completes (b shape : String) (thr : ℚ) (ii : Int) (Md : ℚ)
    (hii : edgeIndex (exampleParams Driver.freddi b shape (0 : ℚ) thr) exampleExternal
      (exampleState (α := ℚ)).R exampleStepCells (exampleState (α := ℚ)).Nx 100
      (exampleState (α := ℚ)).Mdot_in = Except.ok ii)
    (hMd : Mdisk exampleExternal (exampleState (α := ℚ)).R
      (exampleStepCells.map Cell.Sigma)
      (truncate ii (exampleState (α := ℚ)).Nx (exampleState (α := ℚ)).h).1 = Except.ok Md) :
    ∃ o, step (exampleParams Driver.freddi b shape (0 : ℚ) thr) exampleExternal 0
        exampleState = Except.ok (some o) ∧
      o.ii = ii ∧
      o.state.Nx = (truncate ii (exampleState (α := ℚ)).Nx (exampleState (α := ℚ)).h).1 ∧
      o.state.h = (truncate ii (exampleState (α := ℚ)).Nx (exampleState (α := ℚ)).h).2 ∧
      o.state.F = [0, 100, 50, 1] ∧ o.state.Mdot_in = 100 := by
  obtain ⟨hT, hM, hC⟩ := exampleStep_fields b shape thr
  obtain ⟨hi0, hiN⟩ := edgeIndex_range _ _ _ _ _ _ _ _ hii
  have hNx1 : (truncate ii (exampleState (α := ℚ)).Nx (exampleState (α := ℚ)).h).1 - 1 = ii := by
    have h4 : (exampleState (α := ℚ)).Nx = 4 := rfl
    unfold truncate
    split <;> simp only <;> omega
  have hlt : ii.toNat < 4 := by
    have h4 : (exampleState (α := ℚ)).Nx = 4 := rfl
    omega
  obtain ⟨r, hr⟩ := makeRecord_total (exampleParams Driver.freddi b shape (0 : ℚ) thr)
    exampleExternal 0
    { Nx := (truncate ii (exampleState (α := ℚ)).Nx (exampleState (α := ℚ)).h).1,
      h := (truncate ii (exampleState (α := ℚ)).Nx (exampleState (α := ℚ)).h).2,
      R := (exampleState (α := ℚ)).R, F := [0, 100, 50, 1], Mdot_in := 100,
      Mdot_in_prev := (exampleState (α := ℚ)).Mdot_in,
      Mdot_out := if (exampleParams Driver.freddi b shape (0 : ℚ) thr).bound_cond_type
          = "MdotOut"
        then -(exampleParams Driver.freddi b shape (0 : ℚ) thr).kMdot_out * 100
        else (exampleState (α := ℚ)).Mdot_out,
      Mdisk := Md } [0, 200, 150, 4] exampleStepCells rfl
    (exampleStepCells.get ⟨ii.toNat, by simpa [exampleStepCells] using hlt⟩)
    (by
      simp only [hNx1]
      exact (vecAt_ok_iff _ _ _).2 ⟨hi0, List.getElem?_eq_getElem _⟩)
    ((exampleState (α := ℚ)).R.get ⟨ii.toNat, by simpa [exampleState] using hlt⟩)
    (by
      simp only [hNx1]
      exact (vecAt_ok_iff _ _ _).2 ⟨hi0, List.getElem?_eq_getElem _⟩)
  exact ⟨_, step_intro _ _ _ _ _ _ _ _ _ _ r (by norm_num [exampleState]) hT hM hC hii hMd hr,
    rfl, rfl, rfl, rfl, rfl⟩

/-- C7 (failing input). Under the `Tirr` boundary condition with `Mdot_in = 1 ≥
Mdot_in_prev = 0`, threshold `2`, `Tph = [0, 5, 5]` and `Tirr = [0, 5, 1]`: for the
shape `power` the edge is the outermost index with `Tph ≥ 2`, index `2`; for its
synonym `powerF` the code scans `Tirr` instead and returns index `1`. -/
theorem Tirr_scan_misses_powerF :
    edgeIndex (exampleParams Driver.freddi "Tirr" "power" (1 : ℚ) 2) exampleExternal
        [1, 4, 9] [exampleCell 0 0 0, exampleCell 0 5 5, exampleCell 0 1 5] 3 1 0
      = Except.ok 2 ∧
    edgeIndex (exampleParams Driver.freddi "Tirr" "powerF" (1 : ℚ) 2) exampleExternal
        [1, 4, 9] [exampleCell 0 0 0, exampleCell 0 5 5, exampleCell 0 1 5] 3 1 0
      = Except.ok 1 ∧
    scanDown (([exampleCell 0 0 0, exampleCell 0 5 5, exampleCell 0 1 5] :
        List (Cell ℚ)).map Cell.Tph) (fun _ => 2) 3 = Except.ok 2 ∧
    scanDown (([exampleCell 0 0 0, exampleCell 0 5 5, exampleCell 0 1 5] :
        List (Cell ℚ)).map Cell.Tirr) (fun _ => 2) 3 = Except.ok 1 := by
  refine ⟨?_, ?_, ?_, ?_⟩
  · simp only [edgeIndex, exampleParams, String.reduceEq, if_false, if_true, true_or,
      ge_iff_le, zero_le_one, and_self]
    norm_num [scanDown, vecAt, exampleCell, toNat_two, toNat_three]
  · simp only [edgeIndex, exampleParams, String.reduceEq, if_false, or_self, and_false]
    norm_num [scanDown, vecAt, exampleCell, toNat_two, toNat_three]
  · norm_num [scanDown, vecAt, exampleCell, toNat_two, toNat_three]
  · norm_num [scanDown, vecAt, exampleCell, toNat_two, toNat_three]

/-! ## Fields loop and `MdotOut` boundary -/

theorem tabulateE_inv {β : Type} (f : Nat → Except Error β) (n : Nat) :
    ∀ r, tabulateE f n = Except.ok r →
      r.length = n ∧ ∀ i, i < n → ∃ b, r[i]? = some b ∧ f i = Except.ok b := by
  induction n with
  | zero =>
    intro r h
    simp only [tabulateE, Except.ok.injEq] at h
    subst h
    exact ⟨rfl, fun i hi => absurd hi (Nat.not_lt_zero i)⟩
  | succ n ih =>
    intro r h
    unfold tabulateE at h
    split at h
    · simp at h
    · rename_i r0 hr0
      split at h
      · simp at h
      · rename_i b hb
        simp only [Except.ok.injEq] at h
        subst h
        obtain ⟨hlen, hall⟩ := ih r0 hr0
        refine ⟨by simp [hlen], ?_⟩
        intro i hi
        by_cases hin : i < n
        · obtain ⟨c, hc, hfc⟩ := hall i hin
          exact ⟨c, by rw [List.getElem?_append_left (by omega)]; exact hc, hfc⟩
        · have : i = n := by omega
          subst this
          exact ⟨b, by rw [List.getElem?_append_right (by omega)]; simp [hlen], hb⟩

theorem cellAt_inv (p : Params α) (x : External α) (h R F W : List α) (Mdot_in : α)
    (i : Int) (c : Cell α) (hc : cellAt p x h R F W Mdot_in i = Except.ok c) :
    ∃ Wi hi Ri Fi C_irr Qx, vecAt W i = Except.ok Wi ∧ vecAt h i = Except.ok hi ∧
      vecAt R i = Except.ok Ri ∧ vecAt F i = Except.ok Fi ∧
      irradiation p x Mdot_in (x.oprel.Height Ri Fi) Ri = Except.ok (C_irr, Qx) ∧
      c.Sigma = Sigma_value p x Wi hi ∧
      c.Tph_vis = Tph_vis_value p x hi Fi ∧
      c.Qx = Qx ∧
      c.Tirr = x.pow (Qx / x.STEFAN_BOLTZMANN_CONSTANT) 0.25 ∧
      c.Tph = x.pow (x.pow (Tph_vis_value p x hi Fi) 4
        + Qx / x.STEFAN_BOLTZMANN_CONSTANT) 0.25 := by
  unfold cellAt at hc
  split at hc
  · rename_i Wi hi Ri Fi h1 h2 h3 h4
    simp only at hc
    split at hc
    · simp at hc
    · rename_i C_irr Qx hq
      simp only [Except.ok.injEq] at hc
      subst hc
      exact ⟨Wi, hi, Ri, Fi, C_irr, Qx, h1, h2, h3, h4, hq, rfl, rfl, rfl, rfl, rfl⟩
  · simp at hc

theorem radiativeFields_inv (p : Params α) (x : External α) (h R F W : List α)
    (Mdot_in : α) (Nx : Int) (cells : List (Cell α))
    (hC : radiativeFields p x h R F W Mdot_in Nx = Except.ok cells) :
    cells.length = Nx.toNat ∧
    (0 < Nx → cells[0]? = some (zeroCell x)) ∧
    ∀ i : Nat, 1 ≤ i → (i : Int) < Nx →
      ∃ c, cells[i]? = some c ∧ cellAt p x h R F W Mdot_in (i : Int) = Except.ok c := by
  obtain ⟨hlen, hall⟩ := tabulateE_inv _ _ cells hC
  refine ⟨hlen, ?_, ?_⟩
  · intro h0
    obtain ⟨c, hc, hf⟩ := hall 0 (by omega)
    simp only [if_true, Except.ok.injEq] at hf
    rw [hc, hf]
  · intro i hi1 hiN
    obtain ⟨c, hc, hf⟩ := hall i (by omega)
    have hne : i ≠ 0 := by omega
    simp only [hne, if_false] at hf
    exact ⟨c, hc, hf⟩

theorem makeRecord_inv (p : Params α) (x : External α) (t : α) (s : State α)
    (W : List α) (cells : List (Cell α)) (r : Record α)
    (h : makeRecord p x t s W cells = Except.ok r) :
    ∃ c Rout, vecAt cells (s.Nx - 1) = Except.ok c ∧ vecAt s.R (s.Nx - 1) = Except.ok Rout := by
  unfold makeRecord at h
  split at h
  · simp at h
  · split at h
    · rename_i c Rout hc hR
      exact ⟨c, Rout, hc, hR⟩
    · simp at h

theorem truncate_Nx (ii Nx : Int) (h : List α) (h0 : ii < Nx) :
    (truncate ii Nx h).1 = ii + 1 := by
  unfold truncate
  split
  · simp only
  · simp only; omega

theorem edgeIndex_MdotOut (p : Params α) (x : External α) (R : List α)
    (cells : List (Cell α)) (Nx : Int) (Mdot_in Mdot_in_prev : α)
    (hb : p.bound_cond_type = "MdotOut") :
    edgeIndex p x R cells Nx Mdot_in Mdot_in_prev
      = scanDown (cells.map Cell.Sigma)
          (fun ii => Sigma_hot_disk x p.driver p.alpha p.Mx (R.getD ii 0)) Nx.toNat := by
  simp [edgeIndex, hb]

/-- Every radius below the active length is readable after a completed pass. -/
theorem step_R_readable (p : Params α) (x : External α) (t : α) (s : State α)
    (o : StepOutput α) (h : step p x t s = Except.ok (some o)) :
    ∀ j : Nat, (j : Int) < s.Nx → o.ii ≤ (j : Int) → ∃ r, s.R[j]? = some r := by
  obtain ⟨_, _, _, hC, hii, hNx, _, hR, _, _, _, hr⟩ := step_inv p x t s o h
  obtain ⟨hi0, hiN⟩ := edgeIndex_range _ _ _ _ _ _ _ _ hii
  obtain ⟨_, _, hcells⟩ := radiativeFields_inv _ _ _ _ _ _ _ _ _ hC
  intro j hj hij
  by_cases hj1 : 1 ≤ j
  · obtain ⟨c, _, hc⟩ := hcells j hj1 hj
    obtain ⟨_, _, Ri, _, _, _, _, _, h3, _⟩ := cellAt_inv _ _ _ _ _ _ _ _ _ hc
    exact ⟨Ri, by simpa using ((vecAt_ok_iff _ _ _).1 h3).2⟩
  · have hj0 : j = 0 := by omega
    subst hj0
    obtain ⟨_, Rout, _, hRout⟩ := makeRecord_inv _ _ _ _ _ _ _ hr
    rw [hNx, truncate_Nx _ _ _ hiN, hR] at hRout
    have hii0 : o.ii = 0 := by omega
    rw [hii0] at hRout
    exact ⟨Rout, by simpa using ((vecAt_ok_iff _ _ _).1 hRout).2⟩

/-- C8. Under the `MdotOut` boundary condition, after every completed pass
`Mdot_out = -kMdot_out * Mdot_in` for the `Mdot_in` computed in that pass, and the
edge index `ii` is the outermost index of `0..Nx-1` whose `Sigma` is not below
`Sigma_hot_disk(R[ii])`: every `ii < j ≤ Nx-1` has `Sigma[j] < Sigma_hot_disk(R[j])`. -/
theorem MdotOut_feedback_and_edge (p : Params α) (x : External α) (t : α) (s : State α)
    (o : StepOutput α) (h : step p x t s = Except.ok (some o))
    (hb : p.bound_cond_type = "MdotOut") :
    o.state.Mdot_out = -p.kMdot_out * o.state.Mdot_in ∧
    Mdot_in_value p x s.h o.state.F = Except.ok o.state.Mdot_in ∧
    0 ≤ o.ii ∧ o.ii ≤ s.Nx - 1 ∧
    (∃ S r, (o.cells.map Cell.Sigma)[o.ii.toNat]? = some S ∧ s.R[o.ii.toNat]? = some r ∧
      Sigma_hot_disk x p.driver p.alpha p.Mx r ≤ S) ∧
    ∀ j : Nat, o.ii < (j : Int) → (j : Int) ≤ s.Nx - 1 →
      ∃ S r, (o.cells.map Cell.Sigma)[j]? = some S ∧ s.R[j]? = some r ∧
        S < Sigma_hot_disk x p.driver p.alpha p.Mx r := by
  have hRread := step_R_readable p x t s o h
  obtain ⟨_, _, hM, _, hii, _, _, _, _, hout, _, _⟩ := step_inv p x t s o h
  rw [edgeIndex_MdotOut _ _ _ _ _ _ _ hb] at hii
  obtain ⟨h0, h1, ⟨S, hS, hSge⟩, h3⟩ := scanDown_ok _ _ _ _ hii
  refine ⟨by rw [hout]; simp [hb], hM, h0, by omega, ?_, ?_⟩
  · obtain ⟨r, hr⟩ := hRread o.ii.toNat (by omega) (by omega)
    refine ⟨S, r, hS, hr, ?_⟩
    simpa [List.getD_eq_getElem?_getD, hr] using hSge
  · intro j hj hjN
    obtain ⟨w, hw, hlt⟩ := h3 j (by omega) (by omega)
    obtain ⟨r, hr⟩ := hRread j (by omega) (by omega)
    refine ⟨w, r, hw, hr, ?_⟩
    simpa [List.getD_eq_getElem?_getD, hr] using hlt

/-- The example pass under the `MdotOut` boundary condition: the outermost grid
point is not below the critical surface density, so the edge stays at index `3`. -/
theorem exampleStep_MdotOut :
    ∃ o, step (exampleParams Driver.freddi "MdotOut" "power" (0 : ℚ) 2) exampleExternal 0
        exampleState = Except.ok (some o) ∧ o.ii = 3 ∧ o.state.Mdot_in = 100 := by
  have hii : edgeIndex (exampleParams Driver.freddi "MdotOut" "power" (0 : ℚ) 2)
      exampleExternal (exampleState (α := ℚ)).R exampleStepCells (exampleState (α := ℚ)).Nx 100
        (exampleState (α := ℚ)).Mdot_in = Except.ok 3 := by
    rw [edgeIndex_MdotOut _ _ _ _ _ _ _ rfl]
    norm_num [scanDown, vecAt, exampleParams, exampleState, toNat_two, toNat_three,
      toNat_four, exampleStepCells, Sigma_hot_disk, exampleExternal]
  have htr : truncate (3 : Int) (exampleState (α := ℚ)).Nx (exampleState (α := ℚ)).h
      = (4, [1, 2, 3, 4]) := by
    norm_num [truncate, exampleState]
  have hMd : Mdisk exampleExternal (exampleState (α := ℚ)).R
      (exampleStepCells.map Cell.Sigma)
      (truncate (3 : Int) (exampleState (α := ℚ)).Nx (exampleState (α := ℚ)).h).1
      = Except.ok 11378 := by
    rw [htr]
    norm_num [Mdisk, MdiskLoop, stepR, vecAt, exampleExternal, exampleState,
      zeroCell, toNat_two, toNat_three, toNat_four, exampleStepCells]
  obtain ⟨o, ho, h1, _, _, _, h5⟩ := exampleStep_completes "MdotOut" "power" 2 3 _ hii hMd
  exact ⟨o, ho, h1, h5⟩

/-- Witness of the C8 statement: the example pass under `MdotOut`. -/
theorem MdotOut_feedback_and_edge_witness :
    ∃ o, step (exampleParams Driver.freddi "MdotOut" "power" (0 : ℚ) 2) exampleExternal 0
        exampleState = Except.ok (some o) ∧
      (o.state.Mdot_out
          = -(exampleParams Driver.freddi "MdotOut" "power" (0 : ℚ) 2).kMdot_out
            * o.state.Mdot_in ∧
        Mdot_in_value (exampleParams Driver.freddi "MdotOut" "power" (0 : ℚ) 2)
          exampleExternal (exampleState (α := ℚ)).h o.state.F = Except.ok o.state.Mdot_in ∧
        0 ≤ o.ii ∧ o.ii ≤ (exampleState (α := ℚ)).Nx - 1 ∧
        (∃ S r, (o.cells.map Cell.Sigma)[o.ii.toNat]? = some S ∧
          (exampleState (α := ℚ)).R[o.ii.toNat]? = some r ∧
          Sigma_hot_disk exampleExternal
            (exampleParams Driver.freddi "MdotOut" "power" (0 : ℚ) 2).driver
            (exampleParams Driver.freddi "MdotOut" "power" (0 : ℚ) 2).alpha
            (exampleParams Driver.freddi "MdotOut" "power" (0 : ℚ) 2).Mx r ≤ S) ∧
        ∀ j : Nat, o.ii < (j : Int) → (j : Int) ≤ (exampleState (α := ℚ)).Nx - 1 →
          ∃ S r, (o.cells.map Cell.Sigma)[j]? = some S ∧
            (exampleState (α := ℚ)).R[j]? = some r ∧
            S < Sigma_hot_disk exampleExternal
              (exampleParams Driver.freddi "MdotOut" "power" (0 : ℚ) 2).driver
              (exampleParams Driver.freddi "MdotOut" "power" (0 : ℚ) 2).alpha
              (exampleParams Driver.freddi "MdotOut" "power" (0 : ℚ) 2).Mx r) := by
  obtain ⟨o, ho, _⟩ := exampleStep_MdotOut
  exact ⟨o, ho, MdotOut_feedback_and_edge _ _ _ _ o ho rfl⟩

/-! ## Zero irradiation factor -/

theorem Tph_vis_value_nonneg (p : Params α) (x : External α) (hp : PowLaws x.pow)
    (hGM : 0 ≤ p.GM) (hpi : 0 < x.M_PI) (hsb : 0 < x.STEFAN_BOLTZMANN_CONSTANT)
    (hi Fi : α) (hh : 0 ≤ hi) (hF : 0 ≤ Fi) : 0 ≤ Tph_vis_value p x hi Fi := by
  unfold Tph_vis_value
  cases p.driver with
  | freddi =>
    have hb : 0 ≤ 3 / (8 * x.M_PI) * Fi / x.STEFAN_BOLTZMANN_CONSTANT :=
      div_nonneg (mul_nonneg (div_nonneg (by norm_num) (by linarith)) hF) (le_of_lt hsb)
    exact mul_nonneg (mul_nonneg hGM (hp.nonneg _ _ hh)) (hp.nonneg _ _ hb)
  | fred =>
    have hb : 0 ≤ 0.75 * Fi / x.STEFAN_BOLTZMANN_CONSTANT :=
      div_nonneg (mul_nonneg (by norm_num) hF) (le_of_lt hsb)
    exact mul_nonneg (mul_nonneg hGM (hp.nonneg _ _ hh)) (hp.nonneg _ _ hb)

/-- With the `const` model and `C_irr_input = 0` the flux `Qx` of every iteration
is `0`. -/
theorem irradiation_zero (p : Params α) (x : External α) (Mdot_in Height Ri C_irr Qx : α)
    (hirr : p.irr_factor_type = "const") (hC : p.C_irr_input = 0)
    (h : irradiation p x Mdot_in Height Ri = Except.ok (C_irr, Qx)) :
    C_irr = 0 ∧ Qx = 0 := by
  simp only [irradiation, hirr, if_true, hC, zero_mul, zero_div, Except.ok.injEq,
    Prod.mk.injEq] at h
  exact ⟨h.1.symm, h.2.symm⟩

/-- One iteration of the fields loop with zero flux: `Tirr = 0`, and `Tph` is
`Tph_vis` when `Tph_vis ≥ 0`. -/
theorem cellAt_zero_Cirr (p : Params α) (x : External α) (hp : PowLaws x.pow)
    (h R F W : List α) (Mdot_in : α) (i : Int) (c : Cell α)
    (hirr : p.irr_factor_type = "const") (hC : p.C_irr_input = 0)
    (hc : cellAt p x h R F W Mdot_in i = Except.ok c) :
    c.Tirr = 0 ∧ (0 ≤ c.Tph_vis → c.Tph = c.Tph_vis) := by
  obtain ⟨Wi, hi, Ri, Fi, C_irr, Qx, _, _, _, _, hq, _, hTv, _, hTirr, hTph⟩ :=
    cellAt_inv _ _ _ _ _ _ _ _ _ hc
  obtain ⟨_, hQ⟩ := irradiation_zero p x _ _ _ _ _ hirr hC hq
  subst hQ
  refine ⟨?_, ?_⟩
  · rw [hTirr, zero_div]
    exact hp.zero_base _ (by norm_num)
  · intro h0
    rw [hTph, ← hTv, zero_div, add_zero, hp.exp_mul _ _ _ h0]
    have : (4 : α) * 0.25 = 1 := by norm_num
    rw [this, hp.exp_one _ h0]

/-- C9 (as the code has it). With the `const` irradiation-factor model and
`C_irr = 0`, in every completed pass every grid index `i` has `Tirr[i] = 0`, and
`Tph[i] = Tph_vis[i]` wherever `Tph_vis[i] ≥ 0`; that is the case at every index when
`GM ≥ 0`, the grid `h` and the torque `F` are non-negative (and `M_PI`, the
Stefan–Boltzmann constant are positive). -/
theorem zero_Cirr_gives_zero_Tirr (p : Params α) (x : External α) (t : α) (s : State α)
    (o : StepOutput α) (h : step p x t s = Except.ok (some o)) (hp : PowLaws x.pow)
    (hirr : p.irr_factor_type = "const") (hC : p.C_irr_input = 0) :
    (o.cells.length : Int) = s.Nx ∧
    ∀ (i : Nat) (c : Cell α), o.cells[i]? = some c →
      c.Tirr = 0 ∧ (0 ≤ c.Tph_vis → c.Tph = c.Tph_vis) ∧
      (0 ≤ p.GM → 0 < x.M_PI → 0 < x.STEFAN_BOLTZMANN_CONSTANT →
        (∀ (j : Nat) (hj : α), s.h[j]? = some hj → 0 ≤ hj) →
        (∀ (j : Nat) (Fj : α), o.state.F[j]? = some Fj → 0 ≤ Fj) →
        c.Tph = c.Tph_vis) := by
  obtain ⟨hNx, _, _, hCells, _⟩ := step_inv p x t s o h
  obtain ⟨hlen, hzero, hcells⟩ := radiativeFields_inv _ _ _ _ _ _ _ _ _ hCells
  refine ⟨by omega, ?_⟩
  intro i c hic
  have hiN : i < o.cells.length := (List.getElem?_eq_some.1 hic).1
  by_cases hi0 : i = 0
  · subst hi0
    rw [hzero (by omega)] at hic
    cases hic
    exact ⟨rfl, fun _ => rfl, fun _ _ _ _ _ => rfl⟩
  · obtain ⟨c', hc', hcell⟩ := hcells i (by omega) (by omega)
    rw [hic] at hc'
    cases hc'
    obtain ⟨hTirr, hTph⟩ := cellAt_zero_Cirr p x hp _ _ _ _ _ _ _ hirr hC hcell
    refine ⟨hTirr, hTph, ?_⟩
    intro hGM hpi hsb hh hF
    apply hTph
    obtain ⟨_, hi, _, Fi, _, _, _, h2, _, h4, _, _, hTv, _⟩ :=
      cellAt_inv _ _ _ _ _ _ _ _ _ hcell
    rw [hTv]
    exact Tph_vis_value_nonneg p x hp hGM hpi hsb hi Fi
      (hh i hi (by simpa using ((vecAt_ok_iff _ _ _).1 h2).2))
      (hF i Fi (by simpa using ((vecAt_ok_iff _ _ _).1 h4).2))

/-- A pass over the reals with `pow = Real.rpow`, zero irradiation factor and the
`Teff` threshold `0` on two grid points completes, for any `GM`; the cell of index
`1` has a non-negative `Tph`. -/
theorem smallStep_completes (GM : ℝ) :
    ∃ o, step (smallParams GM) (closureExternal Real.rpow Real.pi 0 1 1) 0 (smallState GM)
        = Except.ok (some o) ∧
      o.state.F = [0, 1] ∧
      ∃ c1, o.cells = [zeroCell (closureExternal Real.rpow Real.pi 0 1 1), c1] ∧
        c1.Tph_vis = Tph_vis_value (smallParams GM) (closureExternal Real.rpow Real.pi 0 1 1) 2 1 ∧
        0 ≤ c1.Tph := by
  have hW : wunc (closureExternal Real.rpow Real.pi 0 1 1) Driver.freddi ([1, 2] : List ℝ) [0, 1]
      1 1 = Except.ok [0, wuncValue (closureExternal Real.rpow Real.pi 0 1 1) Driver.freddi 1 2] := by
    have h := wunc_inside (closureExternal Real.rpow Real.pi 0 1 1) Driver.freddi
      ([1, 2] : List ℝ) [0, 1] 1 1 (le_refl 1) (by simp) (by simp)
    rw [show ((1 : Nat) : Int) = 1 from rfl] at h
    rw [h]
    simp
  have hT : tryBlock (smallParams GM) (closureExternal Real.rpow Real.pi 0 1 1) (smallState GM)
      = Except.ok (some ([0, 1],
          [0, wuncValue (closureExternal Real.rpow Real.pi 0 1 1) Driver.freddi 1 2])) := by
    have h21 : ((2 : Int) - 1) = 1 := by norm_num
    have hs : (closureExternal Real.rpow Real.pi 0 1 1).nonlenear_diffusion_nonuniform_1_2
        = fun _ _ _ _ _ _ F => Except.ok F := rfl
    simp only [tryBlock, smallState, smallParams, exampleParams, h21, hs, hW]
  have hM : Mdot_in_value (smallParams GM) (closureExternal Real.rpow Real.pi 0 1 1)
      (smallState GM).h [0, 1] = Except.ok 1 := by
    norm_num [Mdot_in_value, vecAt, smallParams, exampleParams, smallState]
  generalize wuncValue (closureExternal Real.rpow Real.pi 0 1 1) Driver.freddi 1 2 = W1 at hT
  obtain ⟨c1, hc1⟩ : ∃ c1, cellAt (smallParams GM) (closureExternal Real.rpow Real.pi 0 1 1)
      (smallState GM).h (smallState GM).R [0, 1] [0, W1] 1 ((1 : Nat) : Int)
      = Except.ok c1 := by
    simp [cellAt, vecAt, smallState, irradiation, smallParams, exampleParams]
  have hC : radiativeFields (smallParams GM) (closureExternal Real.rpow Real.pi 0 1 1)
      (smallState GM).h (smallState GM).R [0, 1] [0, W1] 1 (smallState GM).Nx
      = Except.ok [zeroCell (closureExternal Real.rpow Real.pi 0 1 1), c1] := by
    have h2 : (smallState GM).Nx.toNat = 2 := rfl
    simp only [radiativeFields, h2, tabulateE, if_true, one_ne_zero, if_false, hc1,
      List.nil_append, List.singleton_append]
  obtain ⟨_, hi, _, Fi, _, Qx, _, h2, _, h4, hq, _, hTv, _, _, hTphdef⟩ :=
    cellAt_inv _ _ _ _ _ _ _ _ _ hc1
  have hhi : hi = 2 := by
    have := ((vecAt_ok_iff _ _ _).1 h2).2
    simp [smallState] at this
    exact this.symm
  have hFi : Fi = 1 := by
    have := ((vecAt_ok_iff _ _ _).1 h4).2
    simp at this
    exact this.symm
  subst hhi hFi
  have hTph : 0 ≤ c1.Tph := by
    obtain ⟨_, hQ⟩ := irradiation_zero (smallParams GM) _ _ _ _ _ _ rfl rfl hq
    rw [hTphdef, hQ, zero_div, add_zero]
    refine Real.rpow_nonneg ?_ _
    have h4 : ((4 : ℝ)) = ((4 : ℕ) : ℝ) := by norm_num
    show 0 ≤ (Tph_vis_value (smallParams GM) (closureExternal Real.rpow Real.pi 0 1 1) 2 1) ^ (4 : ℝ)
    rw [h4, Real.rpow_natCast]
    positivity
  have hii : edgeIndex (smallParams GM) (closureExternal Real.rpow Real.pi 0 1 1) (smallState GM).R
      [zeroCell (closureExternal Real.rpow Real.pi 0 1 1), c1] (smallState GM).Nx 1
      (smallState GM).Mdot_in = Except.ok 1 := by
    rw [edgeIndex_Teff _ _ _ _ _ _ _ rfl]
    have h2 : (smallState GM).Nx.toNat = 2 := rfl
    have hv : vecAt (List.map Cell.Tph [zeroCell (closureExternal Real.rpow Real.pi 0 1 1), c1])
        ((1 : Nat) : Int) = Except.ok c1.Tph := vecAt_natCast _ 1 _ rfl
    have hthr : (smallParams GM).T_min_hot_disk = 0 := rfl
    simp only [h2, scanDown, hv, hthr, not_lt.2 hTph, if_false]
    rfl
  have htr : truncate (1 : Int) (smallState GM).Nx (smallState GM).h = (2, [1, 2]) := by
    norm_num [truncate, smallState]
  obtain ⟨Md, hMd⟩ : ∃ Md, (match (smallParams GM).driver with
      | Driver.freddi => Mdisk (closureExternal Real.rpow Real.pi 0 1 1) (smallState GM).R
          (([zeroCell (closureExternal Real.rpow Real.pi 0 1 1), c1] : List (Cell ℝ)).map Cell.Sigma)
          (truncate (1 : Int) (smallState GM).Nx (smallState GM).h).1
      | Driver.fred => Except.ok (smallState GM).Mdisk) = Except.ok Md := by
    rw [htr]
    simp [smallParams, exampleParams, Mdisk, MdiskLoop, stepR, vecAt, smallState, toNat_two]
  obtain ⟨r, hr⟩ := makeRecord_total (smallParams GM) (closureExternal Real.rpow Real.pi 0 1 1) 0
    { Nx := (truncate (1 : Int) (smallState GM).Nx (smallState GM).h).1,
      h := (truncate (1 : Int) (smallState GM).Nx (smallState GM).h).2,
      R := (smallState GM).R, F := [0, 1], Mdot_in := 1,
      Mdot_in_prev := (smallState GM).Mdot_in,
      Mdot_out := if (smallParams GM).bound_cond_type = "MdotOut"
        then -(smallParams GM).kMdot_out * 1
        else (smallState GM).Mdot_out,
      Mdisk := Md } [0, W1] [zeroCell (closureExternal Real.rpow Real.pi 0 1 1), c1] rfl
    c1 (by rw [htr]; simp [vecAt])
    (4 / GM) (by rw [htr]; simp [vecAt, smallState])
  exact ⟨_, step_intro _ _ _ _ _ _ _ _ _ _ r (by norm_num [smallState]) hT hM hC hii hMd hr,
    rfl, c1, rfl, hTv, hTph⟩

/-- Witness of the C9 statement: the two-point pass with `GM = 1`. -/
theorem zero_Cirr_gives_zero_Tirr_witness :
    ∃ o, step (smallParams (1 : ℝ)) (closureExternal Real.rpow Real.pi 0 1 1) 0 (smallState 1)
        = Except.ok (some o) ∧
      (o.cells.length : Int) = (smallState (1 : ℝ)).Nx ∧
      ∀ (i : Nat) (c : Cell ℝ), o.cells[i]? = some c →
        c.Tirr = 0 ∧ (0 ≤ c.Tph_vis → c.Tph = c.Tph_vis) ∧
        (0 ≤ (smallParams (1 : ℝ)).GM → 0 < (closureExternal Real.rpow Real.pi 0 1 1).M_PI →
          0 < (closureExternal Real.rpow Real.pi 0 1 1).STEFAN_BOLTZMANN_CONSTANT →
          (∀ (j : Nat) (hj : ℝ), (smallState (1 : ℝ)).h[j]? = some hj → 0 ≤ hj) →
          (∀ (j : Nat) (Fj : ℝ), o.state.F[j]? = some Fj → 0 ≤ Fj) →
          c.Tph = c.Tph_vis) := by
  obtain ⟨o, ho, _⟩ := smallStep_completes 1
  exact ⟨o, ho, zero_Cirr_gives_zero_Tirr _ _ _ _ o ho rpow_PowLaws rfl rfl⟩

/-- C9, counterexample. With `GM = -1` (grid `h = [1, 2]`, radii `R = h^2 / GM`,
torque `F = [0, 1]`, `C_irr = 0`, `const` model) the pass completes and at index `1`
the viscous temperature is negative while `Tph ≥ 0`, so `Tph[1] ≠ Tph_vis[1]`. -/
theorem zero_Cirr_negative_GM :
    ∃ o, step (smallParams (-1 : ℝ)) (closureExternal Real.rpow Real.pi 0 1 1) 0 (smallState (-1))
        = Except.ok (some o) ∧
      (smallParams (-1 : ℝ)).irr_factor_type = "const" ∧
      (smallParams (-1 : ℝ)).C_irr_input = 0 ∧
      ∃ c, o.cells[1]? = some c ∧ c.Tph_vis < 0 ∧ 0 ≤ c.Tph ∧ c.Tph ≠ c.Tph_vis := by
  obtain ⟨o, ho, _, c1, hcells, hTv, hTph⟩ := smallStep_completes (-1)
  have hneg : c1.Tph_vis < 0 := by
    rw [hTv]
    have h1 : 0 < Real.rpow 2 (-1.75) := Real.rpow_pos_of_pos (by norm_num) _
    have h2 : 0 < Real.rpow (3 / (8 * Real.pi) * 1 / 1) 0.25 :=
      Real.rpow_pos_of_pos (by positivity) _
    have : Tph_vis_value (smallParams (-1 : ℝ)) (closureExternal Real.rpow Real.pi 0 1 1) 2 1
        = -1 * Real.rpow 2 (-1.75) * Real.rpow (3 / (8 * Real.pi) * 1 / 1) 0.25 := rfl
    rw [this]
    nlinarith [mul_pos h1 h2]
  refine ⟨o, ho, rfl, rfl, c1, by rw [hcells]; rfl, hneg, hTph, ?_⟩
  intro heq
  rw [heq] at hTph
  exact absurd hneg (not_lt.2 hTph)

/-! ## Grid truncation -/

/-- A pass over the reals with `pow = Real.rpow` and `M_PI = π` on three grid
points, `Teff` threshold `1/2`, zero irradiation factor: `Tph = [0, 1, 0]`, so the
edge is found at index `1` and the grid is cut to two points. -/
theorem trimStep_completes :
    ∃ o, step (exampleParams Driver.freddi "Teff" "power" (0 : ℝ) (1 / 2))
        (closureExternal Real.rpow Real.pi 0 1 1) 0 (trimState Real.pi)
        = Except.ok (some o) ∧
      o.ii = 1 ∧ o.state.Nx = 2 ∧ o.state.h = [1 / 2, 1] ∧
      o.state.F = [0, 8 * Real.pi / 3, 0] := by
  have hpi : (0 : ℝ) < Real.pi := Real.pi_pos
  have hW : wunc (closureExternal Real.rpow Real.pi 0 1 1) Driver.freddi
      ([1 / 2, 1, 2] : List ℝ) [0, 8 * Real.pi / 3, 0] 1 2
      = Except.ok [0,
          wuncValue (closureExternal Real.rpow Real.pi 0 1 1) Driver.freddi
            (8 * Real.pi / 3) 1,
          wuncValue (closureExternal Real.rpow Real.pi 0 1 1) Driver.freddi 0 2] := by
    have h := wunc_inside (closureExternal Real.rpow Real.pi 0 1 1) Driver.freddi
      ([1 / 2, 1, 2] : List ℝ) [0, 8 * Real.pi / 3, 0] 1 2 (by norm_num) (by simp) (by simp)
    rw [show ((1 : Nat) : Int) = 1 from rfl, show ((2 : Nat) : Int) = 2 from rfl] at h
    rw [h]
    simp [List.range'_succ]
  have hT : tryBlock (exampleParams Driver.freddi "Teff" "power" (0 : ℝ) (1 / 2))
      (closureExternal Real.rpow Real.pi 0 1 1) (trimState Real.pi)
      = Except.ok (some ([0, 8 * Real.pi / 3, 0], [0,
          wuncValue (closureExternal Real.rpow Real.pi 0 1 1) Driver.freddi
            (8 * Real.pi / 3) 1,
          wuncValue (closureExternal Real.rpow Real.pi 0 1 1) Driver.freddi 0 2])) := by
    have h31 : ((3 : Int) - 1) = 2 := by norm_num
    have hs : (closureExternal Real.rpow Real.pi 0 1 1).nonlenear_diffusion_nonuniform_1_2
        = fun _ _ _ _ _ _ F => Except.ok F := rfl
    simp only [tryBlock, trimState, exampleParams, h31, hs, hW]
  obtain ⟨M, hM⟩ : ∃ M, Mdot_in_value (exampleParams Driver.freddi "Teff" "power" (0 : ℝ) (1 / 2))
      (closureExternal Real.rpow Real.pi 0 1 1) (trimState Real.pi).h
      [0, 8 * Real.pi / 3, 0] = Except.ok M := by
    simp [Mdot_in_value, vecAt, exampleParams, trimState]
  generalize wuncValue (closureExternal Real.rpow Real.pi 0 1 1) Driver.freddi
    (8 * Real.pi / 3) 1 = W1 at hT
  generalize wuncValue (closureExternal Real.rpow Real.pi 0 1 1) Driver.freddi 0 2 = W2 at hT
  obtain ⟨c1, hc1⟩ : ∃ c1, cellAt (exampleParams Driver.freddi "Teff" "power" (0 : ℝ) (1 / 2))
      (closureExternal Real.rpow Real.pi 0 1 1) (trimState Real.pi).h (trimState Real.pi).R
      [0, 8 * Real.pi / 3, 0] [0, W1, W2] M ((1 : Nat) : Int) = Except.ok c1 := by
    simp [cellAt, vecAt, trimState, irradiation, exampleParams]
  obtain ⟨c2, hc2⟩ : ∃ c2, cellAt (exampleParams Driver.freddi "Teff" "power" (0 : ℝ) (1 / 2))
      (closureExternal Real.rpow Real.pi 0 1 1) (trimState Real.pi).h (trimState Real.pi).R
      [0, 8 * Real.pi / 3, 0] [0, W1, W2] M ((2 : Nat) : Int) = Except.ok c2 := by
    simp [cellAt, vecAt, trimState, irradiation, exampleParams, toNat_two]
  have hC : radiativeFields (exampleParams Driver.freddi "Teff" "power" (0 : ℝ) (1 / 2))
      (closureExternal Real.rpow Real.pi 0 1 1) (trimState Real.pi).h (trimState Real.pi).R
      [0, 8 * Real.pi / 3, 0] [0, W1, W2] M (trimState Real.pi).Nx
      = Except.ok [zeroCell (closureExternal Real.rpow Real.pi 0 1 1), c1, c2] := by
    have h3 : (trimState Real.pi).Nx.toNat = 3 := rfl
    have h20 : (2 : Nat) ≠ 0 := by norm_num
    simp only [radiativeFields, h3, tabulateE, if_true, one_ne_zero, h20, if_false, hc1, hc2,
      List.nil_append, List.singleton_append, List.cons_append]
  -- the photospheric temperatures of the two visited cells
  have hTph1 : c1.Tph = 1 := by
    obtain ⟨_, hTph⟩ := cellAt_zero_Cirr _ _ rpow_PowLaws _ _ _ _ _ _ _ rfl rfl hc1
    obtain ⟨_, hi, _, Fi, _, _, _, h2, _, h4, _, _, hTv, _⟩ :=
      cellAt_inv _ _ _ _ _ _ _ _ _ hc1
    have hhi : hi = 1 := by
      have := ((vecAt_ok_iff _ _ _).1 h2).2
      simp [trimState] at this
      exact this.symm
    have hFi : Fi = 8 * Real.pi / 3 := by
      have := ((vecAt_ok_iff _ _ _).1 h4).2
      simp at this
      exact this.symm
    subst hhi hFi
    have hv : c1.Tph_vis = 1 := by
      rw [hTv]
      have hb : 3 / (8 * Real.pi) * (8 * Real.pi / 3) / 1 = (1 : ℝ) := by
        field_simp
      show (1 : ℝ) * Real.rpow 1 (-1.75) * Real.rpow (3 / (8 * Real.pi) * (8 * Real.pi / 3) / 1) 0.25 = 1
      rw [hb]
      simp [Real.rpow_eq_pow, Real.one_rpow]
    rw [hTph (by rw [hv]; norm_num), hv]
  have hTph2 : c2.Tph = 0 := by
    obtain ⟨_, hTph⟩ := cellAt_zero_Cirr _ _ rpow_PowLaws _ _ _ _ _ _ _ rfl rfl hc2
    obtain ⟨_, hi, _, Fi, _, _, _, h2, _, h4, _, _, hTv, _⟩ :=
      cellAt_inv _ _ _ _ _ _ _ _ _ hc2
    have hFi : Fi = 0 := by
      have := ((vecAt_ok_iff _ _ _).1 h4).2
      simp [toNat_two] at this
      exact this.symm
    subst hFi
    have hv : c2.Tph_vis = 0 := by
      rw [hTv]
      show (1 : ℝ) * Real.rpow hi (-1.75) * Real.rpow (3 / (8 * Real.pi) * 0 / 1) 0.25 = 0
      have h0 : 3 / (8 * Real.pi) * 0 / 1 = (0 : ℝ) := by simp
      rw [h0, rpow_PowLaws.zero_base 0.25 (by norm_num)]
      simp
    rw [hTph (by rw [hv]), hv]
  have hii : edgeIndex (exampleParams Driver.freddi "Teff" "power" (0 : ℝ) (1 / 2))
      (closureExternal Real.rpow Real.pi 0 1 1) (trimState Real.pi).R
      [zeroCell (closureExternal Real.rpow Real.pi 0 1 1), c1, c2] (trimState Real.pi).Nx M
      (trimState Real.pi).Mdot_in = Except.ok 1 := by
    rw [edgeIndex_Teff _ _ _ _ _ _ _ rfl]
    have h3 : (trimState Real.pi).Nx.toNat = 3 := rfl
    have hv2 : vecAt (List.map Cell.Tph
        [zeroCell (closureExternal Real.rpow Real.pi 0 1 1), c1, c2])
        ((2 : Nat) : Int) = Except.ok c2.Tph := vecAt_natCast _ 2 _ rfl
    have hv1 : vecAt (List.map Cell.Tph
        [zeroCell (closureExternal Real.rpow Real.pi 0 1 1), c1, c2])
        ((1 : Nat) : Int) = Except.ok c1.Tph := vecAt_natCast _ 1 _ rfl
    have hthr : (exampleParams Driver.freddi "Teff" "power" (0 : ℝ) (1 / 2)).T_min_hot_disk
        = 1 / 2 := rfl
    have hlt : c2.Tph < 1 / 2 := by rw [hTph2]; norm_num
    have hge : ¬ c1.Tph < 1 / 2 := by rw [hTph1]; norm_num
    simp only [h3, scanDown, hv2, hv1, hthr, hlt, hge, if_true, if_false]
    rfl
  have htr : truncate (1 : Int) (trimState Real.pi).Nx (trimState Real.pi).h
      = (2, [1 / 2, 1]) := by
    norm_num [truncate, resize, trimState, toNat_two]
  obtain ⟨Md, hMd⟩ : ∃ Md, (match
      (exampleParams Driver.freddi "Teff" "power" (0 : ℝ) (1 / 2)).driver with
      | Driver.freddi => Mdisk (closureExternal Real.rpow Real.pi 0 1 1) (trimState Real.pi).R
          (([zeroCell (closureExternal Real.rpow Real.pi 0 1 1), c1, c2] :
            List (Cell ℝ)).map Cell.Sigma)
          (truncate (1 : Int) (trimState Real.pi).Nx (trimState Real.pi).h).1
      | Driver.fred => Except.ok (trimState Real.pi).Mdisk) = Except.ok Md := by
    rw [htr]
    simp [exampleParams, Mdisk, MdiskLoop, stepR, vecAt, trimState, toNat_two]
  obtain ⟨r, hr⟩ := makeRecord_total (exampleParams Driver.freddi "Teff" "power" (0 : ℝ) (1 / 2))
    (closureExternal Real.rpow Real.pi 0 1 1) 0
    { Nx := (truncate (1 : Int) (trimState Real.pi).Nx (trimState Real.pi).h).1,
      h := (truncate (1 : Int) (trimState Real.pi).Nx (trimState Real.pi).h).2,
      R := (trimState Real.pi).R, F := [0, 8 * Real.pi / 3, 0], Mdot_in := M,
      Mdot_in_prev := (trimState Real.pi).Mdot_in,
      Mdot_out :=
        if (exampleParams Driver.freddi "Teff" "power" (0 : ℝ) (1 / 2)).bound_cond_type
          = "MdotOut"
        then -(exampleParams Driver.freddi "Teff" "power" (0 : ℝ) (1 / 2)).kMdot_out * M
        else (trimState Real.pi).Mdot_out,
      Mdisk := Md } [0, W1, W2]
    [zeroCell (closureExternal Real.rpow Real.pi 0 1 1), c1, c2] rfl
    c1 (by rw [htr]; simp [vecAt])
    1 (by rw [htr]; simp [vecAt, trimState])
  refine ⟨_, step_intro _ _ _ _ _ _ _ _ _ _ r (by norm_num [trimState]) hT hM hC hii hMd hr,
    rfl, ?_, ?_, rfl⟩
  · simp only [htr]
  · simp only [htr]

theorem step_Nx_le (p : Params α) (x : External α) (t : α) (s : State α)
    (o : StepOutput α) (h : step p x t s = Except.ok (some o)) :
    o.state.Nx ≤ s.Nx ∧ o.state.h.length ≤ s.h.length := by
  obtain ⟨_, hT, _, _, hii, hNx, hh, _⟩ := step_inv p x t s o h
  obtain ⟨hi0, hiN⟩ := edgeIndex_range _ _ _ _ _ _ _ _ hii
  obtain ⟨_, hW⟩ := tryBlock_inv p x s _ _ hT
  rw [hNx, hh]
  unfold truncate
  split
  · rename_i hlt
    obtain ⟨_, hlen, _⟩ := wunc_ok_length _ _ _ _ _ _ _ hW (by omega)
    refine ⟨by simp only; omega, ?_⟩
    simp only [length_resize]
    omega
  · exact ⟨le_refl _, le_refl _⟩

theorem reachable_Nx_le (p : Params α) (x : External α) (s0 s1 : State α)
    (h : Relation.ReflTransGen (Next p x) s0 s1) :
    s1.Nx ≤ s0.Nx ∧ s1.h.length ≤ s0.h.length := by
  induction h with
  | refl => exact ⟨le_refl _, le_refl _⟩
  | tail _ hstep ih =>
    obtain ⟨t, o, ho, rfl⟩ := hstep
    have := step_Nx_le p x t _ o ho
    exact ⟨le_trans this.1 ih.1, le_trans this.2 ih.2⟩

/-- C6 (as the code has it). In a completed pass that finds an edge index
`ii < Nx-1`, the grid `h` has length `ii+1` afterwards and `Nx` becomes `ii+1`; in
every other completed pass `Nx` and `h` are unchanged.  The profile `F` is what the
diffusion stepper returned: the truncation does not resize it.  Over any sequence of
passes neither `Nx` nor the length of `h` grows. -/
theorem truncation_cuts_grid_only (p : Params α) (x : External α) (t : α) (s : State α)
    (o : StepOutput α) (h : step p x t s = Except.ok (some o)) :
    (o.ii < s.Nx - 1 → o.state.Nx = o.ii + 1 ∧ (o.state.h.length : Int) = o.ii + 1) ∧
    (¬ o.ii < s.Nx - 1 → o.state.Nx = s.Nx ∧ o.state.h = s.h) ∧
    x.nonlenear_diffusion_nonuniform_1_2 p.tau p.eps 0
        (match p.driver with
          | Driver.freddi => s.Mdot_out
          | Driver.fred => s.Mdot_out / (2 * x.M_PI))
        (wunc x p.driver) s.h s.F = Except.ok o.state.F ∧
    ∀ s0 s1, Relation.ReflTransGen (Next p x) s0 s1 →
      s1.Nx ≤ s0.Nx ∧ s1.h.length ≤ s0.h.length := by
  obtain ⟨_, hT, _, _, hii, hNx, hh, _⟩ := step_inv p x t s o h
  obtain ⟨hi0, hiN⟩ := edgeIndex_range _ _ _ _ _ _ _ _ hii
  refine ⟨?_, ?_, (tryBlock_inv p x s _ _ hT).1, reachable_Nx_le p x⟩
  · intro hlt
    rw [hNx, hh]
    simp only [truncate, hlt, if_true, length_resize]
    exact ⟨trivial, by omega⟩
  · intro hlt
    rw [hNx, hh]
    simp only [truncate, hlt, if_false]
    exact ⟨trivial, trivial⟩

/-- Witness of the C6 statement: the three-point pass over the reals. -/
theorem truncation_cuts_grid_only_witness :
    ∃ o, step (exampleParams Driver.freddi "Teff" "power" (0 : ℝ) (1 / 2))
        (closureExternal Real.rpow Real.pi 0 1 1) 0 (trimState Real.pi)
        = Except.ok (some o) ∧
      ((o.ii < (trimState Real.pi).Nx - 1 →
          o.state.Nx = o.ii + 1 ∧ (o.state.h.length : Int) = o.ii + 1) ∧
        (¬ o.ii < (trimState Real.pi).Nx - 1 →
          o.state.Nx = (trimState Real.pi).Nx ∧ o.state.h = (trimState Real.pi).h) ∧
        (closureExternal Real.rpow Real.pi 0 1 1).nonlenear_diffusion_nonuniform_1_2
            (exampleParams Driver.freddi "Teff" "power" (0 : ℝ) (1 / 2)).tau
            (exampleParams Driver.freddi "Teff" "power" (0 : ℝ) (1 / 2)).eps 0
            (match (exampleParams Driver.freddi "Teff" "power" (0 : ℝ) (1 / 2)).driver with
              | Driver.freddi => (trimState Real.pi).Mdot_out
              | Driver.fred => (trimState Real.pi).Mdot_out
                  / (2 * (closureExternal Real.rpow Real.pi 0 1 1).M_PI))
            (wunc (closureExternal Real.rpow Real.pi 0 1 1)
              (exampleParams Driver.freddi "Teff" "power" (0 : ℝ) (1 / 2)).driver)
            (trimState Real.pi).h (trimState Real.pi).F = Except.ok o.state.F ∧
        ∀ s0 s1, Relation.ReflTransGen
            (Next (exampleParams Driver.freddi "Teff" "power" (0 : ℝ) (1 / 2))
              (closureExternal Real.rpow Real.pi 0 1 1)) s0 s1 →
          s1.Nx ≤ s0.Nx ∧ s1.h.length ≤ s0.h.length) := by
  obtain ⟨o, ho, _⟩ := trimStep_completes
  exact ⟨o, ho, truncation_cuts_grid_only _ _ _ _ o ho⟩

/-- C6, counterexample. Three grid points `h = [1/2, 1, 2]`, `F = [0, 8π/3, 0]`,
`GM = 1`, zero irradiation, `Teff` threshold `1/2`, a stepper that leaves `F` as it
is: `Tph = [0, 1, 0]`, the edge index `1` is interior to the last index `2`;
afterwards `Nx = 2` and `h` has length `2`, but `F` still has length `3`, not
`ii + 1 = 2`. -/
theorem truncation_leaves_F_long :
    ∃ o, step (exampleParams Driver.freddi "Teff" "power" (0 : ℝ) (1 / 2))
        (closureExternal Real.rpow Real.pi 0 1 1) 0 (trimState Real.pi)
        = Except.ok (some o) ∧
      o.ii < (trimState Real.pi).Nx - 1 ∧ o.state.Nx = o.ii + 1 ∧
      (o.state.h.length : Int) = o.ii + 1 ∧ (o.state.F.length : Int) ≠ o.ii + 1 := by
  obtain ⟨o, ho, hii, hNx, hh, hF⟩ := trimStep_completes
  refine ⟨o, ho, ?_, ?_, ?_, ?_⟩
  · rw [hii]; norm_num [trimState]
  · rw [hii, hNx]; norm_num
  · rw [hii, hh]; norm_num
  · rw [hii, hF]; norm_num

/-! ## Disk mass -/

/-- C10 (failing input). For `Nx = 3`, `R = [1, 2, 4]`, `Sigma = [0, 1, 1]` the
rule of the claim gives `14π`.  The code assigns `stepR` at `i = 1` in none of its
three `if` statements (the third tests `i > 1`), so the term of index `1` uses
whatever the uninitialised `stepR` holds: the result is `2πu + 8π`, which is `10π`
when `u` is the value `R[1] - R[0] = 1` left by the previous iteration. -/
theorem Mdisk_skips_index_one :
    Mdisk_spec (garbageExternal Real.pi 1) [1, 2, 4] [0, 1, 1] 3 = 14 * Real.pi ∧
    (∀ u : ℝ, Mdisk (garbageExternal Real.pi u) [1, 2, 4] [0, 1, 1] 3
      = Except.ok (2 * Real.pi * u + 8 * Real.pi)) ∧
    Mdisk (garbageExternal Real.pi 1) [1, 2, 4] [0, 1, 1] 3 = Except.ok (10 * Real.pi) ∧
    (10 * Real.pi ≠ 14 * Real.pi) ∧
    (∀ (R : List ℝ) (Nx : Int) (u : ℝ), 2 < Nx → stepR R Nx 1 u = Except.ok u) := by
  refine ⟨?_, ?_, ?_, ?_, ?_⟩
  · norm_num [Mdisk_spec, dR_spec, garbageExternal, closureExternal, List.range_succ]
    ring
  · intro u
    norm_num [Mdisk, MdiskLoop, stepR, vecAt, garbageExternal, closureExternal,
      toNat_two, toNat_three]
    ring
  · norm_num [Mdisk, MdiskLoop, stepR, vecAt, garbageExternal, closureExternal,
      toNat_two, toNat_three]
    ring
  · have := Real.pi_pos
    intro h
    linarith
  · intro R Nx u hNx
    have h1 : ¬ ((1 : Int) = Nx - 1) := by omega
    simp [stepR, h1]

/-! ## Errors of the grid construction -/

theorem tabulateE_error {β : Type} (f : Nat → Except Error β) (e : Error) (n : Nat)
    (hf : ∀ i, f i = Except.error e) (hn : 0 < n) : tabulateE f n = Except.error e := by
  induction n with
  | zero => omega
  | succ n ih =>
    cases n with
    | zero => simp [tabulateE, hf 0]
    | succ k =>
      have := ih (by omega)
      simp only [tabulateE] at this ⊢
      simp only [this]

/-- C12 (as the code has it). The grid loop throws `invalid_option_value` whenever the
scale mode is neither `log` nor `linear` and `N ≥ 1`.  The grid size itself is not
checked: for `N = 0` the loop body never runs and the empty grid is returned whatever
the scale mode, for `N = 1` with a recognised mode a one-point grid is returned, and
for `N < 0` the vector constructor throws `length_error`. -/
theorem grid_scale_checked_in_loop (fl : α → α) (pow : α → α → α) (grid_scale : String)
    (h_in h_out GM : α) (N : Int) :
    (grid_scale ≠ "log" → grid_scale ≠ "linear" → 1 ≤ N →
      buildGrid fl pow grid_scale h_in h_out GM N
        = Except.error Error.invalid_option_value) ∧
    (N = 0 → buildGrid fl pow grid_scale h_in h_out GM N = Except.ok ([], [])) ∧
    (N < 0 → buildGrid fl pow grid_scale h_in h_out GM N
      = Except.error Error.length_error) ∧
    ((grid_scale = "log" ∨ grid_scale = "linear") → N = 1 →
      ∃ h0, buildGrid fl pow grid_scale h_in h_out GM N
        = Except.ok ([h0], [fl (fl (h0 * h0) / GM)])) := by
  refine ⟨?_, ?_, ?_, ?_⟩
  · intro h1 h2 hN
    have hf : ∀ i, gridValue fl pow grid_scale h_in h_out N i
        = Except.error Error.invalid_option_value := by
      intro i; simp [gridValue, h1, h2]
    have := tabulateE_error _ _ N.toNat hf (by omega)
    simp [buildGrid, not_lt.2 (by omega : (0 : Int) ≤ N), this]
  · intro hN
    subst hN
    simp [buildGrid, tabulateE]
  · intro hN
    simp [buildGrid, hN]
  · intro hs hN
    subst hN
    rcases hs with rfl | rfl
    · exact ⟨_, by simp [buildGrid, tabulateE, gridValue]; exact ⟨rfl, rfl⟩⟩
    · exact ⟨_, by simp [buildGrid, tabulateE, gridValue]; exact ⟨rfl, rfl⟩⟩

/-- C12, witness: the scale `cubic` with `N = 3`. -/
theorem grid_scale_checked_in_loop_witness :
    buildGrid id Real.rpow "cubic" (1 : ℝ) 4 1 3 = Except.error Error.invalid_option_value :=
  (grid_scale_checked_in_loop id Real.rpow "cubic" (1 : ℝ) 4 1 3).1 (by decide) (by decide)
    (by norm_num)

/-- C12, counterexample. With `N = 0` the grid construction returns the empty grid
and throws nothing, both for the unrecognised scale mode `cubic` and for `linear`. -/
theorem grid_of_size_zero_is_accepted :
    buildGrid id Real.rpow "cubic" (1 : ℝ) 4 1 0 = Except.ok ([], []) ∧
    buildGrid id Real.rpow "linear" (1 : ℝ) 4 1 0 = Except.ok ([], []) := by
  constructor <;> simp [buildGrid, tabulateE]

/-! ## Initial condition -/

theorem initialValues_eq (h : List α) (Nx : Int) (f : α → α) (hlen : Nx.toNat ≤ h.length) :
    initialValues h Nx f
      = Except.ok ((List.range Nx.toNat).map fun i => f (h.getD i 0)) := by
  unfold initialValues
  apply tabulateE_ok
  intro i hi
  have hv : vecAt h (i : Int) = Except.ok (h.getD i 0) :=
    vecAt_natCast h i _ (by
      rw [List.getD_eq_getElem?_getD, List.getElem?_eq_getElem (by omega)]; rfl)
  simp only [hv]

/-- C13 (failing input). `freddi.cpp` with `--Mdot0=1` on the grid `h = [1, 2]`: the
dispatch rejects the shapes `power`, `powerF` and `powerSigma` and an unrecognised
name, but for `sinusgauss` and `sinusparabola`, which do not use `Mdot0` either, it
builds the profile and throws nothing. -/
theorem Mdot0_accepted_for_sinusgauss :
    (∃ F F0 Mdot_out, initialCondition
        (exampleSetup (exampleParams Driver.freddi "Teff" "sinusgauss" (0 : ℝ) 0) "linear" 2 1)
        (closureExternal Real.rpow Real.pi 0 1 1)
        (Libm.mk Real.sin Real.exp Real.sqrt) [1, 2] [1, 4] = Except.ok (F, F0, Mdot_out) ∧
      F.length = 2) ∧
    (∃ F F0 Mdot_out, initialCondition
        (exampleSetup (exampleParams Driver.freddi "Teff" "sinusparabola" (0 : ℝ) 0)
          "linear" 2 1)
        (closureExternal Real.rpow Real.pi 0 1 1)
        (Libm.mk Real.sin Real.exp Real.sqrt) [1, 2] [1, 4] = Except.ok (F, F0, Mdot_out) ∧
      F.length = 2) ∧
    initialCondition
        (exampleSetup (exampleParams Driver.freddi "Teff" "power" (0 : ℝ) 0) "linear" 2 1)
        (closureExternal Real.rpow Real.pi 0 1 1)
        (Libm.mk Real.sin Real.exp Real.sqrt) [1, 2] [1, 4]
      = Except.error Error.invalid_option_value ∧
    initialCondition
        (exampleSetup (exampleParams Driver.freddi "Teff" "powerF" (0 : ℝ) 0) "linear" 2 1)
        (closureExternal Real.rpow Real.pi 0 1 1)
        (Libm.mk Real.sin Real.exp Real.sqrt) [1, 2] [1, 4]
      = Except.error Error.invalid_option_value ∧
    initialCondition
        (exampleSetup (exampleParams Driver.freddi "Teff" "powerSigma" (0 : ℝ) 0)
          "linear" 2 1)
        (closureExternal Real.rpow Real.pi 0 1 1)
        (Libm.mk Real.sin Real.exp Real.sqrt) [1, 2] [1, 4]
      = Except.error Error.invalid_option_value ∧
    initialCondition
        (exampleSetup (exampleParams Driver.freddi "Teff" "gauss" (0 : ℝ) 0) "linear" 2 1)
        (closureExternal Real.rpow Real.pi 0 1 1)
        (Libm.mk Real.sin Real.exp Real.sqrt) [1, 2] [1, 4]
      = Except.error Error.invalid_option_value := by
  have h2 : ((2 : Int)).toNat ≤ ([1, 2] : List ℝ).length := by simp [toNat_two]
  refine ⟨?_, ?_, ?_, ?_, ?_, ?_⟩
  · refine ⟨?_, ?_, ?_, ?_, ?_⟩
    rotate_left 3
    · simp only [initialCondition, exampleSetup, exampleParams, if_true]
      rw [initialValues_eq _ _ _ h2]
      exact rfl
    · simp [toNat_two]
  · refine ⟨?_, ?_, ?_, ?_, ?_⟩
    rotate_left 3
    · simp only [initialCondition, exampleSetup, exampleParams, String.reduceEq, if_false,
        if_true, false_or, and_false, or_self]
      have h21 : (2 : Int) - 1 = 1 := by norm_num
      have hR : vecAt ([1, 4] : List ℝ) 1 = Except.ok 4 := vecAt_natCast _ 1 _ rfl
      have hh : vecAt ([1, 2] : List ℝ) 1 = Except.ok 2 := vecAt_natCast _ 1 _ rfl
      simp only [h21, hR, hh]
      rw [initialValues_eq _ _ _ h2]
      exact rfl
    · simp [toNat_two]
  · simp [initialCondition, exampleSetup, exampleParams, initialMdot_in]
  · simp [initialCondition, exampleSetup, exampleParams, initialMdot_in]
  · simp [initialCondition, exampleSetup, exampleParams, initialMdot_in]
  · simp [initialCondition, exampleSetup, exampleParams, initialMdot_in]

theorem initialValues_get (h : List α) (Nx : Int) (f : α → α) (hlen : Nx.toNat ≤ h.length) :
    ∃ F, initialValues h Nx f = Except.ok F ∧ F.length = Nx.toNat ∧
      ∀ (i : Nat) (hi : α), i < Nx.toNat → h[i]? = some hi → F[i]? = some (f hi) := by
  refine ⟨_, initialValues_eq h Nx f hlen, by simp, ?_⟩
  intro i hi hlt hget
  rw [List.getElem?_map, List.getElem?_range hlt]
  simp [List.getD_eq_getElem?_getD, hget]

theorem sinusValue_hasDerivAt (pi A h_in h_out : ℝ) :
    HasDerivAt (fun y => sinusValue (Libm.mk Real.sin Real.exp Real.sqrt) pi A h_in h_out y)
      (A * (Real.cos ((h_in - h_in) / (h_out - h_in) * pi / 2)
        * (1 / (h_out - h_in) * pi / 2))) h_in := by
  unfold sinusValue
  have h1 : HasDerivAt (fun y : ℝ => (y - h_in) / (h_out - h_in) * pi / 2)
      (1 / (h_out - h_in) * pi / 2) h_in :=
    ((((hasDerivAt_id h_in).sub_const h_in).div_const (h_out - h_in)).mul_const pi).div_const 2
  exact (h1.sin).const_mul A

/-- C16. In `freddi.cpp` with the shape `sinus` or `sinusF` and `Mdot0 > 0`, the
initial condition is `F[i] = A * sin((h[i]-h_in)/(h_out-h_in) * M_PI/2)` with
`A = Mdot0 * (h_out-h_in) * 2/M_PI` for every `i < Nx`; the same `F` and `A` come out
for any other value `F0` of `--F0`; and, `sin` being the real sine, `M_PI` non-zero
and `h_in ≠ h_out`, the derivative of this profile with respect to `h` at `h_in` is
`Mdot0`. -/
theorem sinus_profile_backsolved (c : Setup ℝ) (x : External ℝ) (h R : List ℝ) (F0 : ℝ)
    (hd : c.p.driver = Driver.freddi)
    (hs : c.p.initial_cond_shape = "sinus" ∨ c.p.initial_cond_shape = "sinusF")
    (hM : 0 < c.Mdot0) (hlen : c.Nx.toNat ≤ h.length) :
    ∃ F, initialCondition c x (Libm.mk Real.sin Real.exp Real.sqrt) h R
        = Except.ok (F, c.Mdot0 * (c.h_out - c.h_in) * 2 / x.M_PI, 0) ∧
      initialCondition { c with F0_gauss := F0 } x (Libm.mk Real.sin Real.exp Real.sqrt) h R
        = Except.ok (F, c.Mdot0 * (c.h_out - c.h_in) * 2 / x.M_PI, 0) ∧
      F.length = c.Nx.toNat ∧
      (∀ (i : Nat) (hi : ℝ), i < c.Nx.toNat → h[i]? = some hi →
        F[i]? = some (c.Mdot0 * (c.h_out - c.h_in) * 2 / x.M_PI
          * Real.sin ((hi - c.h_in) / (c.h_out - c.h_in) * x.M_PI / 2))) ∧
      (x.M_PI ≠ 0 → c.h_in ≠ c.h_out →
        HasDerivAt
          (fun y => sinusValue (Libm.mk Real.sin Real.exp Real.sqrt) x.M_PI
            (c.Mdot0 * (c.h_out - c.h_in) * 2 / x.M_PI) c.h_in c.h_out y)
          c.Mdot0 c.h_in) := by
  obtain ⟨F, hF, hlenF, hget⟩ := initialValues_get h c.Nx
    (sinusValue (Libm.mk Real.sin Real.exp Real.sqrt) x.M_PI
      (c.Mdot0 * (c.h_out - c.h_in) * 2 / x.M_PI) c.h_in c.h_out) hlen
  have hsg : c.p.initial_cond_shape ≠ "sinusgauss" := by
    rcases hs with h1 | h1 <;> rw [h1] <;> decide
  have hpw : c.p.initial_cond_shape ≠ "power" := by
    rcases hs with h1 | h1 <;> rw [h1] <;> decide
  have hpF : c.p.initial_cond_shape ≠ "powerF" := by
    rcases hs with h1 | h1 <;> rw [h1] <;> decide
  have hpS : c.p.initial_cond_shape ≠ "powerSigma" := by
    rcases hs with h1 | h1 <;> rw [h1] <;> decide
  have hMd : initialMdot_in c = c.Mdot0 := by simp [initialMdot_in, hd]
  have hMd2 : initialMdot_in { c with F0_gauss := F0 } = c.Mdot0 := by
    simp [initialMdot_in, hd]
  refine ⟨F, ?_, ?_, hlenF, ?_, ?_⟩
  · simp only [initialCondition, hsg, hpw, hpF, hpS, hs, hd, hMd, hM, if_true,
      if_false, and_false, and_true, or_self, true_and, gt_iff_lt, hF]
  · simp only [initialCondition, hsg, hpw, hpF, hpS, hs, hd, hMd2, hM, if_true,
      if_false, and_false, and_true, or_self, true_and, gt_iff_lt, hF]
  · intro i hi hlt hh
    rw [hget i hi hlt hh]
    rfl
  · intro h2 hne
    have hder := sinusValue_hasDerivAt x.M_PI (c.Mdot0 * (c.h_out - c.h_in) * 2 / x.M_PI)
      c.h_in c.h_out
    have hval : c.Mdot0 * (c.h_out - c.h_in) * 2 / x.M_PI
        * (Real.cos ((c.h_in - c.h_in) / (c.h_out - c.h_in) * x.M_PI / 2)
          * (1 / (c.h_out - c.h_in) * x.M_PI / 2)) = c.Mdot0 := by
      have h1 : c.h_out - c.h_in ≠ 0 := sub_ne_zero.2 (Ne.symm hne)
      simp only [sub_self, zero_div, zero_mul, Real.cos_zero]
      field_simp
      ring
    rw [hval] at hder
    exact hder

/-- C16, witness: `--initialcond=sinus --Mdot0=1` on the grid `h = [1, 2]`, compared
with the same run with `--F0=7`. -/
theorem sinus_profile_backsolved_witness :
    ∃ F, initialCondition
          (exampleSetup (exampleParams Driver.freddi "Teff" "sinus" (0 : ℝ) 0) "linear" 2 1)
          (closureExternal Real.rpow Real.pi 0 1 1) (Libm.mk Real.sin Real.exp Real.sqrt)
          [1, 2] [1, 4]
        = Except.ok (F, 1 * (2 - 1) * 2 / Real.pi, 0) ∧
      initialCondition
          { exampleSetup (exampleParams Driver.freddi "Teff" "sinus" (0 : ℝ) 0) "linear" 2 1
            with F0_gauss := 7 }
          (closureExternal Real.rpow Real.pi 0 1 1) (Libm.mk Real.sin Real.exp Real.sqrt)
          [1, 2] [1, 4]
        = Except.ok (F, 1 * (2 - 1) * 2 / Real.pi, 0) ∧
      F.length = (2 : Int).toNat ∧
      (∀ (i : Nat) (hi : ℝ), i < (2 : Int).toNat → ([1, 2] : List ℝ)[i]? = some hi →
        F[i]? = some (1 * (2 - 1) * 2 / Real.pi
          * Real.sin ((hi - 1) / (2 - 1) * Real.pi / 2))) ∧
      HasDerivAt
        (fun y => sinusValue (Libm.mk Real.sin Real.exp Real.sqrt) Real.pi
          (1 * (2 - 1) * 2 / Real.pi) 1 2 y)
        1 1 := by
  obtain ⟨F, h1, h2, h3, h4, h5⟩ := sinus_profile_backsolved
    (exampleSetup (exampleParams Driver.freddi "Teff" "sinus" (0 : ℝ) 0) "linear" 2 1)
    (closureExternal Real.rpow Real.pi 0 1 1) [1, 2] [1, 4] 7 rfl (Or.inl rfl)
    (by norm_num [exampleSetup]) (by simp [exampleSetup, toNat_two])
  exact ⟨F, h1, h2, h3, h4, h5 Real.pi_ne_zero (by norm_num [exampleSetup])⟩

theorem buildGrid_first (fl : α → α) (hfl0 : fl 0 = 0) (pow : α → α → α)
    (hp0 : ∀ x, pow x 0 = 1) (grid_scale : String)
    (h_in h_out GM : α) (hin : fl h_in = h_in) (Nx : Int) (h R : List α) (hN : 1 ≤ Nx)
    (hg : buildGrid fl pow grid_scale h_in h_out GM Nx = Except.ok (h, R)) :
    h.length = Nx.toNat ∧ R.length = Nx.toNat ∧ h[0]? = some h_in := by
  unfold buildGrid at hg
  have hneg : ¬ Nx < 0 := by omega
  simp only [hneg, if_false] at hg
  cases ht : tabulateE (gridValue fl pow grid_scale h_in h_out Nx) Nx.toNat with
  | error e => rw [ht] at hg; simp at hg
  | ok h2 =>
    rw [ht] at hg
    simp only [Except.ok.injEq, Prod.mk.injEq] at hg
    obtain ⟨rfl, rfl⟩ := hg
    obtain ⟨hl, hget⟩ := tabulateE_inv _ _ _ ht
    refine ⟨hl, by simp [hl], ?_⟩
    obtain ⟨b, hb, hv⟩ := hget 0 (by omega)
    rw [hb]
    unfold gridValue at hv
    split at hv
    · simp only [Nat.cast_zero, zero_div, hfl0, hp0, mul_one, hin, Except.ok.injEq] at hv
      rw [hv]
    · split at hv
      · simp only [Nat.cast_zero, mul_zero, zero_div, hfl0, add_zero, hin,
          Except.ok.injEq] at hv
        rw [hv]
      · simp at hv

theorem initialValues_first (h : List α) (Nx : Int) (f : α → α) (a : α)
    (hN : 1 ≤ Nx) (hlen : Nx.toNat ≤ h.length) (h0 : h[0]? = some a) :
    ∃ F, initialValues h Nx f = Except.ok F ∧ F[0]? = some (f a) := by
  obtain ⟨F, hF, _, hget⟩ := initialValues_get h Nx f hlen
  exact ⟨F, hF, hget 0 a (by omega) h0⟩

/-- C17 (as the code has it). On the grid that the grid loop builds from a
representable `h_in > 0` with `Nx ≥ 2`, under any rounding `fl` with `fl 0 = 0`, the
initial condition has `F[0] = 0`, the inner boundary value given to the stepper,
for the shapes `sinus`/`sinusF` and `quasistat`, for `sinusparabola` when
`h_in < 0.9 h_out`, for `power`/`powerF` when `Mdot0 = 0` and `powerorder > 0`, and for
`powerSigma` when `Mdot0 = 0`, `powerorder > 0` and the opacity exponent is `m < 1`.
Nothing is stated for `sinusgauss`. -/
theorem initial_inner_torque (fl : α → α) (c : Setup α) (x : External α) (m : Libm α)
    (h R : List α) (hp : PowLaws x.pow) (hN : 2 ≤ c.Nx) (h0 : 0 < c.h_in)
    (hsin : m.sin 0 = 0) (hfl0 : fl 0 = 0) (hin : fl c.h_in = c.h_in)
    (hgrid : buildGrid fl x.pow c.grid_scale c.h_in c.h_out c.p.GM c.Nx = Except.ok (h, R)) :
    ((c.p.initial_cond_shape = "sinus"
        ∨ (c.p.driver = Driver.freddi ∧ c.p.initial_cond_shape = "sinusF")) →
      ∃ F F0 Mdot_out, initialCondition c x m h R = Except.ok (F, F0, Mdot_out) ∧
        F[0]? = some 0) ∧
    (c.p.initial_cond_shape = "quasistat" →
      ∃ F F0 Mdot_out, initialCondition c x m h R = Except.ok (F, F0, Mdot_out) ∧
        F[0]? = some 0) ∧
    ((c.p.initial_cond_shape = "power"
        ∨ (c.p.driver = Driver.freddi ∧ c.p.initial_cond_shape = "powerF")) →
      initialMdot_in c = 0 → 0 < c.power_order →
      ∃ F F0 Mdot_out, initialCondition c x m h R = Except.ok (F, F0, Mdot_out) ∧
        F[0]? = some 0) ∧
    (c.p.driver = Driver.freddi ∧ c.p.initial_cond_shape = "powerSigma" →
      initialMdot_in c = 0 → 0 < c.power_order → x.oprel.m < 1 →
      ∃ F F0 Mdot_out, initialCondition c x m h R = Except.ok (F, F0, Mdot_out) ∧
        F[0]? = some 0) ∧
    (c.p.initial_cond_shape = "sinusparabola" → c.h_in < c.h_out * 0.9 →
      ∃ F F0 Mdot_out, initialCondition c x m h R = Except.ok (F, F0, Mdot_out) ∧
        F[0]? = some 0) := by
  obtain ⟨hl, hRl, hfirst⟩ := buildGrid_first fl hfl0 x.pow hp.exp_zero c.grid_scale
    c.h_in c.h_out c.p.GM hin c.Nx h R (by omega) hgrid
  have hN1 : (1 : Int) ≤ c.Nx := by omega
  have hlen : c.Nx.toNat ≤ h.length := by omega
  have hne : c.h_in ≠ 0 := ne_of_gt h0
  refine ⟨?_, ?_, ?_, ?_, ?_⟩
  · intro hs
    have hsg : c.p.initial_cond_shape ≠ "sinusgauss" := by
      rcases hs with h1 | ⟨_, h1⟩ <;> rw [h1] <;> decide
    have hpw : c.p.initial_cond_shape ≠ "power" := by
      rcases hs with h1 | ⟨_, h1⟩ <;> rw [h1] <;> decide
    have hpF : c.p.initial_cond_shape ≠ "powerF" := by
      rcases hs with h1 | ⟨_, h1⟩ <;> rw [h1] <;> decide
    have hpS : c.p.initial_cond_shape ≠ "powerSigma" := by
      rcases hs with h1 | ⟨_, h1⟩ <;> rw [h1] <;> decide
    simp only [initialCondition, hsg, hpw, hpF, hpS, hs, if_true, if_false, and_false,
      or_self]
    obtain ⟨F, hF, hF0⟩ := initialValues_first h c.Nx
      (sinusValue m x.M_PI (if c.p.driver = Driver.freddi ∧ initialMdot_in c > 0 then
        initialMdot_in c * (c.h_out - c.h_in) * 2 / x.M_PI else c.F0_gauss) c.h_in c.h_out)
      c.h_in hN1 hlen hfirst
    rw [hF]
    refine ⟨F, _, _, rfl, ?_⟩
    rw [hF0]
    simp [sinusValue, hsin]
  · intro hs
    simp only [initialCondition, hs, String.reduceEq, if_true, if_false, and_false,
      or_self]
    obtain ⟨F, hF, hF0⟩ := initialValues_first h c.Nx
      (quasistatValue x (if c.p.driver = Driver.freddi ∧ initialMdot_in c > 0 then
        initialMdot_in c * (c.h_out - c.h_in) / c.h_out * c.h_in
          / x.oprel.f_F (c.h_in / c.h_out) else c.F0_gauss) c.h_in c.h_out)
      c.h_in hN1 hlen hfirst
    rw [hF]
    refine ⟨F, _, _, rfl, ?_⟩
    rw [hF0]
    simp [quasistatValue, div_self hne]
  · intro hs hM hpo
    have hsg : c.p.initial_cond_shape ≠ "sinusgauss" := by
      rcases hs with h1 | ⟨_, h1⟩ <;> rw [h1] <;> decide
    simp only [initialCondition, hsg, hs, hM, if_true, if_false, ne_eq, not_true_eq_false,
      and_false]
    obtain ⟨F, hF, hF0⟩ := initialValues_first h c.Nx
      (powerValue x c.F0_gauss c.power_order c.h_in c.h_out) c.h_in hN1 hlen hfirst
    rw [hF]
    refine ⟨F, _, _, rfl, ?_⟩
    rw [hF0]
    simp [powerValue, hp.zero_base _ hpo]
  · intro hs hM hpo hm
    have hsg : c.p.initial_cond_shape ≠ "sinusgauss" := by rw [hs.2]; decide
    have hpw : c.p.initial_cond_shape ≠ "power" := by rw [hs.2]; decide
    have hpF : c.p.initial_cond_shape ≠ "powerF" := by rw [hs.2]; decide
    simp only [initialCondition, hsg, hpw, hpF, hs, hM, if_true, if_false, ne_eq,
      not_true_eq_false, and_false, or_self, and_self]
    obtain ⟨F, hF, hF0⟩ := initialValues_first h c.Nx
      (powerSigmaValue x c.F0_gauss c.power_order c.h_in c.h_out) c.h_in hN1 hlen hfirst
    rw [hF]
    refine ⟨F, _, _, rfl, ?_⟩
    rw [hF0]
    have hm1 : 0 < 1 / (1 - x.oprel.m) := by
      apply div_pos one_pos; linarith
    simp only [powerSigmaValue, sub_self, zero_div, hp.zero_base _ hpo,
      hp.zero_base _ hm1, mul_zero]
  · intro hs hlt
    simp only [initialCondition, hs, String.reduceEq, if_true, if_false, and_false,
      or_self]
    have hi1 : h[(c.Nx - 1).toNat]? = some (h.get ⟨(c.Nx - 1).toNat, by omega⟩) :=
      List.getElem?_eq_getElem _
    have hi2 : R[(c.Nx - 1).toNat]? = some (R.get ⟨(c.Nx - 1).toNat, by omega⟩) :=
      List.getElem?_eq_getElem _
    have hv1 : vecAt h (c.Nx - 1) = Except.ok (h.get ⟨(c.Nx - 1).toNat, by omega⟩) :=
      (vecAt_ok_iff h _ _).2 ⟨by omega, hi1⟩
    have hv2 : vecAt R (c.Nx - 1) = Except.ok (R.get ⟨(c.Nx - 1).toNat, by omega⟩) :=
      (vecAt_ok_iff R _ _).2 ⟨by omega, hi2⟩
    simp only [hv1, hv2]
    obtain ⟨F, hF, hF0⟩ := initialValues_first h c.Nx
      (sinusparabolaValue m x.M_PI c.p.kMdot_out
        (1.24e13 * x.pow (Sigma_hot_disk x c.p.driver c.p.alpha c.p.Mx
            (R.get ⟨(c.Nx - 1).toNat, by omega⟩)) (10 / 7)
          * x.pow (h.get ⟨(c.Nx - 1).toNat, by omega⟩) (22 / 7) * x.pow c.p.GM (-10 / 7)
          * x.pow c.p.alpha (8 / 7)) c.h_in c.h_out)
      c.h_in hN1 hlen hfirst
    rw [hF]
    refine ⟨F, _, _, rfl, ?_⟩
    rw [hF0]
    simp [sinusparabolaValue, hlt, sinusValue, hsin]

theorem sinusgaussValue_example :
    0 < sinusgaussValue (Libm.mk Real.sin Real.exp Real.sqrt) Real.pi 1 1 2 1 := by
  have hsq : Real.sqrt 0.01 = 0.1 := by
    rw [show (0.01 : ℝ) = 0.1 ^ 2 by norm_num]
    exact Real.sqrt_sq (by norm_num)
  have hlt : Real.exp (-(2 / 0.1 - 2) * (2 / 0.1 - 2) / (2 * 2 * 2 / (5 * 5)))
      < Real.exp (-(1 - 2) * (1 - 2) / (2 * 2 * 2 / (5 * 5))) :=
    Real.exp_lt_exp.2 (by norm_num)
  simp only [sinusgaussValue, gaussValue, sinusValue, sigma_for_F_gauss,
    r_gauss_cut_to_r_out, hsq, sub_self, zero_div, zero_mul, Real.sin_zero, mul_zero,
    add_zero, one_mul]
  rw [if_pos (by linarith)]
  linarith

theorem exampleGrid_linear (GM : ℝ) :
    buildGrid id Real.rpow "linear" (1 : ℝ) 2 GM 2
      = Except.ok ([1, 2], [1 * 1 / GM, 2 * 2 / GM]) := by
  norm_num [buildGrid, tabulateE, gridValue, toNat_two]

/-- C17, witness: the `sinus` and the `power` initial condition on the linear grid
with `h_in = 1`, `h_out = 2`, `Nx = 2`, `powerorder = 6`, in exact arithmetic. -/
theorem initial_inner_torque_witness :
    (∃ F F0 Mdot_out, initialCondition
        (exampleSetup (exampleParams Driver.freddi "Teff" "sinus" (0 : ℝ) 0) "linear" 2 0)
        (closureExternal Real.rpow Real.pi 0 1 1) (Libm.mk Real.sin Real.exp Real.sqrt)
        [1, 2] [1 * 1 / 1, 2 * 2 / 1] = Except.ok (F, F0, Mdot_out) ∧ F[0]? = some 0) ∧
    (∃ F F0 Mdot_out, initialCondition
        (exampleSetup (exampleParams Driver.freddi "Teff" "power" (0 : ℝ) 0) "linear" 2 0)
        (closureExternal Real.rpow Real.pi 0 1 1) (Libm.mk Real.sin Real.exp Real.sqrt)
        [1, 2] [1 * 1 / 1, 2 * 2 / 1] = Except.ok (F, F0, Mdot_out) ∧ F[0]? = some 0) :=
  ⟨(initial_inner_torque id
      (exampleSetup (exampleParams Driver.freddi "Teff" "sinus" (0 : ℝ) 0) "linear" 2 0)
      (closureExternal Real.rpow Real.pi 0 1 1) (Libm.mk Real.sin Real.exp Real.sqrt)
      [1, 2] [1 * 1 / 1, 2 * 2 / 1] rpow_PowLaws (by norm_num [exampleSetup])
      (by norm_num [exampleSetup]) Real.sin_zero rfl rfl
      (exampleGrid_linear 1)).1 (Or.inl rfl),
   (initial_inner_torque id
      (exampleSetup (exampleParams Driver.freddi "Teff" "power" (0 : ℝ) 0) "linear" 2 0)
      (closureExternal Real.rpow Real.pi 0 1 1) (Libm.mk Real.sin Real.exp Real.sqrt)
      [1, 2] [1 * 1 / 1, 2 * 2 / 1] rpow_PowLaws (by norm_num [exampleSetup])
      (by norm_num [exampleSetup]) Real.sin_zero rfl rfl
      (exampleGrid_linear 1)).2.2.1 (Or.inl rfl) (by simp [initialMdot_in, exampleSetup, exampleParams])
      (by norm_num [exampleSetup])⟩

/-- C17, counterexample. `freddi.cpp` with `h_in = 1`, `h_out = 2`, `Nx = 2`, `F0 = 1`
on the linear grid. With `--initialcond=power --powerorder=0` the set-up succeeds and
leaves `F[0] = F0 * pow(0, 0) = 1`; with `--initialcond=sinusgauss` it succeeds and
leaves `F[0] > 0`. In both runs the stepper is given the inner boundary value `0`. -/
theorem inner_torque_not_zero :
    (∃ x1 s0, setup
        { exampleSetup (exampleParams Driver.freddi "Teff" "power" (0 : ℝ) 0)
            "linear" 2 0 with power_order := 0 }
        (closureExternal Real.rpow Real.pi 0 1 1) (Libm.mk Real.sin Real.exp Real.sqrt)
        exampleOpacity = Except.ok (x1, s0) ∧
      s0.F[0]? = some 1) ∧
    ∃ x1 s0 f0, setup
        (exampleSetup (exampleParams Driver.freddi "Teff" "sinusgauss" (0 : ℝ) 0)
          "linear" 2 0)
        (closureExternal Real.rpow Real.pi 0 1 1) (Libm.mk Real.sin Real.exp Real.sqrt)
        exampleOpacity = Except.ok (x1, s0) ∧
      s0.F[0]? = some f0 ∧ 0 < f0 := by
  constructor
  · obtain ⟨F, hF, hF0⟩ := initialValues_first ([1, 2] : List ℝ) 2
      (powerValue { closureExternal Real.rpow Real.pi 0 1 1 with
          oprel := { m := 0, n := 1, D := 1, Height := fun r _ => r, f_F := fun a => a } }
        1 0 1 2) 1
      (by norm_num) (by simp [toNat_two]) rfl
    have hv : powerValue { closureExternal Real.rpow Real.pi 0 1 1 with
          oprel := { m := 0, n := 1, D := 1, Height := fun r _ => r, f_F := fun a => a } }
        1 0 1 2 1 = (1 : ℝ) := by
      simp [powerValue, closureExternal]
    rw [hv] at hF0
    refine ⟨?_, ?_, ?_, ?_⟩
    rotate_left 2
    · simp only [setup, exampleSetup, exampleParams, exampleOpacity, String.reduceEq,
        and_false, if_false, true_or, if_true, closureExternal, exampleGrid_linear,
        initialCondition, initialMdot_in, ne_eq, not_true_eq_false]
      simp only [closureExternal] at hF
      rw [hF]
      exact rfl
    · exact hF0
  · obtain ⟨F, hF, hF0⟩ := initialValues_first ([1, 2] : List ℝ) 2
      (sinusgaussValue (Libm.mk Real.sin Real.exp Real.sqrt) Real.pi 1 1 2) 1
      (by norm_num) (by simp [toNat_two]) rfl
    refine ⟨?_, ?_, _, ?_, ?_, sinusgaussValue_example⟩
    rotate_left 2
    · simp only [setup, exampleSetup, exampleParams, exampleOpacity, String.reduceEq,
        and_false, if_false, true_or, if_true, closureExternal, exampleGrid_linear,
        initialCondition]
      rw [hF]
      exact rfl
    · exact hF0

/-! ## The time loop -/

theorem wuncLoop_stepper_congr (x : External α)
    (st : α → α → α → α → Closure α → List α → List α → Except Error (List α))
    (d : Driver) (h F : List α) (k : Nat) :
    ∀ (i : Int) (W : List α),
      wuncLoop { x with nonlenear_diffusion_nonuniform_1_2 := st } d h F i k W
        = wuncLoop x d h F i k W := by
  induction k with
  | zero => intro i W; rfl
  | succ k ih =>
    intro i W
    unfold wuncLoop
    cases vecAt F i with
    | error e => rfl
    | ok Fi =>
      cases vecAt h i with
      | error e => rfl
      | ok hi => exact ih (i + 1) _

theorem wunc_stepper_congr (x : External α)
    (st : α → α → α → α → Closure α → List α → List α → Except Error (List α))
    (d : Driver) :
    wunc { x with nonlenear_diffusion_nonuniform_1_2 := st } d = wunc x d := by
  funext h F first last
  exact wuncLoop_stepper_congr x st d h F _ _ _

theorem Mdisk_stepper_congr (x : External α)
    (st : α → α → α → α → Closure α → List α → List α → Except Error (List α))
    (R Sigma : List α) (Nx : Int) :
    Mdisk { x with nonlenear_diffusion_nonuniform_1_2 := st } R Sigma Nx
      = Mdisk x R Sigma Nx := by
  unfold Mdisk
  generalize Nx.toNat = k
  induction k with
  | zero => rfl
  | succ k ih =>
    unfold MdiskLoop
    rw [ih]

theorem step_stepper_congr (p : Params α) (x : External α)
    (st : α → α → α → α → Closure α → List α → List α → Except Error (List α))
    (t : α) (s : State α)
    (h : st p.tau p.eps 0
        (match p.driver with
          | Driver.freddi => s.Mdot_out
          | Driver.fred => s.Mdot_out / (2 * x.M_PI))
        (wunc x p.driver) s.h s.F
      = x.nonlenear_diffusion_nonuniform_1_2 p.tau p.eps 0
        (match p.driver with
          | Driver.freddi => s.Mdot_out
          | Driver.fred => s.Mdot_out / (2 * x.M_PI))
        (wunc x p.driver) s.h s.F) :
    step p { x with nonlenear_diffusion_nonuniform_1_2 := st } t s = step p x t s := by
  have hT : tryBlock p { x with nonlenear_diffusion_nonuniform_1_2 := st } s
      = tryBlock p x s := by
    unfold tryBlock
    rw [wunc_stepper_congr, ← h]
  have hM : ∀ hh F, Mdot_in_value p { x with nonlenear_diffusion_nonuniform_1_2 := st } hh F
      = Mdot_in_value p x hh F := fun _ _ => rfl
  have hC : ∀ hh R F W M Nx,
      radiativeFields p { x with nonlenear_diffusion_nonuniform_1_2 := st } hh R F W M Nx
        = radiativeFields p x hh R F W M Nx := fun _ _ _ _ _ _ => rfl
  have hE : ∀ R cells Nx M Mp,
      edgeIndex p { x with nonlenear_diffusion_nonuniform_1_2 := st } R cells Nx M Mp
        = edgeIndex p x R cells Nx M Mp := fun _ _ _ _ _ => rfl
  have hR : ∀ tt ss W cells,
      makeRecord p { x with nonlenear_diffusion_nonuniform_1_2 := st } tt ss W cells
        = makeRecord p x tt ss W cells := fun _ _ _ _ => rfl
  unfold step
  simp only [hT, hM, hC, hE, hR, Mdisk_stepper_congr]

theorem step_none_of_stepper (p : Params α) (x : External α) (t : α) (s : State α)
    (hNx : 0 ≤ s.Nx)
    (hfail : x.nonlenear_diffusion_nonuniform_1_2 p.tau p.eps 0
        (match p.driver with
          | Driver.freddi => s.Mdot_out
          | Driver.fred => s.Mdot_out / (2 * x.M_PI))
        (wunc x p.driver) s.h s.F = Except.error Error.runtime_error) :
    step p x t s = Except.ok none := by
  have hneg : ¬ s.Nx < 0 := by omega
  simp only [step, tryBlock, hfail, hneg, if_false]

theorem passes_inv (p : Params α) (x : External α) (k : Nat) (t : α) (s : State α)
    (rs : List (Record α)) (tk : α) (sk : State α)
    (h : passes p x (k + 1) t s = some (rs, tk, sk)) :
    t ≤ p.Time ∧ ∃ o rs1, step p x t s = Except.ok (some o) ∧
      passes p x k (t + p.tau) o.state = some (rs1, tk, sk) ∧ rs = o.record :: rs1 := by
  unfold passes at h
  by_cases ht : t ≤ p.Time
  · simp only [ht, if_true] at h
    refine ⟨ht, ?_⟩
    cases hs : step p x t s with
    | error e => rw [hs] at h; simp at h
    | ok r =>
      cases r with
      | none => rw [hs] at h; simp at h
      | some o =>
        rw [hs] at h
        simp only at h
        cases hp : passes p x k (t + p.tau) o.state with
        | none => rw [hp] at h; simp at h
        | some r1 =>
          obtain ⟨rs1, tk1, sk1⟩ := r1
          rw [hp] at h
          simp only [Option.some.injEq, Prod.mk.injEq] at h
          obtain ⟨h1, h2, h3⟩ := h
          subst h2 h3
          exact ⟨o, rs1, rfl, hp, h1.symm⟩
  · simp [ht] at h
/-- C14. Let the first `k` passes of the loop run to their end, writing the lines
`rs`, and let the stepper throw `runtime_error` in pass `k` (at a time within the
horizon). Then `rs` has `k` lines; with any fuel above `k` the loop writes exactly
`rs`, after `k + 1` stepper calls, and `main` returns normally; and a run with any
stepper that returns what this one returns whenever this one returns writes the same
first `k` lines. -/
theorem nonconvergence_ends_loop (p : Params α) (x : External α) (k : Nat) :
    ∀ (t : α) (s : State α) (rs : List (Record α)) (tk : α) (sk : State α),
    passes p x k t s = some (rs, tk, sk) → tk ≤ p.Time → 0 ≤ sk.Nx →
    x.nonlenear_diffusion_nonuniform_1_2 p.tau p.eps 0
        (match p.driver with
          | Driver.freddi => sk.Mdot_out
          | Driver.fred => sk.Mdot_out / (2 * x.M_PI))
        (wunc x p.driver) sk.h sk.F = Except.error Error.runtime_error →
    rs.length = k ∧
    (∀ fuel, k < fuel →
      timeLoop p x fuel t s
        = { records := rs, stepperCalls := k + 1, exit := Exit.nonConvergence }) ∧
    (∀ (st : α → α → α → α → Closure α → List α → List α → Except Error (List α))
        (fuel : Nat),
      (∀ a b c d w h F G, x.nonlenear_diffusion_nonuniform_1_2 a b c d w h F = Except.ok G →
        st a b c d w h F = Except.ok G) →
      k ≤ fuel →
      (timeLoop p { x with nonlenear_diffusion_nonuniform_1_2 := st } fuel t s).records.take k
        = rs) := by
  induction k with
  | zero =>
    intro t s rs tk sk hpass htk hNx hfail
    simp only [passes, Option.some.injEq, Prod.mk.injEq] at hpass
    obtain ⟨h1, h2, h3⟩ := hpass
    subst h1 h2 h3
    refine ⟨rfl, ?_, ?_⟩
    · intro fuel hf
      obtain ⟨f, rfl⟩ : ∃ f, fuel = f + 1 := ⟨fuel - 1, by omega⟩
      simp only [timeLoop, htk, if_true, step_none_of_stepper p x t s hNx hfail]
    · intro st fuel _ _
      simp
  | succ k ih =>
    intro t s rs tk sk hpass htk hNx hfail
    obtain ⟨ht, o, rs1, hstep, hrest, hrs⟩ := passes_inv p x k t s rs tk sk hpass
    obtain ⟨hlen, hrun, hother⟩ := ih (t + p.tau) o.state rs1 tk sk hrest htk hNx hfail
    subst hrs
    refine ⟨by simp [hlen], ?_, ?_⟩
    · intro fuel hf
      obtain ⟨f, rfl⟩ : ∃ f, fuel = f + 1 := ⟨fuel - 1, by omega⟩
      simp only [timeLoop, ht, if_true, hstep, hrun f (by omega)]
    · intro st fuel hext hf
      obtain ⟨f, rfl⟩ : ∃ f, fuel = f + 1 := ⟨fuel - 1, by omega⟩
      obtain ⟨_, hT, _⟩ := step_inv p x t s o hstep
      obtain ⟨hst, _⟩ := tryBlock_inv p x s _ _ hT
      have hcongr := step_stepper_congr p x st t s ((hext _ _ _ _ _ _ _ _ hst).trans hst.symm)
      simp only [timeLoop, ht, if_true, hcongr, hstep, List.take_succ_cons,
        hother st f hext (by omega)]
/-- C14, witness: the pass from `trimState` cuts the grid to two points, on which the
stepper of `stallingExternal` throws `runtime_error`; the run writes one line. -/
theorem nonconvergence_ends_loop_witness :
    ∃ rs : List (Record ℝ), rs.length = 1 ∧
      (∀ fuel, 1 < fuel →
        timeLoop (exampleParams Driver.freddi "Teff" "power" (0 : ℝ) (1 / 2))
            (stallingExternal Real.rpow Real.pi) fuel 0 (trimState Real.pi)
          = { records := rs, stepperCalls := 1 + 1, exit := Exit.nonConvergence }) ∧
      (∀ (st : ℝ → ℝ → ℝ → ℝ → Closure ℝ → List ℝ → List ℝ → Except Error (List ℝ))
          (fuel : Nat),
        (∀ a b c d w h F G,
          (stallingExternal Real.rpow Real.pi).nonlenear_diffusion_nonuniform_1_2 a b c d w h F
            = Except.ok G → st a b c d w h F = Except.ok G) →
        1 ≤ fuel →
        (timeLoop (exampleParams Driver.freddi "Teff" "power" (0 : ℝ) (1 / 2))
            { stallingExternal Real.rpow Real.pi with
              nonlenear_diffusion_nonuniform_1_2 := st } fuel 0 (trimState Real.pi)).records.take 1
          = rs) := by
  obtain ⟨o, ho, _, hNx, hh, _⟩ := trimStep_completes
  have hstep : step (exampleParams Driver.freddi "Teff" "power" (0 : ℝ) (1 / 2))
      (stallingExternal Real.rpow Real.pi) 0 (trimState Real.pi) = Except.ok (some o) := by
    rw [← ho]
    exact step_stepper_congr _ (closureExternal Real.rpow Real.pi 0 1 1) _ 0 _
      (by simp [trimState, closureExternal])
  have hT : (0 : ℝ) ≤ (exampleParams Driver.freddi "Teff" "power" (0 : ℝ) (1 / 2)).Time := by
    norm_num [exampleParams]
  have hpass : passes (exampleParams Driver.freddi "Teff" "power" (0 : ℝ) (1 / 2))
      (stallingExternal Real.rpow Real.pi) 1 0 (trimState Real.pi)
      = some ([o.record],
          0 + (exampleParams Driver.freddi "Teff" "power" (0 : ℝ) (1 / 2)).tau, o.state) := by
    simp only [passes, hT, if_true, hstep]
  exact ⟨[o.record], nonconvergence_ends_loop _ _ 1 0 _ _ _ _ hpass
    (by norm_num [exampleParams]) (by rw [hNx]; norm_num)
    (by simp [stallingExternal, hh])⟩

/-! ## Exceptions of one pass -/

theorem tabulateE_error_inv {β : Type} (f : Nat → Except Error β) (n : Nat) (e : Error)
    (h : tabulateE f n = Except.error e) : ∃ i, i < n ∧ f i = Except.error e := by
  induction n with
  | zero => simp [tabulateE] at h
  | succ n ih =>
    unfold tabulateE at h
    cases ht : tabulateE f n with
    | error e1 =>
      rw [ht] at h
      simp only [Except.error.injEq] at h
      subst h
      obtain ⟨i, hi, hf⟩ := ih ht
      exact ⟨i, by omega, hf⟩
    | ok r =>
      rw [ht] at h
      cases hf : f n with
      | error e2 =>
        rw [hf] at h
        simp only [Except.error.injEq] at h
        subst h
        exact ⟨n, by omega, hf⟩
      | ok b => rw [hf] at h; simp at h

theorem wuncLoop_error (x : External α) (d : Driver) (h F : List α) (k : Nat) :
    ∀ (i : Int) (W : List α) (e : Error), wuncLoop x d h F i k W = Except.error e →
      e = Error.out_of_range := by
  induction k with
  | zero => intro i W e he; simp [wuncLoop] at he
  | succ k ih =>
    intro i W e he
    unfold wuncLoop at he
    cases h1 : vecAt F i with
    | error e1 =>
      rw [h1] at he
      simp only [Except.error.injEq] at he
      subst he
      exact vecAt_error _ _ _ h1
    | ok Fi =>
      rw [h1] at he
      cases h2 : vecAt h i with
      | error e2 =>
        rw [h2] at he
        simp only [Except.error.injEq] at he
        subst he
        exact vecAt_error _ _ _ h2
      | ok hi =>
        rw [h2] at he
        exact ih _ _ _ he

theorem tryBlock_error (p : Params α) (x : External α) (s : State α) (e : Error)
    (h : tryBlock p x s = Except.error e) :
    e = Error.out_of_range ∨
    (e ≠ Error.runtime_error ∧
      x.nonlenear_diffusion_nonuniform_1_2 p.tau p.eps 0
        (match p.driver with
          | Driver.freddi => s.Mdot_out
          | Driver.fred => s.Mdot_out / (2 * x.M_PI))
        (wunc x p.driver) s.h s.F = Except.error e) := by
  unfold tryBlock at h
  cases hs : x.nonlenear_diffusion_nonuniform_1_2 p.tau p.eps 0
      (match p.driver with
        | Driver.freddi => s.Mdot_out
        | Driver.fred => s.Mdot_out / (2 * x.M_PI))
      (wunc x p.driver) s.h s.F with
  | error e1 =>
    rw [hs] at h
    cases e1 <;> simp at h <;> subst h <;> exact Or.inr ⟨by decide, rfl⟩
  | ok F =>
    rw [hs] at h
    simp only at h
    cases hw : wunc x p.driver s.h F 1 (s.Nx - 1) with
    | error e2 =>
      have := wuncLoop_error x p.driver s.h F _ _ _ _ hw
      subst this
      rw [hw] at h
      simp only [Except.error.injEq] at h
      exact Or.inl h.symm
    | ok W => rw [hw] at h; simp at h

theorem Mdot_in_value_error (p : Params α) (x : External α) (h F : List α) (e : Error)
    (he : Mdot_in_value p x h F = Except.error e) : e = Error.out_of_range := by
  unfold Mdot_in_value at he
  split at he
  · split at he <;> simp at he
  · simp only [Except.error.injEq] at he
    exact he.symm

theorem irradiation_error (p : Params α) (x : External α) (M H Ri : α) (e : Error)
    (he : irradiation p x M H Ri = Except.error e) :
    e = Error.invalid_option_value ∧ p.irr_factor_type ≠ "const" ∧
      p.irr_factor_type ≠ "square" := by
  unfold irradiation at he
  split at he
  · simp at he
  · split at he
    · simp at he
    · simp only [Except.error.injEq] at he
      exact ⟨he.symm, by assumption, by assumption⟩

theorem cellAt_error (p : Params α) (x : External α) (h R F W : List α) (M : α) (i : Int)
    (e : Error) (he : cellAt p x h R F W M i = Except.error e) :
    e = Error.out_of_range ∨
    (e = Error.invalid_option_value ∧ p.irr_factor_type ≠ "const" ∧
      p.irr_factor_type ≠ "square") := by
  unfold cellAt at he
  split at he
  · simp only at he
    split at he
    · simp only [Except.error.injEq] at he
      subst he
      exact Or.inr (irradiation_error p x _ _ _ _ (by assumption))
    · simp at he
  · simp only [Except.error.injEq] at he
    exact Or.inl he.symm

theorem radiativeFields_error (p : Params α) (x : External α) (h R F W : List α) (M : α)
    (Nx : Int) (e : Error) (he : radiativeFields p x h R F W M Nx = Except.error e) :
    e = Error.out_of_range ∨
    (e = Error.invalid_option_value ∧ p.irr_factor_type ≠ "const" ∧
      p.irr_factor_type ≠ "square") := by
  obtain ⟨i, _, hi⟩ := tabulateE_error_inv _ _ _ he
  split at hi
  · simp at hi
  · exact cellAt_error p x h R F W M _ e hi

theorem scanDown_error (V : List α) (bound : Nat → α) (k : Nat) :
    ∀ e, scanDown V bound k = Except.error e → e = Error.out_of_range := by
  induction k with
  | zero => intro e he; simp only [scanDown, Except.error.injEq] at he; exact he.symm
  | succ k ih =>
    intro e he
    unfold scanDown at he
    cases hv : vecAt V (k : Int) with
    | error e1 =>
      rw [hv] at he
      simp only [Except.error.injEq] at he
      subst he
      exact vecAt_error _ _ _ hv
    | ok v =>
      rw [hv] at he
      simp only at he
      split at he
      · exact ih e he
      · simp at he

theorem edgeIndex_error (p : Params α) (x : External α) (R : List α)
    (cells : List (Cell α)) (Nx : Int) (M Mp : α) (e : Error)
    (he : edgeIndex p x R cells Nx M Mp = Except.error e) :
    e = Error.out_of_range ∨
    (e = Error.invalid_option_value ∧ p.bound_cond_type ≠ "MdotOut" ∧
      p.bound_cond_type ≠ "fourSigmaCrit" ∧ p.bound_cond_type ≠ "Teff" ∧
      p.bound_cond_type ≠ "Tirr") := by
  unfold edgeIndex at he
  split at he
  · exact Or.inl (scanDown_error _ _ _ e he)
  · split at he
    · exact Or.inl (scanDown_error _ _ _ e he)
    · split at he
      · exact Or.inl (scanDown_error _ _ _ e he)
      · split at he
        · split at he
          · exact Or.inl (scanDown_error _ _ _ e he)
          · exact Or.inl (scanDown_error _ _ _ e he)
        · simp only [Except.error.injEq] at he
          exact Or.inr ⟨he.symm, by assumption, by assumption, by assumption, by assumption⟩

theorem guardedDiff_error (c : Prop) [Decidable c] (R : List α) (a b : Int) (u : α)
    (e : Error)
    (h : (if c then
        (match vecAt R a, vecAt R b with
          | Except.ok a, Except.ok b => Except.ok (a - b)
          | _, _ => Except.error Error.out_of_range)
        else Except.ok u) = Except.error e) : e = Error.out_of_range := by
  split at h
  · split at h
    · simp at h
    · simp only [Except.error.injEq] at h
      exact h.symm
  · simp at h

theorem stepR_error (R : List α) (Nx i : Int) (u : α) (e : Error)
    (he : stepR R Nx i u = Except.error e) : e = Error.out_of_range := by
  unfold stepR at he
  simp only at he
  split at he
  · simp only [Except.error.injEq] at he
    subst he
    exact guardedDiff_error _ _ _ _ _ _ (by assumption)
  · split at he
    · simp only [Except.error.injEq] at he
      subst he
      exact guardedDiff_error _ _ _ _ _ _ (by assumption)
    · exact guardedDiff_error _ _ _ _ _ _ he

theorem MdiskLoop_error (x : External α) (R Sigma : List α) (Nx : Int) (k : Nat) :
    ∀ e, MdiskLoop x R Sigma Nx k = Except.error e → e = Error.out_of_range := by
  induction k with
  | zero => intro e he; simp [MdiskLoop] at he
  | succ k ih =>
    intro e he
    unfold MdiskLoop at he
    cases hk : MdiskLoop x R Sigma Nx k with
    | error e1 =>
      rw [hk] at he
      simp only [Except.error.injEq] at he
      subst he
      exact ih _ hk
    | ok acc =>
      rw [hk] at he
      simp only at he
      split at he
      · simp at he
      · simp only [Except.error.injEq] at he
        subst he
        exact stepR_error _ _ _ _ _ (by assumption)
      · simp only [Except.error.injEq] at he
        exact he.symm

theorem makeRecord_error (p : Params α) (x : External α) (t : α) (s : State α)
    (W : List α) (cells : List (Cell α)) (e : Error)
    (he : makeRecord p x t s W cells = Except.error e) : e = Error.out_of_range := by
  unfold makeRecord at he
  cases hf : fulldataRows p s.h s.R s.F W cells s.Nx with
  | error e1 =>
    rw [hf] at he
    simp only [Except.error.injEq] at he
    subst he
    unfold fulldataRows at hf
    split at hf
    · cases ht : tabulateE (fun k => fulldataRow p s.h s.R s.F W cells ((k : Int) + 1))
          (s.Nx - 1).toNat with
      | error e2 =>
        rw [ht] at hf
        simp only [Except.error.injEq] at hf
        subst hf
        obtain ⟨i, _, hi⟩ := tabulateE_error_inv _ _ _ ht
        unfold fulldataRow at hi
        split at hi
        · split at hi <;> simp at hi
        · simp only [Except.error.injEq] at hi
          exact hi.symm
      | ok rows => rw [ht] at hf; simp at hf
    · simp at hf
  | ok rows =>
    rw [hf] at he
    simp only at he
    split at he
    · simp at he
    · simp only [Except.error.injEq] at he
      exact he.symm

/-- The exceptions that can leave one pass of the loop. -/
theorem step_error (p : Params α) (x : External α) (t : α) (s : State α) (e : Error)
    (he : step p x t s = Except.error e) :
    e = Error.out_of_range ∨
    (e = Error.length_error ∧ s.Nx < 0) ∨
    (e = Error.invalid_option_value ∧ 0 ≤ s.Nx ∧
      ((p.irr_factor_type ≠ "const" ∧ p.irr_factor_type ≠ "square") ∨
       (p.bound_cond_type ≠ "MdotOut" ∧ p.bound_cond_type ≠ "fourSigmaCrit" ∧
        p.bound_cond_type ≠ "Teff" ∧ p.bound_cond_type ≠ "Tirr"))) ∨
    (e ≠ Error.runtime_error ∧ 0 ≤ s.Nx ∧
      x.nonlenear_diffusion_nonuniform_1_2 p.tau p.eps 0
        (match p.driver with
          | Driver.freddi => s.Mdot_out
          | Driver.fred => s.Mdot_out / (2 * x.M_PI))
        (wunc x p.driver) s.h s.F = Except.error e) := by
  unfold step at he
  by_cases hNx : s.Nx < 0
  · simp only [hNx, if_true, Except.error.injEq] at he
    exact Or.inr (Or.inl ⟨he.symm, hNx⟩)
  have hNx0 : 0 ≤ s.Nx := by omega
  simp only [hNx, if_false] at he
  cases hT : tryBlock p x s with
  | error e1 =>
    rw [hT] at he
    simp only [Except.error.injEq] at he
    subst he
    rcases tryBlock_error p x s _ hT with h1 | ⟨h1, h2⟩
    · exact Or.inl h1
    · exact Or.inr (Or.inr (Or.inr ⟨h1, hNx0, h2⟩))
  | ok r =>
    rw [hT] at he
    cases r with
    | none => simp at he
    | some FW =>
      obtain ⟨F, W⟩ := FW
      simp only at he
      cases hM : Mdot_in_value p x s.h F with
      | error e1 =>
        rw [hM] at he
        simp only [Except.error.injEq] at he
        subst he
        exact Or.inl (Mdot_in_value_error _ _ _ _ _ hM)
      | ok M =>
        rw [hM] at he
        simp only at he
        cases hC : radiativeFields p x s.h s.R F W M s.Nx with
        | error e1 =>
          rw [hC] at he
          simp only [Except.error.injEq] at he
          subst he
          rcases radiativeFields_error _ _ _ _ _ _ _ _ _ hC with h1 | ⟨h1, h2⟩
          · exact Or.inl h1
          · exact Or.inr (Or.inr (Or.inl ⟨h1, hNx0, Or.inl h2⟩))
        | ok cells =>
          rw [hC] at he
          simp only at he
          cases hE : edgeIndex p x s.R cells s.Nx M s.Mdot_in with
          | error e1 =>
            rw [hE] at he
            simp only [Except.error.injEq] at he
            subst he
            rcases edgeIndex_error _ _ _ _ _ _ _ _ hE with h1 | ⟨h1, h2⟩
            · exact Or.inl h1
            · exact Or.inr (Or.inr (Or.inl ⟨h1, hNx0, Or.inr h2⟩))
          | ok ii =>
            rw [hE] at he
            simp only at he
            split at he
            · simp only [Except.error.injEq] at he
              subst he
              rename_i e1 hMd
              left
              cases hd : p.driver with
              | freddi =>
                rw [hd] at hMd
                exact MdiskLoop_error _ _ _ _ _ _ hMd
              | fred => rw [hd] at hMd; simp at hMd
            · split at he
              · simp only [Except.error.injEq] at he
                subst he
                exact Or.inl (makeRecord_error _ _ _ _ _ _ _ (by assumption))
              · simp at he
/-! ## How a run ends -/

theorem step_Nx_nonneg (p : Params α) (x : External α) (t : α) (s : State α)
    (o : StepOutput α) (h : step p x t s = Except.ok (some o)) : 0 ≤ o.state.Nx := by
  obtain ⟨hNx, _, _, _, hii, hN, _⟩ := step_inv p x t s o h
  obtain ⟨h0, _⟩ := edgeIndex_range _ _ _ _ _ _ _ _ hii
  rw [hN]
  unfold truncate
  split <;> simp only <;> omega

theorem timeLoop_fuel (p : Params α) (x : External α) (fuel : Nat) :
    ∀ (t : α) (s : State α), p.Time < t + (fuel : α) * p.tau →
      (timeLoop p x fuel t s).exit ≠ Exit.outOfFuel := by
  induction fuel with
  | zero =>
    intro t s h
    have ht : ¬ t ≤ p.Time := by
      simp only [Nat.cast_zero, zero_mul, add_zero] at h
      exact not_le.2 h
    simp [timeLoop, ht]
  | succ f ih =>
    intro t s h
    unfold timeLoop
    by_cases ht : t ≤ p.Time
    · simp only [ht, if_true]
      cases hs : step p x t s with
      | error e => simp
      | ok r =>
        cases r with
        | none => simp
        | some o =>
          simp only
          apply ih
          have : t + p.tau + (f : α) * p.tau = t + ((f + 1 : Nat) : α) * p.tau := by
            push_cast
            ring
          rw [this]
          exact h
    · simp [ht]

theorem timeLoop_exits (p : Params α) (x : External α)
    (hst : ∀ a b c d w h F e,
      x.nonlenear_diffusion_nonuniform_1_2 a b c d w h F = Except.error e →
        e = Error.runtime_error)
    (hirr : p.irr_factor_type = "const" ∨ p.irr_factor_type = "square")
    (hb : p.bound_cond_type = "MdotOut" ∨ p.bound_cond_type = "fourSigmaCrit"
      ∨ p.bound_cond_type = "Teff" ∨ p.bound_cond_type = "Tirr") (fuel : Nat) :
    ∀ (t : α) (s : State α), 0 ≤ s.Nx →
      (timeLoop p x fuel t s).exit = Exit.horizon ∨
      (timeLoop p x fuel t s).exit = Exit.nonConvergence ∨
      (timeLoop p x fuel t s).exit = Exit.exception Error.out_of_range ∨
      (timeLoop p x fuel t s).exit = Exit.outOfFuel := by
  induction fuel with
  | zero =>
    intro t s _
    unfold timeLoop
    split <;> simp
  | succ f ih =>
    intro t s hNx
    unfold timeLoop
    by_cases ht : t ≤ p.Time
    · simp only [ht, if_true]
      cases hs : step p x t s with
      | error e =>
        simp only
        rcases step_error p x t s e hs with h1 | ⟨_, h1⟩ | ⟨_, _, h1⟩ | ⟨h1, _, h2⟩
        · subst h1
          simp
        · omega
        · rcases h1 with ⟨h1, h2⟩ | ⟨h1, h2, h3, h4⟩
          · rcases hirr with h | h
            · exact absurd h h1
            · exact absurd h h2
          · rcases hb with h | h | h | h
            · exact absurd h h1
            · exact absurd h h2
            · exact absurd h h3
            · exact absurd h h4
        · exact absurd (hst _ _ _ _ _ _ _ _ h2) h1
      | ok r =>
        cases r with
        | none => simp
        | some o =>
          simp only
          exact ih _ _ (step_Nx_nonneg p x t s o hs)
    · simp [ht]

theorem scanDown_error_all (V : List α) (bound : Nat → α) (k : Nat) (hk : k ≤ V.length)
    (e : Error) (he : scanDown V bound k = Except.error e) :
    ∀ (j : Nat) (v : α), j < k → V[j]? = some v → v < bound j := by
  intro j v hj hv
  by_contra hcon
  obtain ⟨ii, hii⟩ := scanDown_total V bound k hk j hj v hv (not_lt.1 hcon)
  rw [hii] at he
  simp at he

/-- C15 (as the code has it). With a stepper that throws nothing but `runtime_error`
and recognised irradiation and boundary types, a loop entered with `Nx ≥ 0` ends by
the time horizon, by the `break` after non-convergence, or by an `out_of_range`
exception (the model's fuel aside, which suffices once `t + fuel * tau > Time`).  A
boundary scan from `k ≤ length` that returns an index returns one in `0..k-1` whose
entry is not below its bound; it returns one as soon as some entry below `k` is not
below its bound; and otherwise it throws `out_of_range`, every entry below `k` being
below its bound. -/
theorem run_exits_and_scan_range (p : Params α) (x : External α)
    (hst : ∀ a b c d w h F e,
      x.nonlenear_diffusion_nonuniform_1_2 a b c d w h F = Except.error e →
        e = Error.runtime_error)
    (hirr : p.irr_factor_type = "const" ∨ p.irr_factor_type = "square")
    (hb : p.bound_cond_type = "MdotOut" ∨ p.bound_cond_type = "fourSigmaCrit"
      ∨ p.bound_cond_type = "Teff" ∨ p.bound_cond_type = "Tirr")
    (fuel : Nat) (t : α) (s : State α) (hNx : 0 ≤ s.Nx) :
    ((timeLoop p x fuel t s).exit = Exit.horizon ∨
      (timeLoop p x fuel t s).exit = Exit.nonConvergence ∨
      (timeLoop p x fuel t s).exit = Exit.exception Error.out_of_range ∨
      (timeLoop p x fuel t s).exit = Exit.outOfFuel) ∧
    (p.Time < t + (fuel : α) * p.tau → (timeLoop p x fuel t s).exit ≠ Exit.outOfFuel) ∧
    (∀ (V : List α) (bound : Nat → α) (k : Nat), k ≤ V.length →
      (∀ ii : Int, scanDown V bound k = Except.ok ii →
        0 ≤ ii ∧ ii.toNat < k ∧ ∃ v, V[ii.toNat]? = some v ∧ bound ii.toNat ≤ v) ∧
      ((∃ (j : Nat) (v : α), j < k ∧ V[j]? = some v ∧ bound j ≤ v) →
        ∃ ii : Int, scanDown V bound k = Except.ok ii) ∧
      (∀ e, scanDown V bound k = Except.error e →
        e = Error.out_of_range ∧
        ∀ (j : Nat) (v : α), j < k → V[j]? = some v → v < bound j)) := by
  refine ⟨timeLoop_exits p x hst hirr hb fuel t s hNx, timeLoop_fuel p x fuel t s, ?_⟩
  intro V bound k hk
  refine ⟨?_, ?_, ?_⟩
  · intro ii hii
    obtain ⟨h1, h2, h3, _⟩ := scanDown_ok V bound k ii hii
    exact ⟨h1, h2, h3⟩
  · rintro ⟨j, v, hj, hv, hge⟩
    exact scanDown_total V bound k hk j hj v hv hge
  · intro e he
    exact ⟨scanDown_error V bound k e he, scanDown_error_all V bound k hk e he⟩

/-- C15, witness: the loop of `freddi.cpp` from `trimState`, `Teff` condition. -/
theorem run_exits_and_scan_range_witness :
    ((timeLoop (exampleParams Driver.freddi "Teff" "power" (0 : ℝ) (1 / 2))
        (closureExternal Real.rpow Real.pi 0 1 1) 5 0 (trimState Real.pi)).exit = Exit.horizon ∨
      (timeLoop (exampleParams Driver.freddi "Teff" "power" (0 : ℝ) (1 / 2))
        (closureExternal Real.rpow Real.pi 0 1 1) 5 0 (trimState Real.pi)).exit
        = Exit.nonConvergence ∨
      (timeLoop (exampleParams Driver.freddi "Teff" "power" (0 : ℝ) (1 / 2))
        (closureExternal Real.rpow Real.pi 0 1 1) 5 0 (trimState Real.pi)).exit
        = Exit.exception Error.out_of_range ∨
      (timeLoop (exampleParams Driver.freddi "Teff" "power" (0 : ℝ) (1 / 2))
        (closureExternal Real.rpow Real.pi 0 1 1) 5 0 (trimState Real.pi)).exit
        = Exit.outOfFuel) ∧
    (timeLoop (exampleParams Driver.freddi "Teff" "power" (0 : ℝ) (1 / 2))
        (closureExternal Real.rpow Real.pi 0 1 1) 5 0 (trimState Real.pi)).exit
      ≠ Exit.outOfFuel := by
  obtain ⟨h1, h2, _⟩ := run_exits_and_scan_range
    (exampleParams Driver.freddi "Teff" "power" (0 : ℝ) (1 / 2))
    (closureExternal Real.rpow Real.pi 0 1 1)
    (by intro a b c d w h F e he; simp [closureExternal] at he)
    (Or.inl rfl) (Or.inr (Or.inr (Or.inl rfl))) 5 0 (trimState Real.pi)
    (by norm_num [trimState])
  exact ⟨h1, h2 (by norm_num [exampleParams])⟩

/-! ## A small run of `freddi.cpp` over the reals -/

theorem smallRun_setup (b irr : String) (thr : ℝ) (hb : b ≠ "Tirr") :
    setup (runSetup b irr thr) (closureExternal Real.rpow Real.pi 0 1 1)
      (Libm.mk Real.sin Real.exp Real.sqrt) exampleOpacity
      = Except.ok (closureExternal Real.rpow Real.pi 0 1 1, smallState 1) := by
  have hF : initialValues ([1, 2] : List ℝ) 2
      (sinusValue (Libm.mk Real.sin Real.exp Real.sqrt) Real.pi 1 1 2) = Except.ok [0, 1] := by
    rw [initialValues_eq _ _ _ (by simp [toNat_two])]
    simp [toNat_two, List.range_succ, sinusValue]
    norm_num
  simp only [setup, runSetup, runParams, exampleSetup, exampleParams, exampleOpacity, hb,
    and_false, if_false, true_or, if_true, closureExternal, exampleGrid_linear,
    initialCondition, String.reduceEq, or_false, initialMdot_in, lt_self_iff_false,
    gt_iff_lt, hF, smallState]
  norm_num
theorem step_error_of_fields (p : Params α) (x : External α) (t : α) (s : State α)
    (F W : List α) (M : α) (e : Error) (hNx : 0 ≤ s.Nx)
    (hT : tryBlock p x s = Except.ok (some (F, W)))
    (hM : Mdot_in_value p x s.h F = Except.ok M)
    (hC : radiativeFields p x s.h s.R F W M s.Nx = Except.error e) :
    step p x t s = Except.error e := by
  have hneg : ¬ s.Nx < 0 := by omega
  simp only [step, hneg, if_false, hT, hM, hC]

theorem step_error_of_edgeIndex (p : Params α) (x : External α) (t : α) (s : State α)
    (F W : List α) (M : α) (cells : List (Cell α)) (e : Error) (hNx : 0 ≤ s.Nx)
    (hT : tryBlock p x s = Except.ok (some (F, W)))
    (hM : Mdot_in_value p x s.h F = Except.ok M)
    (hC : radiativeFields p x s.h s.R F W M s.Nx = Except.ok cells)
    (hE : edgeIndex p x s.R cells s.Nx M s.Mdot_in = Except.error e) :
    step p x t s = Except.error e := by
  have hneg : ¬ s.Nx < 0 := by omega
  simp only [step, hneg, if_false, hT, hM, hC, hE]

/-- The first pass of the small run up to the fields loop: the stepper returns
`F = [0, 1]`, `Mdot_in = 1`; with the `const` factor the fields loop stores one cell
with `0 ≤ Tph < 1`, with an unrecognised factor type it throws. -/
theorem smallRun_front (b irr : String) (thr : ℝ) :
    ∃ W, tryBlock (runParams b irr thr) (closureExternal Real.rpow Real.pi 0 1 1)
        (smallState 1) = Except.ok (some ([0, 1], W)) ∧
      Mdot_in_value (runParams b irr thr) (closureExternal Real.rpow Real.pi 0 1 1)
        (smallState (1 : ℝ)).h [0, 1] = Except.ok 1 ∧
      (irr = "const" → ∃ c1,
        radiativeFields (runParams b irr thr) (closureExternal Real.rpow Real.pi 0 1 1)
          (smallState (1 : ℝ)).h (smallState (1 : ℝ)).R [0, 1] W 1 (smallState (1 : ℝ)).Nx
          = Except.ok [zeroCell (closureExternal Real.rpow Real.pi 0 1 1), c1] ∧
        0 ≤ c1.Tph ∧ c1.Tph < 1) ∧
      (irr ≠ "const" → irr ≠ "square" →
        radiativeFields (runParams b irr thr) (closureExternal Real.rpow Real.pi 0 1 1)
          (smallState (1 : ℝ)).h (smallState (1 : ℝ)).R [0, 1] W 1 (smallState (1 : ℝ)).Nx
          = Except.error Error.invalid_option_value) := by
  have hW : wunc (closureExternal Real.rpow Real.pi 0 1 1) Driver.freddi ([1, 2] : List ℝ) [0, 1]
      1 1 = Except.ok [0, wuncValue (closureExternal Real.rpow Real.pi 0 1 1) Driver.freddi 1 2] := by
    have h := wunc_inside (closureExternal Real.rpow Real.pi 0 1 1) Driver.freddi
      ([1, 2] : List ℝ) [0, 1] 1 1 (le_refl 1) (by simp) (by simp)
    rw [show ((1 : Nat) : Int) = 1 from rfl] at h
    rw [h]
    simp
  have hT : tryBlock (runParams b irr thr) (closureExternal Real.rpow Real.pi 0 1 1)
      (smallState 1)
      = Except.ok (some ([0, 1],
          [0, wuncValue (closureExternal Real.rpow Real.pi 0 1 1) Driver.freddi 1 2])) := by
    have h21 : ((2 : Int) - 1) = 1 := by norm_num
    have hs : (closureExternal Real.rpow Real.pi 0 1 1).nonlenear_diffusion_nonuniform_1_2
        = fun _ _ _ _ _ _ F => Except.ok F := rfl
    simp only [tryBlock, smallState, runParams, exampleParams, h21, hs, hW]
  have hM : Mdot_in_value (runParams b irr thr) (closureExternal Real.rpow Real.pi 0 1 1)
      (smallState (1 : ℝ)).h [0, 1] = Except.ok 1 := by
    norm_num [Mdot_in_value, vecAt, runParams, exampleParams, smallState]
  generalize wuncValue (closureExternal Real.rpow Real.pi 0 1 1) Driver.freddi 1 2 = W1 at hT
  have h2 : (smallState (1 : ℝ)).Nx.toNat = 2 := rfl
  refine ⟨[0, W1], hT, hM, ?_, ?_⟩
  · intro hirr
    subst hirr
    obtain ⟨c1, hc1⟩ : ∃ c1, cellAt (runParams b "const" thr)
        (closureExternal Real.rpow Real.pi 0 1 1)
        (smallState (1 : ℝ)).h (smallState (1 : ℝ)).R [0, 1] [0, W1] 1 ((1 : Nat) : Int)
        = Except.ok c1 := by
      simp [cellAt, vecAt, smallState, irradiation, runParams, exampleParams]
    have hC : radiativeFields (runParams b "const" thr)
        (closureExternal Real.rpow Real.pi 0 1 1)
        (smallState (1 : ℝ)).h (smallState (1 : ℝ)).R [0, 1] [0, W1] 1 (smallState (1 : ℝ)).Nx
        = Except.ok [zeroCell (closureExternal Real.rpow Real.pi 0 1 1), c1] := by
      simp only [radiativeFields, h2, tabulateE, if_true, one_ne_zero, if_false, hc1,
        List.nil_append, List.singleton_append]
    refine ⟨c1, hC, ?_⟩
    obtain ⟨_, hTph⟩ := cellAt_zero_Cirr _ _ rpow_PowLaws _ _ _ _ _ _ _ rfl rfl hc1
    obtain ⟨_, hi, _, Fi, _, _, _, h2, _, h4, _, _, hTv, _⟩ :=
      cellAt_inv _ _ _ _ _ _ _ _ _ hc1
    have hhi : hi = 2 := by
      have := ((vecAt_ok_iff _ _ _).1 h2).2
      simp [smallState] at this
      exact this.symm
    have hFi : Fi = 1 := by
      have := ((vecAt_ok_iff _ _ _).1 h4).2
      simp at this
      exact this.symm
    subst hhi hFi
    have ha0 : 0 < Real.rpow 2 (-1.75) := Real.rpow_pos_of_pos (by norm_num) _
    have ha1 : Real.rpow 2 (-1.75) < 1 :=
      Real.rpow_lt_one_of_one_lt_of_neg (by norm_num) (by norm_num)
    have hbase : 3 / (8 * Real.pi) * 1 / 1 < (1 : ℝ) := by
      have hpi := Real.pi_gt_three
      rw [mul_one, div_one, div_lt_one (by positivity)]
      linarith
    have hb0 : 0 < Real.rpow (3 / (8 * Real.pi) * 1 / 1) 0.25 :=
      Real.rpow_pos_of_pos (by positivity) _
    have hb1 : Real.rpow (3 / (8 * Real.pi) * 1 / 1) 0.25 < 1 :=
      Real.rpow_lt_one (by positivity) hbase (by norm_num)
    have hv : c1.Tph_vis
        = 1 * Real.rpow 2 (-1.75) * Real.rpow (3 / (8 * Real.pi) * 1 / 1) 0.25 := by
      rw [hTv]
      rfl
    have hv0 : 0 ≤ c1.Tph_vis := by
      rw [hv]
      positivity
    rw [hTph hv0, hv]
    refine ⟨by positivity, ?_⟩
    nlinarith [mul_pos ha0 hb0]
  · intro h1 h3
    have hc1 : cellAt (runParams b irr thr) (closureExternal Real.rpow Real.pi 0 1 1)
        (smallState (1 : ℝ)).h (smallState (1 : ℝ)).R [0, 1] [0, W1] 1 ((1 : Nat) : Int)
        = Except.error Error.invalid_option_value := by
      simp [cellAt, vecAt, smallState, irradiation, runParams, exampleParams, h1, h3]
    simp only [radiativeFields, h2, tabulateE, if_true, one_ne_zero, if_false, hc1]
/-! ## What the set-up checks -/

theorem buildGrid_unrecognized (fl : α → α) (pow : α → α → α) (grid_scale : String)
    (h_in h_out GM : α) (N : Int) (h1 : grid_scale ≠ "log") (h2 : grid_scale ≠ "linear")
    (hN : 1 ≤ N) :
    buildGrid fl pow grid_scale h_in h_out GM N
      = Except.error Error.invalid_option_value := by
  have hneg : ¬ N < 0 := by omega
  have ht := tabulateE_error (gridValue fl pow grid_scale h_in h_out N)
    Error.invalid_option_value N.toNat (by intro i; simp [gridValue, h1, h2]) (by omega)
  simp only [buildGrid, hneg, if_false, ht]

theorem buildGrid_error (fl : α → α) (pow : α → α → α) (grid_scale : String)
    (h_in h_out GM : α) (N : Int) (e : Error)
    (he : buildGrid fl pow grid_scale h_in h_out GM N = Except.error e) :
    (e = Error.length_error ∧ N < 0) ∨ e = Error.invalid_option_value := by
  unfold buildGrid at he
  split at he
  · simp only [Except.error.injEq] at he
    exact Or.inl ⟨he.symm, by assumption⟩
  · cases ht : tabulateE (gridValue fl pow grid_scale h_in h_out N) N.toNat with
    | error e1 =>
      rw [ht] at he
      simp only [Except.error.injEq] at he
      subst he
      obtain ⟨i, _, hi⟩ := tabulateE_error_inv _ _ _ ht
      unfold gridValue at hi
      split at hi
      · simp at hi
      · split at hi
        · simp at hi
        · simp only [Except.error.injEq] at hi
          exact Or.inr hi.symm
    | ok h => rw [ht] at he; simp at he

theorem buildGrid_ok_Nx (fl : α → α) (pow : α → α → α) (grid_scale : String)
    (h_in h_out GM : α) (N : Int) (r : List α × List α)
    (h : buildGrid fl pow grid_scale h_in h_out GM N = Except.ok r) : 0 ≤ N := by
  unfold buildGrid at h
  split at h
  · simp at h
  · omega

theorem initialCondition_unrecognized (c : Setup α) (x : External α) (m : Libm α)
    (h R : List α)
    (h1 : c.p.initial_cond_shape ≠ "sinusgauss") (h2 : c.p.initial_cond_shape ≠ "power")
    (h3 : c.p.initial_cond_shape ≠ "sinus") (h4 : c.p.initial_cond_shape ≠ "sinusparabola")
    (h5 : c.p.initial_cond_shape ≠ "quasistat")
    (h6 : c.p.driver = Driver.freddi → c.p.initial_cond_shape ≠ "powerF" ∧
      c.p.initial_cond_shape ≠ "powerSigma" ∧ c.p.initial_cond_shape ≠ "sinusF") :
    initialCondition c x m h R = Except.error Error.invalid_option_value := by
  by_cases hd : c.p.driver = Driver.freddi
  · obtain ⟨h7, h8, h9⟩ := h6 hd
    simp [initialCondition, h1, h2, h3, h4, h5, h7, h8, h9]
  · simp [initialCondition, h1, h2, h3, h4, h5, hd]

theorem setup_ok_Nx (c : Setup α) (x : External α) (m : Libm α)
    (newOpacityRelated : String → α → α → α → Option (OpacityRelated α))
    (x1 : External α) (s0 : State α)
    (h : setup c x m newOpacityRelated = Except.ok (x1, s0)) : 0 ≤ s0.Nx := by
  unfold setup at h
  split at h
  · simp at h
  · split at h
    · simp at h
    · split at h
      · simp at h
      · rename_i hg
        have hN := buildGrid_ok_Nx _ _ _ _ _ _ _ _ hg
        split at h
        · simp at h
        · simp only [Except.ok.injEq, Prod.mk.injEq] at h
          rw [← h.2]
          exact hN

theorem timeLoop_exception_calls (p : Params α) (x : External α) (fuel : Nat) :
    ∀ (t : α) (s : State α) (e : Error), 0 ≤ s.Nx →
      (timeLoop p x fuel t s).exit = Exit.exception e →
      1 ≤ (timeLoop p x fuel t s).stepperCalls := by
  induction fuel with
  | zero =>
    intro t s e _ h
    unfold timeLoop at h
    split at h <;> simp at h
  | succ f ih =>
    intro t s e hNx h
    unfold timeLoop at h ⊢
    by_cases ht : t ≤ p.Time
    · simp only [ht, if_true] at h ⊢
      cases hs : step p x t s with
      | error e1 =>
        have hneg : ¬ s.Nx < 0 := by omega
        simp [stepperCallsOnError, hneg]
      | ok r =>
        cases r with
        | none => simp
        | some o => simp
    · simp [ht] at h

/-- C11 (as the code has it). An unrecognised opacity law, an unrecognised grid scale
(when `Nx ≥ 1`), and an unrecognised initial-condition shape (when `Nx ≥ 0`) end the
run in the set-up, with no stepper call, by `invalid_option_value` (or by the `po::error`
of the `--Cirr` check, which comes first).  Once the set-up has succeeded, whatever
the boundary-condition and irradiation-factor types are, no exception leaves the run
before the stepper has been called. -/
theorem setup_rejects_before_stepper (c : Setup α) (x : External α) (m : Libm α)
    (newOpacityRelated : String → α → α → α → Option (OpacityRelated α)) (fuel : Nat) :
    (newOpacityRelated c.opacity_type c.p.Mx c.p.alpha c.mu = none →
      (main c x m newOpacityRelated fuel).stepperCalls = 0 ∧
      ((main c x m newOpacityRelated fuel).exit = Exit.exception Error.invalid_option_value ∨
       (main c x m newOpacityRelated fuel).exit
         = Exit.exception Error.program_options_error)) ∧
    (c.grid_scale ≠ "log" → c.grid_scale ≠ "linear" → 1 ≤ c.Nx →
      (main c x m newOpacityRelated fuel).stepperCalls = 0 ∧
      ((main c x m newOpacityRelated fuel).exit = Exit.exception Error.invalid_option_value ∨
       (main c x m newOpacityRelated fuel).exit
         = Exit.exception Error.program_options_error)) ∧
    (c.p.initial_cond_shape ≠ "sinusgauss" → c.p.initial_cond_shape ≠ "power" →
      c.p.initial_cond_shape ≠ "sinus" → c.p.initial_cond_shape ≠ "sinusparabola" →
      c.p.initial_cond_shape ≠ "quasistat" →
      (c.p.driver = Driver.freddi → c.p.initial_cond_shape ≠ "powerF" ∧
        c.p.initial_cond_shape ≠ "powerSigma" ∧ c.p.initial_cond_shape ≠ "sinusF") →
      0 ≤ c.Nx →
      (main c x m newOpacityRelated fuel).stepperCalls = 0 ∧
      ((main c x m newOpacityRelated fuel).exit = Exit.exception Error.invalid_option_value ∨
       (main c x m newOpacityRelated fuel).exit
         = Exit.exception Error.program_options_error)) ∧
    (∀ x1 s0, setup c x m newOpacityRelated = Except.ok (x1, s0) →
      ∀ e, (main c x m newOpacityRelated fuel).exit = Exit.exception e →
        1 ≤ (main c x m newOpacityRelated fuel).stepperCalls) := by
  have key : ∀ e, setup c x m newOpacityRelated = Except.error e →
      (e = Error.invalid_option_value ∨ e = Error.program_options_error) →
      (main c x m newOpacityRelated fuel).stepperCalls = 0 ∧
      ((main c x m newOpacityRelated fuel).exit = Exit.exception Error.invalid_option_value ∨
       (main c x m newOpacityRelated fuel).exit
         = Exit.exception Error.program_options_error) := by
    intro e he hcase
    unfold main
    rw [he]
    rcases hcase with h | h <;> subst h <;> simp
  refine ⟨?_, ?_, ?_, ?_⟩
  · intro hop
    by_cases hchk : c.p.driver = Driver.freddi ∧ c.p.C_irr_input ≤ 0
        ∧ c.p.bound_cond_type = "Tirr"
    · exact key _ (by simp only [setup, hchk, and_self, if_true]) (Or.inr rfl)
    · exact key _ (by simp only [setup, hchk, if_false, hop]) (Or.inl rfl)
  · intro h1 h2 hN
    by_cases hchk : c.p.driver = Driver.freddi ∧ c.p.C_irr_input ≤ 0
        ∧ c.p.bound_cond_type = "Tirr"
    · exact key _ (by simp only [setup, hchk, and_self, if_true]) (Or.inr rfl)
    · cases hop : newOpacityRelated c.opacity_type c.p.Mx c.p.alpha c.mu with
      | none => exact key _ (by simp only [setup, hchk, if_false, hop]) (Or.inl rfl)
      | some oprel =>
        exact key _ (by
          simp only [setup, hchk, if_false, hop,
            buildGrid_unrecognized id x.pow c.grid_scale c.h_in c.h_out c.p.GM c.Nx h1 h2 hN])
          (Or.inl rfl)
  · intro h1 h2 h3 h4 h5 h6 hN
    by_cases hchk : c.p.driver = Driver.freddi ∧ c.p.C_irr_input ≤ 0
        ∧ c.p.bound_cond_type = "Tirr"
    · exact key _ (by simp only [setup, hchk, and_self, if_true]) (Or.inr rfl)
    · cases hop : newOpacityRelated c.opacity_type c.p.Mx c.p.alpha c.mu with
      | none => exact key _ (by simp only [setup, hchk, if_false, hop]) (Or.inl rfl)
      | some oprel =>
        cases hg : buildGrid id x.pow c.grid_scale c.h_in c.h_out c.p.GM c.Nx with
        | error e =>
          rcases buildGrid_error _ _ _ _ _ _ _ _ hg with ⟨_, hlt⟩ | he
          · omega
          · subst he
            exact key _ (by simp only [setup, hchk, if_false, hop, hg]) (Or.inl rfl)
        | ok r =>
          obtain ⟨h, R⟩ := r
          exact key _ (by
            simp only [setup, hchk, if_false, hop, hg,
              initialCondition_unrecognized c _ m h R h1 h2 h3 h4 h5 h6])
            (Or.inl rfl)
  · intro x1 s0 hs e he
    unfold main at he ⊢
    rw [hs] at he ⊢
    exact timeLoop_exception_calls c.p x1 fuel 0 s0 e (setup_ok_Nx c x m _ x1 s0 hs) he
/-- C11, witness: the small run with `--opacity=foo` ends in the set-up. -/
theorem setup_rejects_before_stepper_witness :
    (main { runSetup "Teff" "const" (0 : ℝ) with opacity_type := "foo" }
        (closureExternal Real.rpow Real.pi 0 1 1) (Libm.mk Real.sin Real.exp Real.sqrt)
        exampleOpacity 1).stepperCalls = 0 ∧
    ((main { runSetup "Teff" "const" (0 : ℝ) with opacity_type := "foo" }
        (closureExternal Real.rpow Real.pi 0 1 1) (Libm.mk Real.sin Real.exp Real.sqrt)
        exampleOpacity 1).exit = Exit.exception Error.invalid_option_value ∨
     (main { runSetup "Teff" "const" (0 : ℝ) with opacity_type := "foo" }
        (closureExternal Real.rpow Real.pi 0 1 1) (Libm.mk Real.sin Real.exp Real.sqrt)
        exampleOpacity 1).exit = Exit.exception Error.program_options_error) :=
  (setup_rejects_before_stepper { runSetup "Teff" "const" (0 : ℝ) with opacity_type := "foo" }
    (closureExternal Real.rpow Real.pi 0 1 1) (Libm.mk Real.sin Real.exp Real.sqrt)
    exampleOpacity 1).1 (by simp [exampleOpacity])

/-- C11, counterexample. `freddi.cpp` on the linear grid of two points (`h_in = 1`,
`h_out = 2`, `--initialcond=sinus`, `F0 = 1`, `--Cirr=0`), the stepper returning `F`
unchanged: with `--boundcond=foo` and with `--irrfactortype=foo` the set-up succeeds,
the stepper is called once, and only then `invalid_option_value` is thrown, from
inside the first pass of the loop. -/
theorem unrecognized_types_reach_stepper :
    main (runSetup "foo" "const" (0 : ℝ)) (closureExternal Real.rpow Real.pi 0 1 1)
        (Libm.mk Real.sin Real.exp Real.sqrt) exampleOpacity 1
      = { records := [], stepperCalls := 1,
          exit := Exit.exception Error.invalid_option_value } ∧
    main (runSetup "Teff" "foo" (0 : ℝ)) (closureExternal Real.rpow Real.pi 0 1 1)
        (Libm.mk Real.sin Real.exp Real.sqrt) exampleOpacity 1
      = { records := [], stepperCalls := 1,
          exit := Exit.exception Error.invalid_option_value } := by
  have hT : (0 : ℝ) ≤ 3 := by norm_num
  constructor
  · obtain ⟨W, hTry, hM, hconst, _⟩ := smallRun_front "foo" "const" (0 : ℝ)
    obtain ⟨c1, hC, _⟩ := hconst rfl
    have hE : edgeIndex (runParams "foo" "const" (0 : ℝ))
        (closureExternal Real.rpow Real.pi 0 1 1) (smallState (1 : ℝ)).R
        [zeroCell (closureExternal Real.rpow Real.pi 0 1 1), c1] (smallState (1 : ℝ)).Nx 1
        (smallState (1 : ℝ)).Mdot_in = Except.error Error.invalid_option_value := by
      simp [edgeIndex, runParams, exampleParams]
    have hstep := step_error_of_edgeIndex _ _ (0 : ℝ) _ _ _ _ _ _
      (by norm_num [smallState]) hTry hM hC hE
    have hp : (runSetup "foo" "const" (0 : ℝ)).p = runParams "foo" "const" 0 := rfl
    have hTime : (runParams "foo" "const" (0 : ℝ)).Time = 3 := rfl
    simp only [main, smallRun_setup "foo" "const" 0 (by decide), timeLoop, hp, hTime, hT,
      if_true, hstep, stepperCallsOnError]
    norm_num [smallState]
  · obtain ⟨W, hTry, hM, _, hbad⟩ := smallRun_front "Teff" "foo" (0 : ℝ)
    have hC := hbad (by decide) (by decide)
    have hstep := step_error_of_fields _ _ (0 : ℝ) _ _ _ _ _
      (by norm_num [smallState]) hTry hM hC
    have hp : (runSetup "Teff" "foo" (0 : ℝ)).p = runParams "Teff" "foo" 0 := rfl
    have hTime : (runParams "Teff" "foo" (0 : ℝ)).Time = 3 := rfl
    simp only [main, smallRun_setup "Teff" "foo" 0 (by decide), timeLoop, hp, hTime, hT,
      if_true, hstep, stepperCallsOnError]
    norm_num [smallState]

/-- C15, counterexample. `freddi.cpp` on the linear grid of two points (`h_in = 1`,
`h_out = 2`, `--initialcond=sinus`, `F0 = 1`, `--Cirr=0`, `--boundcond=Teff`,
threshold `1`), the stepper returning `F` unchanged: in the first pass
`Tph = [0, Tph₁]` with `Tph₁ < 1`, the scan finds no entry that reaches the
threshold, `Tph.at(-1)` throws, and the run ends by `out_of_range`. -/
theorem scan_leaves_the_grid :
    main (runSetup "Teff" "const" (1 : ℝ)) (closureExternal Real.rpow Real.pi 0 1 1)
        (Libm.mk Real.sin Real.exp Real.sqrt) exampleOpacity 1
      = { records := [], stepperCalls := 1, exit := Exit.exception Error.out_of_range } := by
  have hT : (0 : ℝ) ≤ 3 := by norm_num
  obtain ⟨W, hTry, hM, hconst, _⟩ := smallRun_front "Teff" "const" (1 : ℝ)
  obtain ⟨c1, hC, _, hlt⟩ := hconst rfl
  have hE : edgeIndex (runParams "Teff" "const" (1 : ℝ))
      (closureExternal Real.rpow Real.pi 0 1 1) (smallState (1 : ℝ)).R
      [zeroCell (closureExternal Real.rpow Real.pi 0 1 1), c1] (smallState (1 : ℝ)).Nx 1
      (smallState (1 : ℝ)).Mdot_in = Except.error Error.out_of_range := by
    rw [edgeIndex_Teff _ _ _ _ _ _ _ rfl]
    have h2 : (smallState (1 : ℝ)).Nx.toNat = 2 := rfl
    have hv1 : vecAt (List.map Cell.Tph [zeroCell (closureExternal Real.rpow Real.pi 0 1 1), c1])
        ((1 : Nat) : Int) = Except.ok c1.Tph := vecAt_natCast _ 1 _ rfl
    have hv0 : vecAt (List.map Cell.Tph [zeroCell (closureExternal Real.rpow Real.pi 0 1 1), c1])
        ((0 : Nat) : Int) = Except.ok 0 := vecAt_natCast _ 0 _ rfl
    have hthr : (runParams "Teff" "const" (1 : ℝ)).T_min_hot_disk = 1 := rfl
    have h01 : (0 : ℝ) < 1 := by norm_num
    simp only [h2, scanDown, hv1, hv0, hthr, hlt, h01, if_true]
  have hstep := step_error_of_edgeIndex _ _ (0 : ℝ) _ _ _ _ _ _
    (by norm_num [smallState]) hTry hM hC hE
  have hp : (runSetup "Teff" "const" (1 : ℝ)).p = runParams "Teff" "const" 1 := rfl
  have hTime : (runParams "Teff" "const" (1 : ℝ)).Time = 3 := rfl
  simp only [main, smallRun_setup "Teff" "const" 1 (by decide), timeLoop, hp, hTime, hT,
    if_true, hstep, stepperCallsOnError]
  norm_num [smallState]
/-! ## Ordering of the temperatures -/

theorem irradiation_Qx_nonneg (p : Params α) (x : External α) (Mdot_in Height Ri C Qx : α)
    (hpi : 0 ≤ x.M_PI) (hC : 0 ≤ p.C_irr_input) (heta : 0 ≤ p.eta) (hM : 0 ≤ Mdot_in)
    (h : irradiation p x Mdot_in Height Ri = Except.ok (C, Qx)) : 0 ≤ Qx := by
  have hden : 0 ≤ 4 * x.M_PI * Ri * Ri := by
    rw [mul_assoc]
    exact mul_nonneg (mul_nonneg (by norm_num) hpi) (mul_self_nonneg Ri)
  unfold irradiation at h
  split at h
  · simp only [Except.ok.injEq, Prod.mk.injEq] at h
    rw [← h.2]
    apply div_nonneg _ hden
    rw [mul_assoc]
    exact mul_nonneg (mul_nonneg (mul_nonneg hC heta) hM) (mul_self_nonneg _)
  · split at h
    · simp only [Except.ok.injEq, Prod.mk.injEq] at h
      rw [← h.2]
      apply div_nonneg _ hden
      have h1 : 0 ≤ p.C_irr_input * (Height / Ri) * (Height / Ri) := by
        rw [mul_assoc]
        exact mul_nonneg hC (mul_self_nonneg _)
      rw [mul_assoc (p.C_irr_input * (Height / Ri) * (Height / Ri) * p.eta * Mdot_in)]
      exact mul_nonneg (mul_nonneg (mul_nonneg h1 heta) hM) (mul_self_nonneg _)
    · simp at h

theorem Tph_bounds (pow : α → α → α) (hp : PowLaws pow) (hfour : ∀ y, 0 ≤ pow y 4)
    (T q : α) (hq : 0 ≤ q) :
    pow q 0.25 ≤ pow (pow T 4 + q) 0.25 ∧ T ≤ pow (pow T 4 + q) 0.25 := by
  have h4 := hfour T
  have hq4 : (0 : α) ≤ 0.25 := by norm_num
  constructor
  · exact hp.base_le _ _ _ hq (by linarith) hq4
  · rcases le_or_lt 0 T with hT | hT
    · have h1 : pow (pow T 4) 0.25 = T := by
        rw [hp.exp_mul T 4 0.25 hT]
        have : (4 : α) * 0.25 = 1 := by norm_num
        rw [this, hp.exp_one T hT]
      calc T = pow (pow T 4) 0.25 := h1.symm
        _ ≤ pow (pow T 4 + q) 0.25 := hp.base_le _ _ _ h4 (by linarith) hq4
    · exact le_trans (le_of_lt hT) (hp.nonneg _ _ (by linarith))

theorem cell_Tph_bounds (p : Params α) (x : External α) (h R F W : List α) (Mdot_in : α)
    (i : Int) (c : Cell α) (hp : PowLaws x.pow) (hfour : ∀ y, 0 ≤ x.pow y 4)
    (hpi : 0 ≤ x.M_PI) (hsb : 0 ≤ x.STEFAN_BOLTZMANN_CONSTANT)
    (hC : 0 ≤ p.C_irr_input) (heta : 0 ≤ p.eta) (hM : 0 ≤ Mdot_in)
    (hc : cellAt p x h R F W Mdot_in i = Except.ok c) :
    c.Tirr ≤ c.Tph ∧ c.Tph_vis ≤ c.Tph := by
  obtain ⟨Wi, hi, Ri, Fi, C, Qx, _, _, _, _, hirr, _, hvis, _, hTirr, hTph⟩ :=
    cellAt_inv p x h R F W Mdot_in i c hc
  have hQ := irradiation_Qx_nonneg p x Mdot_in _ Ri C Qx hpi hC heta hM hirr
  have hq : 0 ≤ Qx / x.STEFAN_BOLTZMANN_CONSTANT := div_nonneg hQ hsb
  rw [hTirr, hTph, hvis]
  exact Tph_bounds x.pow hp hfour _ _ hq

theorem scanDown_mono (V V2 : List α) (bound : Nat → α) (hlen : V.length = V2.length)
    (hle : ∀ (i : Nat) (a b : α), V[i]? = some a → V2[i]? = some b → a ≤ b) (k : Nat) :
    ∀ i : Int, scanDown V bound k = Except.ok i →
      ∃ j : Int, scanDown V2 bound k = Except.ok j ∧ i ≤ j := by
  induction k with
  | zero => intro i h; simp [scanDown] at h
  | succ k ih =>
    intro i h
    have hrange := scanDown_ok V bound (k + 1) i h
    unfold scanDown at h ⊢
    cases hv : vecAt V (k : Int) with
    | error e => rw [hv] at h; simp at h
    | ok v =>
      rw [hv] at h
      have hv1 := ((vecAt_ok_iff V _ _).1 hv).2
      simp only [Int.toNat_ofNat] at hv1
      have hk : k < V2.length := by
        rw [← hlen]
        by_contra hcon
        rw [List.getElem?_eq_none (by omega)] at hv1
        simp at hv1
      have hv2 : V2[k]? = some (V2.get ⟨k, hk⟩) := List.getElem?_eq_getElem _
      rw [vecAt_natCast V2 k _ hv2]
      simp only
      by_cases hb : V2.get ⟨k, hk⟩ < bound k
      · have hvb : v < bound k := lt_of_le_of_lt (hle k _ _ hv1 hv2) hb
        simp only [hvb, if_true] at h
        simp only [hb, if_true]
        exact ih i h
      · simp only [hb, if_false]
        exact ⟨k, rfl, by omega⟩

/-- C18. In a completed pass with `C_irr_input ≥ 0`, `eta ≥ 0` and `Mdot_in ≥ 0`
(`M_PI` and the Stefan–Boltzmann constant being non-negative and `pow(y, 4) ≥ 0`),
every index has `Tirr[i] ≤ Tph[i]` and `Tph_vis[i] ≤ Tph[i]`; and whenever the scan of
`Tirr` against the threshold from `k` stops at an index `i`, the scan of `Tph` against
the same threshold from `k` stops at an index `j ≥ i`. -/
theorem Tph_dominates_Tirr_and_Tph_vis (p : Params α) (x : External α) (t : α) (s : State α)
    (o : StepOutput α) (hp : PowLaws x.pow) (hfour : ∀ y, 0 ≤ x.pow y 4)
    (hpi : 0 ≤ x.M_PI) (hsb : 0 ≤ x.STEFAN_BOLTZMANN_CONSTANT)
    (hC : 0 ≤ p.C_irr_input) (heta : 0 ≤ p.eta)
    (hstep : step p x t s = Except.ok (some o)) (hM : 0 ≤ o.state.Mdot_in) :
    (∀ (i : Nat) (c : Cell α), o.cells[i]? = some c →
      c.Tirr ≤ c.Tph ∧ c.Tph_vis ≤ c.Tph) ∧
    (∀ (T : α) (k : Nat) (i : Int),
      scanDown (o.cells.map Cell.Tirr) (fun _ => T) k = Except.ok i →
      ∃ j : Int, scanDown (o.cells.map Cell.Tph) (fun _ => T) k = Except.ok j ∧ i ≤ j) := by
  obtain ⟨hNx, _, _, hcells, _⟩ := step_inv p x t s o hstep
  obtain ⟨hlen, hzero, hrest⟩ := radiativeFields_inv _ _ _ _ _ _ _ _ _ hcells
  have hall : ∀ (i : Nat) (c : Cell α), o.cells[i]? = some c →
      c.Tirr ≤ c.Tph ∧ c.Tph_vis ≤ c.Tph := by
    intro i c hc
    have hi : i < o.cells.length := by
      by_contra hcon
      rw [List.getElem?_eq_none (by omega)] at hc
      simp at hc
    rcases Nat.eq_zero_or_pos i with h0 | hpos
    · subst h0
      have hz := hzero (by omega)
      rw [hz] at hc
      simp only [Option.some.injEq] at hc
      subst hc
      simp [zeroCell]
    · obtain ⟨c2, hc2, hcell⟩ := hrest i hpos (by omega)
      rw [hc2] at hc
      simp only [Option.some.injEq] at hc
      subst hc
      exact cell_Tph_bounds p x _ _ _ _ _ _ _ hp hfour hpi hsb hC heta hM hcell
  refine ⟨hall, ?_⟩
  intro T k i hscan
  apply scanDown_mono (o.cells.map Cell.Tirr) (o.cells.map Cell.Tph) (fun _ => T)
    (by simp) _ k i hscan
  intro j a b ha hb
  rw [List.getElem?_map] at ha hb
  cases hc : o.cells[j]? with
  | none => rw [hc] at ha; simp at ha
  | some c =>
    rw [hc] at ha hb
    simp only [Option.map_some', Option.some.injEq] at ha hb
    rw [← ha, ← hb]
    exact (hall j c hc).1
theorem rpow_four_nonneg (y : ℝ) : 0 ≤ Real.rpow y 4 := by
  show 0 ≤ y ^ (4 : ℝ)
  rw [show (4 : ℝ) = ((4 : ℕ) : ℝ) by norm_num, Real.rpow_natCast]
  positivity

/-- C18, witness: the pass of `freddi.cpp` from `smallState 1`. -/
theorem Tph_dominates_Tirr_and_Tph_vis_witness :
    ∃ o, step (smallParams (1 : ℝ)) (closureExternal Real.rpow Real.pi 0 1 1) 0 (smallState 1)
        = Except.ok (some o) ∧
      (∀ (i : Nat) (c : Cell ℝ), o.cells[i]? = some c →
        c.Tirr ≤ c.Tph ∧ c.Tph_vis ≤ c.Tph) ∧
      (∀ (T : ℝ) (k : Nat) (i : Int),
        scanDown (o.cells.map Cell.Tirr) (fun _ => T) k = Except.ok i →
        ∃ j : Int, scanDown (o.cells.map Cell.Tph) (fun _ => T) k = Except.ok j ∧ i ≤ j) := by
  obtain ⟨o, ho, hF, _⟩ := smallStep_completes 1
  refine ⟨o, ho, Tph_dominates_Tirr_and_Tph_vis _ _ _ _ o rpow_PowLaws rpow_four_nonneg
    (le_of_lt Real.pi_pos) (by norm_num [closureExternal])
    (by norm_num [smallParams, exampleParams]) (by norm_num [smallParams, exampleParams])
    ho ?_⟩
  obtain ⟨_, _, hM, _⟩ := step_inv _ _ _ _ o ho
  rw [hF] at hM
  have h1 : vecAt ([0, 1] : List ℝ) 1 = Except.ok 1 := vecAt_natCast _ 1 _ rfl
  have h0 : vecAt ([0, 1] : List ℝ) 0 = Except.ok 0 := vecAt_natCast _ 0 _ rfl
  have g1 : vecAt ([1, 2] : List ℝ) 1 = Except.ok 2 := vecAt_natCast _ 1 _ rfl
  have g0 : vecAt ([1, 2] : List ℝ) 0 = Except.ok 1 := vecAt_natCast _ 0 _ rfl
  simp only [Mdot_in_value, smallState, smallParams, exampleParams, h1, h0, g1, g0,
    Except.ok.injEq] at hM
  rw [← hM]
  norm_num

end Theorems

end Freddi
